import Mathlib

/-!
# Clover: work-group built-ins, the barrier, kernel arguments, events,
programs and image access

A shallow embedding of `src/core/cpu/builtins.cpp`, of the argument handling
of `src/core/kernel.cpp`, of the constructor of `RWBufferEvent` and the
dependent queues of `UserEvent` in `src/core/events.cpp`, of
`clCreateProgramWithBinary` and `clBuildProgram` in `src/api/api_program.cpp`
and of the swizzle and conversion helpers of `src/core/cpu/sampler.cpp`, with
the work-group scheduler declared in `src/core/cpu/kernel.h`.

* `size_t` values are natural numbers; `size_t` arithmetic is taken modulo
  `SIZE_T = 2 ^ 64`.
* Pointers are natural numbers (`0` is the null pointer).  The memory that
  holds `Context` records is a map from addresses to records.
* A fixed-size C array is a list; reading it at an index is `xs[d]?`, and
  `none` stands for a read outside the array.
* The host calls made by `barrier` (`mmap`, `munmap`, `getcontext`,
  `makecontext`, `swapcontext`, the write to `std::cerr`) are recorded, in
  order, in the trace of the worker thread.
-/

namespace Clover

/-! ## Data model -/

/-- Modulus of `size_t` arithmetic (64-bit host). -/
def SIZE_T : Nat := 2 ^ 64

/-- Modelled from the spec: the constant `MAX_WORK_DIMS`, whose definition is not
among the sources ("`MAX_WORK_DIMS = 3` is baked into the object model"). -/
def MAX_WORK_DIMS : Nat := 3

/-- The value `mmap` returns on failure, `(void *) -1`. -/
def MAP_FAILED : Nat := SIZE_T - 1

/-- The fields of `ucontext_t` that `barrier` touches.  `saved` records that
`getcontext` or `swapcontext` stored a CPU state in the record, `func` is the
entry point installed by `makecontext` (`0`: none). -/
structure UContext where
  saved : Bool
  uc_link : Nat
  ss_sp : Nat
  ss_size : Nat
  func : Nat
deriving DecidableEq, Repr

/-- Modelled from the spec: `CPUKernelWorkGroup::Context`, whose declaration is
not among the sources; the fields are the ones `builtins.cpp` uses
(`local_id[MAX_WORK_DIMS]`, `context`, `initialized`). -/
structure Context where
  local_id : List Nat
  context : UContext
  initialized : Nat
deriving DecidableEq, Repr

/-- The all-zero record, as read from freshly mapped memory. -/
def Context.zero : Context :=
  { local_id := List.replicate MAX_WORK_DIMS 0,
    context := { saved := false, uc_link := 0, ss_sp := 0, ss_size := 0, func := 0 },
    initialized := 0 }

/-- Modelled from the spec: the launch descriptor behind `p_event`
(`KernelEvent`, not among the sources), with its three per-dimension arrays. -/
structure KernelEvent where
  p_global_work_size : List Nat
  p_local_work_size : List Nat
  p_global_work_offset : List Nat
deriving DecidableEq, Repr

/-- Modelled from the spec: `KernelEvent::global_work_size(dim)`, an array read. -/
def KernelEvent.global_work_size (e : KernelEvent) (dim : Nat) : Option Nat :=
  e.p_global_work_size[dim]?

/-- Modelled from the spec: `KernelEvent::local_work_size(dim)`, an array read. -/
def KernelEvent.local_work_size (e : KernelEvent) (dim : Nat) : Option Nat :=
  e.p_local_work_size[dim]?

/-- Modelled from the spec: `KernelEvent::global_work_offset(dim)`, an array read. -/
def KernelEvent.global_work_offset (e : KernelEvent) (dim : Nat) : Option Nat :=
  e.p_global_work_offset[dim]?

/-- The members of `CPUKernelWorkGroup` that `builtins.cpp` reads or writes. -/
structure CPUKernelWorkGroup where
  p_event : KernelEvent
  p_work_dim : Nat
  p_index : List Nat
  p_max_local_id : List Nat
  p_global_id_start_offset : List Nat
  p_num_work_items : Nat
  p_stack_size : Nat
  p_kernel_func_addr : Nat
  p_current_work_item : Nat
  p_current_context : Nat
  p_contexts : Nat
  p_had_barrier : Bool
deriving DecidableEq, Repr

/-- Host calls made by `barrier`, in the order they are made. -/
inductive HostCall where
  | cerr
  | munmap (addr len : Nat)
  | mmap (len ret : Nat)
  | getcontext (ucp : Nat)
  | makecontext (ucp func : Nat)
  | swapcontext (oucp ucp : Nat)
deriving DecidableEq, Repr

/-- State of one worker thread: the two `__thread` variables
`work_items_data` and `work_items_size`, the memory holding `Context`
records, and the host calls made so far. -/
structure Thread where
  work_items_data : Nat
  work_items_size : Nat
  mem : Nat → Context
  trace : List HostCall

/-- What the host answers during one call of `barrier`: the pointer returned
by `mmap` (when it is called), the status of `getcontext` on the main
context (which the code ignores) and its status on the next context. -/
structure Host where
  mmap_ret : Nat
  getcontext_main : Int
  getcontext_next : Int
deriving DecidableEq, Repr

/-! ## TLS accessors -/

/-- The function `getWorkItemsData(size)`: the pair (returned pointer, `size`). -/
def getWorkItemsData (th : Thread) : Nat × Nat :=
  (th.work_items_data, th.work_items_size)

/-- The function `setWorkItemsData(ptr, size)`. -/
def setWorkItemsData (ptr size : Nat) (th : Thread) : Thread :=
  { th with work_items_data := ptr, work_items_size := size }

/-! ## Work-item functions -/

/-- The method `CPUKernelWorkGroup::getWorkDim`. -/
def getWorkDim (wg : CPUKernelWorkGroup) : Nat :=
  wg.p_work_dim

/-- The method `CPUKernelWorkGroup::getGlobalId`. -/
def getGlobalId (wg : CPUKernelWorkGroup) (mem : Nat → Context) (dimindx : Nat) : Option Nat :=
  if dimindx > wg.p_work_dim then some 0
  else do
    let a ← wg.p_global_id_start_offset[dimindx]?
    let b ← (mem wg.p_current_context).local_id[dimindx]?
    pure ((a + b) % SIZE_T)

/-- The method `CPUKernelWorkGroup::getGlobalSize`. -/
def getGlobalSize (wg : CPUKernelWorkGroup) (dimindx : Nat) : Option Nat :=
  if dimindx > wg.p_work_dim then some 1
  else wg.p_event.global_work_size dimindx

/-- The method `CPUKernelWorkGroup::getLocalSize`. -/
def getLocalSize (wg : CPUKernelWorkGroup) (dimindx : Nat) : Option Nat :=
  if dimindx > wg.p_work_dim then some 1
  else wg.p_event.local_work_size dimindx

/-- The method `CPUKernelWorkGroup::getLocalID`. -/
def getLocalID (wg : CPUKernelWorkGroup) (mem : Nat → Context) (dimindx : Nat) : Option Nat :=
  if dimindx > wg.p_work_dim then some 0
  else (mem wg.p_current_context).local_id[dimindx]?

/-- The method `CPUKernelWorkGroup::getNumGroups`; a division by zero is a fault. -/
def getNumGroups (wg : CPUKernelWorkGroup) (dimindx : Nat) : Option Nat :=
  if dimindx > wg.p_work_dim then some 1
  else do
    let g ← wg.p_event.global_work_size dimindx
    let l ← wg.p_event.local_work_size dimindx
    if l = 0 then none else pure (g / l)

/-- The method `CPUKernelWorkGroup::getGroupID`. -/
def getGroupID (wg : CPUKernelWorkGroup) (dimindx : Nat) : Option Nat :=
  if dimindx > wg.p_work_dim then some 0
  else wg.p_index[dimindx]?

/-- The method `CPUKernelWorkGroup::getGlobalOffset`. -/
def getGlobalOffset (wg : CPUKernelWorkGroup) (dimindx : Nat) : Option Nat :=
  if dimindx > wg.p_work_dim then some 0
  else wg.p_event.global_work_offset dimindx

/-! ## The barrier -/

/-- Modelled from the spec: `CPUKernelWorkGroup::getContextAddr`, not among the
sources: "returns `base + i × (sizeof(Context) + stack_size)`".  `C` is
`sizeof(Context)`. -/
def getContextAddr (C : Nat) (wg : CPUKernelWorkGroup) (index : Nat) : Nat :=
  wg.p_contexts + index * (C + wg.p_stack_size)

/-- Modelled from the spec: `incVec(dims, vec, maxs)`, not among the sources: the
successor of `vec` among the vectors bounded by `maxs` in the first `dims`
dimensions, dimension 0 running fastest; the last vector wraps to zero. -/
def incVec : Nat → List Nat → List Nat → List Nat
  | dims + 1, v :: vec, m :: maxs =>
      if (v + 1) % SIZE_T > m then 0 :: incVec dims vec maxs
      else ((v + 1) % SIZE_T) :: vec
  | _, vec, _ => vec

/-- Writing the record at address `a`. -/
def store (mem : Nat → Context) (a : Nat) (c : Context) : Nat → Context :=
  fun x => if x = a then c else mem x

/-- The call `memset(xs, 0, n * sizeof(size_t))` on an array of `size_t`. -/
def memsetZero (xs : List Nat) (n : Nat) : List Nat :=
  List.replicate (min n xs.length) 0 ++ xs.drop n

/-- The call `memcpy(dst, src, n * sizeof(size_t))` on arrays of `size_t`. -/
def memcpy (dst src : List Nat) (n : Nat) : List Nat :=
  src.take n ++ dst.drop n

/-- Memory after a successful anonymous `mmap` of `len` bytes at `p`: every
record that starts inside the new region reads as zero. -/
def mmapZero (mem : Nat → Context) (p len : Nat) : Nat → Context :=
  fun a => if p ≤ a ∧ a < p + len then Context.zero else mem a

/-- Lines 140-155 of `barrier`: "Allocate or reuse the stacks". -/
def allocateStacks (C : Nat) (h : Host) (wg : CPUKernelWorkGroup) (th : Thread) :
    CPUKernelWorkGroup × Thread :=
  let contexts_size := (getWorkItemsData th).2
  let p_contexts := (getWorkItemsData th).1
  let needed_size := (wg.p_num_work_items * (wg.p_stack_size + C)) % SIZE_T
  if p_contexts = 0 ∨ contexts_size < needed_size then
    let th1 : Thread :=
      if p_contexts ≠ 0 then
        { th with trace := th.trace ++ [HostCall.munmap p_contexts contexts_size] }
      else th
    let q := h.mmap_ret
    let th2 : Thread :=
      { th1 with
        trace := th1.trace ++ [HostCall.mmap needed_size q],
        mem := if q = MAP_FAILED then th1.mem else mmapZero th1.mem q needed_size }
    ({ wg with p_contexts := q }, setWorkItemsData q contexts_size th2)
  else
    ({ wg with p_contexts := p_contexts }, th)

/-- Lines 157-162 of `barrier`: "Now that we have a real main context,
initialize it". -/
def initMainContext (C : Nat) (h : Host) (wg : CPUKernelWorkGroup) (th : Thread) :
    CPUKernelWorkGroup × Thread :=
  let cur := getContextAddr C wg 0
  let c0 := th.mem cur
  let c1 : Context := { c0 with initialized := 1 }
  let c2 : Context := { c1 with local_id := memsetZero c1.local_id wg.p_work_dim }
  let c3 : Context :=
    if h.getcontext_main = 0 then { c2 with context := { c2.context with saved := true } }
    else c2
  ({ wg with p_current_context := cur },
   { th with mem := store th.mem cur c3, trace := th.trace ++ [HostCall.getcontext cur] })

/-- Lines 174-198 of `barrier`: the body of `if (next->initialized == 0)`.
The flag returned is `false` when the body leaves `barrier` through its
`return` (the checked `getcontext` failed). -/
def initNextContext (C : Nat) (h : Host) (wg : CPUKernelWorkGroup) (th : Thread)
    (next main : Nat) : Thread × Bool :=
  let n1 : Context := { th.mem next with initialized := 1 }
  let mem1 := store th.mem next n1
  let n2 : Context :=
    { n1 with local_id := memcpy n1.local_id (mem1 wg.p_current_context).local_id MAX_WORK_DIMS }
  let n3 : Context := { n2 with local_id := incVec wg.p_work_dim n2.local_id wg.p_max_local_id }
  let th1 : Thread :=
    { th with mem := store mem1 next n3, trace := th.trace ++ [HostCall.getcontext next] }
  if h.getcontext_next ≠ 0 then (th1, false)
  else
    let n4 : Context :=
      { n3 with context :=
          { saved := true, uc_link := main, ss_sp := next + C,
            ss_size := wg.p_stack_size, func := wg.p_kernel_func_addr } }
    ({ th1 with mem := store th1.mem next n4,
                trace := th1.trace ++ [HostCall.makecontext next wg.p_kernel_func_addr] }, true)

/-- Lines 166-167 of `barrier`: the incremented `p_current_work_item`, reset
to 0 when it reaches `p_num_work_items`. -/
def nextWorkItem (wg : CPUKernelWorkGroup) : Nat :=
  if wg.p_current_work_item + 1 = wg.p_num_work_items then 0 else wg.p_current_work_item + 1

/-- Lines 200-204 of `barrier`: "Switch to the next context". -/
def switchContext (wg : CPUKernelWorkGroup) (th : Thread) (next : Nat) :
    CPUKernelWorkGroup × Thread :=
  let cur := wg.p_current_context
  ({ wg with p_current_context := next },
   { th with
     mem := store th.mem cur
       { th.mem cur with context := { (th.mem cur).context with saved := true } },
     trace := th.trace ++ [HostCall.swapcontext cur next] })

/-- Lines 165-204 of `barrier`: "Take the next context", initialize it when
it is not, and switch to it. -/
def takeNextContext (C : Nat) (h : Host) (wg : CPUKernelWorkGroup) (th : Thread) :
    CPUKernelWorkGroup × Thread :=
  let wg1 : CPUKernelWorkGroup := { wg with p_current_work_item := nextWorkItem wg }
  let next := getContextAddr C wg1 wg1.p_current_work_item
  let main := getContextAddr C wg1 0
  if (th.mem next).initialized = 0 then
    let r := initNextContext C h wg1 th next main
    if r.2 = false then (wg1, r.1) else switchContext wg1 r.1 next
  else switchContext wg1 th next

/-- The method `CPUKernelWorkGroup::barrier`: the state in which the call hands control
over (to the next context, or back to its caller on an early return). -/
def barrier (C : Nat) (h : Host) (_flags : Nat) (wg : CPUKernelWorkGroup) (th : Thread) :
    CPUKernelWorkGroup × Thread :=
  let wg0 : CPUKernelWorkGroup := { wg with p_had_barrier := true }
  if wg0.p_contexts = 0 then
    if wg0.p_current_work_item ≠ 0 then
      (wg0, { th with trace := th.trace ++ [HostCall.cerr] })
    else
      let s1 := allocateStacks C h wg0 th
      let s2 := initMainContext C h s1.1 s1.2
      takeNextContext C h s2.1 s2.2
  else
    takeNextContext C h wg0 th

/-- Successive `barrier` calls of one work-group on one thread, one host
answer per call. -/
def barriers (C : Nat) : List Host → CPUKernelWorkGroup → Thread → CPUKernelWorkGroup × Thread
  | [], wg, th => (wg, th)
  | h :: hs, wg, th => barriers C hs (barrier C h 0 wg th).1 (barrier C h 0 wg th).2

/-- The state in which a call of `barrier` that does not return at line 137
reaches line 165, "Take the next context": `p_had_barrier` is set and, when
no pool was attached, lines 140-162 have run. -/
def atTakeNext (C : Nat) (h : Host) (wg : CPUKernelWorkGroup) (th : Thread) :
    CPUKernelWorkGroup × Thread :=
  let wg0 : CPUKernelWorkGroup := { wg with p_had_barrier := true }
  if wg0.p_contexts = 0 then
    let s1 := allocateStacks C h wg0 th
    initMainContext C h s1.1 s1.2
  else (wg0, th)

/-! ## Predicates used in the statements -/

/-- The per-dimension arrays of the work-group, of its launch descriptor and
of its current context hold `MAX_WORK_DIMS` elements, and `work_dim` does
not exceed `MAX_WORK_DIMS`. -/
def WellFormed (wg : CPUKernelWorkGroup) (mem : Nat → Context) : Prop :=
  wg.p_work_dim ≤ MAX_WORK_DIMS ∧
  wg.p_event.p_global_work_size.length = MAX_WORK_DIMS ∧
  wg.p_event.p_local_work_size.length = MAX_WORK_DIMS ∧
  wg.p_event.p_global_work_offset.length = MAX_WORK_DIMS ∧
  wg.p_index.length = MAX_WORK_DIMS ∧
  wg.p_global_id_start_offset.length = MAX_WORK_DIMS ∧
  (mem wg.p_current_context).local_id.length = MAX_WORK_DIMS

instance (wg : CPUKernelWorkGroup) (mem : Nat → Context) : Decidable (WellFormed wg mem) := by
  unfold WellFormed
  infer_instance

/-- The value the work-group state prescribes for `global_id_start_offset[d]`:
`global_work_offset[d] + index[d] * local_work_size[d]`, in `size_t`. -/
def startOffset (wg : CPUKernelWorkGroup) (d : Nat) : Option Nat := do
  let o ← wg.p_event.p_global_work_offset[d]?
  let g ← wg.p_index[d]?
  let l ← wg.p_event.p_local_work_size[d]?
  pure ((o + g * l) % SIZE_T)

/-- Every `Context` record in memory has a `local_id` array of
`MAX_WORK_DIMS` elements. -/
def MemTyped (mem : Nat → Context) : Prop :=
  ∀ a, (mem a).local_id.length = MAX_WORK_DIMS

/-! ## Example states -/

/-- A one-dimensional launch: global size 8, local size 4, offset 10; the
second work-group (index 1). -/
def wgExample : CPUKernelWorkGroup :=
  { p_event :=
      { p_global_work_size := [8, 0, 0], p_local_work_size := [4, 0, 0],
        p_global_work_offset := [10, 0, 0] },
    p_work_dim := 1, p_index := [1, 0, 0], p_max_local_id := [3, 0, 0],
    p_global_id_start_offset := [14, 0, 0],
    p_num_work_items := 4, p_stack_size := 8192, p_kernel_func_addr := 4096,
    p_current_work_item := 0, p_current_context := 512, p_contexts := 0,
    p_had_barrier := false }

/-- Memory in which every record is zero, but for the record at 512 (the
context of the running work-item), whose local id is 2. -/
def memExample : Nat → Context :=
  store (fun _ => Context.zero) 512 { Context.zero with local_id := [2, 0, 0] }

/-- A three-dimensional launch, `work_dim = MAX_WORK_DIMS`. -/
def wgExample3 : CPUKernelWorkGroup :=
  { p_event :=
      { p_global_work_size := [4, 4, 4], p_local_work_size := [2, 2, 2],
        p_global_work_offset := [0, 0, 0] },
    p_work_dim := 3, p_index := [1, 1, 1], p_max_local_id := [1, 1, 1],
    p_global_id_start_offset := [2, 2, 2],
    p_num_work_items := 8, p_stack_size := 8192, p_kernel_func_addr := 4096,
    p_current_work_item := 0, p_current_context := 512, p_contexts := 0,
    p_had_barrier := false }

/-- A two-dimensional launch whose arrays carry data in the unused third
dimension. -/
def wgExample2 : CPUKernelWorkGroup :=
  { p_event :=
      { p_global_work_size := [4, 4, 6], p_local_work_size := [2, 2, 3],
        p_global_work_offset := [0, 0, 5] },
    p_work_dim := 2, p_index := [1, 1, 7], p_max_local_id := [1, 1, 0],
    p_global_id_start_offset := [2, 2, 9],
    p_num_work_items := 4, p_stack_size := 8192, p_kernel_func_addr := 4096,
    p_current_work_item := 0, p_current_context := 512, p_contexts := 0,
    p_had_barrier := false }

/-- A value for `sizeof(Context)` in the examples. -/
def sizeofContextExample : Nat := 976

/-- A worker thread that has not run a barrier yet: the `__thread` variables
are zero, memory reads as zero. -/
def threadFresh : Thread :=
  { work_items_data := 0, work_items_size := 0, mem := fun _ => Context.zero, trace := [] }

/-- Host answers: `mmap` returns 65536, both `getcontext` calls succeed. -/
def hostA : Host := { mmap_ret := 65536, getcontext_main := 0, getcontext_next := 0 }

/-- Host answers: `mmap` returns 131072, both `getcontext` calls succeed. -/
def hostB : Host := { mmap_ret := 131072, getcontext_main := 0, getcontext_next := 0 }

/-- Host answers: `mmap` fails. -/
def hostFail : Host := { mmap_ret := MAP_FAILED, getcontext_main := 0, getcontext_next := 0 }

/-- The work-group `wgExample` with the pool attached at 65536, work-item 3
running in slot 3. -/
def wgAttached : CPUKernelWorkGroup :=
  { wgExample with
    p_contexts := 65536, p_current_work_item := 3,
    p_current_context := 65536 + 3 * (976 + 8192), p_had_barrier := true }

/-- The work-group `wgExample` with no pool attached, work-item 2 running on
the context at 512. -/
def wgDetached : CPUKernelWorkGroup :=
  { wgExample with p_current_work_item := 2 }

/-! ## Bridge between the code generator and the built-ins -/

/-- The host functions whose addresses `getBuiltin` returns. -/
inductive Builtin where
  | get_global_id
  | get_work_dim
  | get_global_size
  | get_local_size
  | get_local_id
  | get_num_groups
  | get_group_id
  | get_global_offset
  | barrier
  | get_image_width
  | get_image_height
  | get_image_depth
  | get_image_channel_data_type
  | get_image_channel_order
  | image_data
  | is_image_3d
  | printf
  | unimplemented_stub
deriving DecidableEq, Repr

/-- The function `getBuiltin(name)`: the address returned and, when the name
is not found, the name handed to `builtinNotFound`. -/
def getBuiltin (name : String) : Builtin × Option String :=
  if name = "get_global_id" then (Builtin.get_global_id, none)
  else if name = "get_work_dim" then (Builtin.get_work_dim, none)
  else if name = "get_global_size" then (Builtin.get_global_size, none)
  else if name = "get_local_size" then (Builtin.get_local_size, none)
  else if name = "get_local_id" then (Builtin.get_local_id, none)
  else if name = "get_num_groups" then (Builtin.get_num_groups, none)
  else if name = "get_group_id" then (Builtin.get_group_id, none)
  else if name = "get_global_offset" then (Builtin.get_global_offset, none)
  else if name = "barrier" then (Builtin.barrier, none)
  else if name = "__cpu_get_image_width" then (Builtin.get_image_width, none)
  else if name = "__cpu_get_image_height" then (Builtin.get_image_height, none)
  else if name = "__cpu_get_image_depth" then (Builtin.get_image_depth, none)
  else if name = "__cpu_get_image_channel_data_type" then
    (Builtin.get_image_channel_data_type, none)
  else if name = "__cpu_get_image_channel_order" then (Builtin.get_image_channel_order, none)
  else if name = "__cpu_image_data" then (Builtin.image_data, none)
  else if name = "__cpu_is_image_3d" then (Builtin.is_image_3d, none)
  else if name = "debug" then (Builtin.printf, none)
  else (Builtin.unimplemented_stub, some name)

/-- The built-ins named by the claim on `getBuiltin`, each with its host
implementation: the nine coordination intrinsics and the `__cpu_*` image
built-ins. -/
def surfaceTable : List (String × Builtin) :=
  [("get_global_id", Builtin.get_global_id),
   ("get_work_dim", Builtin.get_work_dim),
   ("get_global_size", Builtin.get_global_size),
   ("get_local_size", Builtin.get_local_size),
   ("get_local_id", Builtin.get_local_id),
   ("get_num_groups", Builtin.get_num_groups),
   ("get_group_id", Builtin.get_group_id),
   ("get_global_offset", Builtin.get_global_offset),
   ("barrier", Builtin.barrier),
   ("__cpu_get_image_width", Builtin.get_image_width),
   ("__cpu_get_image_height", Builtin.get_image_height),
   ("__cpu_get_image_depth", Builtin.get_image_depth),
   ("__cpu_get_image_channel_data_type", Builtin.get_image_channel_data_type),
   ("__cpu_get_image_channel_order", Builtin.get_image_channel_order),
   ("__cpu_image_data", Builtin.image_data),
   ("__cpu_is_image_3d", Builtin.is_image_3d)]

/-! ## The work-group scheduler

`CPUKernelEvent` is declared in `src/core/cpu/kernel.h`; its member functions
are not among the sources and are modelled from the specification. -/

/-- Modelled from the spec: the kernel-launch state of `CPUKernelEvent`
(`num_wg`, `current_wg`, `finished_wg`, under the names of the members
declared in `kernel.h`) with the launch descriptor's `num_groups[]`. -/
structure CPUKernelEvent where
  num_groups : List Nat
  p_current_wg : Nat
  p_finished_wg : Nat
  p_num_wg : Nat
deriving DecidableEq, Repr

/-- Modelled from the spec: the launch state at submission, `num_wg` being the
product of `num_groups[d]`, nothing handed out and nothing finished. -/
def CPUKernelEvent.init (num_groups : List Nat) : CPUKernelEvent :=
  { num_groups := num_groups, p_current_wg := 0, p_finished_wg := 0,
    p_num_wg := num_groups.prod }

/-- Modelled from the spec: the "row-major decomposition over `num_groups[]`"
of a linear work-group number `k`: the digit of dimension `d` is
`(k / (num_groups[d+1] * ... * num_groups[last])) mod num_groups[d]`, the
last dimension running fastest. -/
def rowMajor (k : Nat) : List Nat → List Nat
  | [] => []
  | n :: ns => (k / ns.prod) % n :: rowMajor k ns

/-- The row-major linear number of an index vector over `num_groups[]`. -/
def linearIndex : List Nat → List Nat → Nat
  | i :: is, _ :: ns => i * ns.prod + linearIndex is ns
  | _, _ => 0

/-- An index vector of the launch: one component below `num_groups[d]` for
each dimension. -/
def InRange : List Nat → List Nat → Prop
  | [], [] => True
  | i :: is, n :: ns => i < n ∧ InRange is ns
  | _, _ => False

/-- Modelled from the spec: `reserve() → (index_vector, is_last)`: "if
`current_wg == num_wg`, returns no work; otherwise converts `current_wg` to a
work-group index vector via row-major decomposition over `num_groups[]`,
increments `current_wg`, returns".  `is_last` tells that the work-group
handed out is the last one. -/
def CPUKernelEvent.reserve (e : CPUKernelEvent) : Option (List Nat × Bool) × CPUKernelEvent :=
  if e.p_current_wg = e.p_num_wg then (none, e)
  else
    (some (rowMajor e.p_current_wg e.num_groups, e.p_current_wg + 1 = e.p_num_wg),
     { e with p_current_wg := e.p_current_wg + 1 })

/-- Modelled from the spec: `take_instance()`, which builds the executor of
the reserved work-group and leaves the counters alone. -/
def CPUKernelEvent.takeInstance (e : CPUKernelEvent) : CPUKernelEvent :=
  e

/-- Modelled from the spec: `work_group_finished()`, which "increments
`finished_wg`". -/
def CPUKernelEvent.workGroupFinished (e : CPUKernelEvent) : CPUKernelEvent :=
  { e with p_finished_wg := e.p_finished_wg + 1 }

/-- Modelled from the spec: `finished()`, "launch completes exactly when
`finished_wg == num_wg`". -/
def CPUKernelEvent.finished (e : CPUKernelEvent) : Bool :=
  e.p_finished_wg == e.p_num_wg

/-- The state after `k` successive calls of `reserve()`. -/
def reserves : Nat → CPUKernelEvent → CPUKernelEvent
  | 0, e => e
  | k + 1, e => reserves k e.reserve.2

/-- The calls a worker makes on the launch state. -/
inductive SchedCall where
  | reserve
  | takeInstance
  | workGroupFinished
deriving DecidableEq, Repr

/-- One call on the launch state. -/
def schedStep (e : CPUKernelEvent) : SchedCall → CPUKernelEvent
  | SchedCall.reserve => e.reserve.2
  | SchedCall.takeInstance => e.takeInstance
  | SchedCall.workGroupFinished => e.workGroupFinished

/-- The state after a sequence of calls. -/
def schedRun : CPUKernelEvent → List SchedCall → CPUKernelEvent
  | e, [] => e
  | e, c :: cs => schedRun (schedStep e c) cs

/-- A sequence of calls in which every `workGroupFinished` follows a
work-group handed out by `reserve` and not yet finished. -/
def Admissible : CPUKernelEvent → List SchedCall → Prop
  | _, [] => True
  | e, c :: cs =>
      (c = SchedCall.workGroupFinished → e.p_finished_wg < e.p_current_wg) ∧
        Admissible (schedStep e c) cs

/-! ## Kernel objects (`src/core/kernel.cpp`) -/

/-- The status `CL_SUCCESS` of `CL/cl.h`. -/
def CL_SUCCESS : Int := 0

/-- The status `CL_MEM_OBJECT_ALLOCATION_FAILURE` of `CL/cl.h`. -/
def CL_MEM_OBJECT_ALLOCATION_FAILURE : Int := -4

/-- The status `CL_MISALIGNED_SUB_BUFFER_OFFSET` of `CL/cl.h`. -/
def CL_MISALIGNED_SUB_BUFFER_OFFSET : Int := -13

/-- The status `CL_INVALID_VALUE` of `CL/cl.h`. -/
def CL_INVALID_VALUE : Int := -30

/-- The status `CL_INVALID_CONTEXT` of `CL/cl.h`. -/
def CL_INVALID_CONTEXT : Int := -34

/-- The status `CL_INVALID_MEM_OBJECT` of `CL/cl.h`. -/
def CL_INVALID_MEM_OBJECT : Int := -38

/-- The status `CL_INVALID_KERNEL_DEFINITION` of `CL/cl.h`. -/
def CL_INVALID_KERNEL_DEFINITION : Int := -47

/-- The status `CL_INVALID_ARG_INDEX` of `CL/cl.h`. -/
def CL_INVALID_ARG_INDEX : Int := -49

/-- The status `CL_INVALID_ARG_VALUE` of `CL/cl.h`. -/
def CL_INVALID_ARG_VALUE : Int := -50

/-- The status `CL_INVALID_ARG_SIZE` of `CL/cl.h`. -/
def CL_INVALID_ARG_SIZE : Int := -51

/-- The size of a `cl_mem` handle, a pointer of the 64-bit host. -/
def sizeof_cl_mem : Nat := 8

/-- The size of a `cl_float`. -/
def sizeof_cl_float : Nat := 4

/-- The size of a `double`. -/
def sizeof_double : Nat := 8

/-- The enumeration `Kernel::Arg::Kind`. -/
inductive Kind where
  | Invalid
  | Int8
  | Int16
  | Int32
  | Int64
  | Float
  | Double
  | Buffer
  | Image2D
  | Image3D
deriving DecidableEq, Repr

/-- The enumerators of `Kernel::Arg::File` that `kernel.cpp` names.  The
enumeration is not declared in the sources, so its values are a parameter;
a `File` is the number of an address space. -/
structure ArgFile where
  Private : Nat
  Global : Nat
  Local : Nat
deriving DecidableEq, Repr

/-- The members of `Kernel::Arg`; `p_data` is `none` for a null pointer and
holds the bytes of the allocation otherwise. -/
structure Arg where
  p_vec_dim : Nat
  p_file : Nat
  p_kind : Kind
  p_defined : Bool
  p_runtime_alloc : Nat
  p_data : Option (List Nat)
deriving DecidableEq, Repr

/-- The constructor `Kernel::Arg::Arg(vec_dim, file, kind)`. -/
def Arg.new (vec_dim file : Nat) (kind : Kind) : Arg :=
  { p_vec_dim := vec_dim, p_file := file, p_kind := kind, p_defined := false,
    p_runtime_alloc := 0, p_data := none }

/-- The method `Kernel::Arg::valueSize`. -/
def Arg.valueSize (a : Arg) : Nat :=
  match a.p_kind with
  | Kind.Invalid => 0
  | Kind.Int8 => 1
  | Kind.Int16 => 2
  | Kind.Int32 => 4
  | Kind.Int64 => 8
  | Kind.Float => sizeof_cl_float
  | Kind.Double => sizeof_double
  | Kind.Buffer => sizeof_cl_mem
  | Kind.Image2D => sizeof_cl_mem
  | Kind.Image3D => sizeof_cl_mem

/-- The method `Kernel::Arg::alloc`; `malloc` is taken to succeed, the bytes
of a fresh allocation read as zero. -/
def Arg.alloc (a : Arg) : Arg :=
  match a.p_data with
  | none => { a with p_data := some (List.replicate (a.p_vec_dim * a.valueSize) 0) }
  | some _ => a

/-- The method `Kernel::Arg::loadData`; `data i` is the byte at `data + i`. -/
def Arg.loadData (a : Arg) (data : Nat → Nat) : Arg :=
  { a with
    p_data := a.p_data.map fun old =>
      (List.range (a.p_vec_dim * a.valueSize)).map data ++ old.drop (a.p_vec_dim * a.valueSize),
    p_defined := true }

/-- The method `Kernel::Arg::setAllocAtKernelRuntime`. -/
def Arg.setAllocAtKernelRuntime (a : Arg) (size : Nat) : Arg :=
  { a with p_runtime_alloc := size, p_defined := true }

/-- The operator `Kernel::Arg::operator!=`. -/
def Arg.ne (a b : Arg) : Bool :=
  let same := (a.p_vec_dim == b.p_vec_dim) && (a.p_file == b.p_file) && (a.p_kind == b.p_kind)
  !same

/-- An entry of `Kernel::p_device_dependent`. -/
structure DeviceDependent where
  device : Nat
  function : Nat
  module : Nat
  kernel : Nat
deriving DecidableEq, Repr

/-- The members of `Kernel` that `addFunction`, `setArg` and `argsSpecified`
use. -/
structure Kernel where
  p_name : String
  p_local_args : Bool
  p_device_dependent : List DeviceDependent
  p_args : List Arg
deriving DecidableEq, Repr

/-- The method `Kernel::setArg(index, size, value)`.  `value` is `none` for a
null pointer, otherwise the bytes it points to.  The result is `none` when
the call reads `p_args[index]` past the end of the vector. -/
def Kernel.setArg (F : ArgFile) (k : Kernel) (index size : Nat) (value : Option (Nat → Nat)) :
    Option (Int × Kernel) :=
  if index > k.p_args.length then some (CL_INVALID_ARG_INDEX, k)
  else
    match k.p_args[index]? with
    | none => none
    | some arg =>
        if arg.p_file = F.Local then
          if size = 0 then some (CL_INVALID_ARG_SIZE, k)
          else if value.isSome then some (CL_INVALID_ARG_VALUE, k)
          else
            some (CL_SUCCESS, { k with p_args := k.p_args.set index (arg.setAllocAtKernelRuntime size) })
        else
          let arg_size := arg.valueSize
          if size ≠ arg_size then some (CL_INVALID_ARG_SIZE, k)
          else
            match value with
            | none =>
                -- `switch (arg.kind())`: the three cases set `value = &null_mem` and,
                -- having no `break`, run into `default: return CL_INVALID_ARG_VALUE`
                let _value : Option (Nat → Nat) :=
                  match arg.p_kind with
                  | Kind.Buffer => some fun _ => 0
                  | Kind.Image2D => some fun _ => 0
                  | Kind.Image3D => some fun _ => 0
                  | _ => none
                some (CL_INVALID_ARG_VALUE, k)
            | some data =>
                some (CL_SUCCESS, { k with p_args := k.p_args.set index (arg.alloc.loadData data) })

/-- The method `Kernel::argsSpecified`. -/
def Kernel.argsSpecified (k : Kernel) : Bool :=
  k.p_args.all fun a => a.p_defined

/-- The element types `addFunction` tells apart. -/
inductive LlvmElem where
  | floatTy
  | doubleTy
  | integerTy (bitWidth : Nat)
  | other
deriving DecidableEq, Repr

/-- The parameter types `addFunction` tells apart: a pointer, with its address
space and the name `module->getTypeName` gives its element type; a vector;
anything else. -/
inductive LlvmType where
  | pointer (addressSpace : Nat) (typeName : String)
  | vector (numElements : Nat) (elem : LlvmElem)
  | scalar (elem : LlvmElem)
deriving DecidableEq, Repr

/-- What `addFunction` reads of an `llvm::Function`: its address, its name and
the types of its parameters. -/
structure LlvmFunction where
  addr : Nat
  name : String
  params : List LlvmType
deriving DecidableEq, Repr

/-- Lines 153-182 of `addFunction`: "Get type kind". -/
def kindOfElem : LlvmElem → Kind
  | LlvmElem.floatTy => Kind.Float
  | LlvmElem.doubleTy => Kind.Double
  | LlvmElem.integerTy bits =>
      if bits = 8 then Kind.Int8
      else if bits = 16 then Kind.Int16
      else if bits = 32 then Kind.Int32
      else if bits = 64 then Kind.Int64
      else Kind.Invalid
  | LlvmElem.other => Kind.Invalid

/-- Lines 102-190 of `addFunction`: the `Arg a(vec_dim, file, kind)` built for
one parameter type; `vec_dim` is an `unsigned short`. -/
def argOfType (F : ArgFile) : LlvmType → Arg
  | LlvmType.pointer addressSpace typeName =>
      if typeName = "image2d" then Arg.new 1 F.Global Kind.Image2D
      else if typeName = "image3d" then Arg.new 1 F.Global Kind.Image3D
      else if typeName = "sampler" then Arg.new 1 addressSpace Kind.Invalid
      else Arg.new 1 addressSpace Kind.Buffer
  | LlvmType.vector numElements elem => Arg.new (numElements % 65536) F.Private (kindOfElem elem)
  | LlvmType.scalar elem => Arg.new 1 F.Private (kindOfElem elem)

/-- Lines 116-117 of `addFunction`: a pointer into the `__local` address space
sets `p_local_args`. -/
def isLocalPointer (F : ArgFile) : LlvmType → Bool
  | LlvmType.pointer addressSpace _ => addressSpace == F.Local
  | _ => false

/-- How the loop of `addFunction` ends: with a read of `p_args[i]` past the
end of the vector, with a `return` of a status, or by running to its end. -/
inductive LoopResult where
  | fault
  | returned (status : Int) (k : Kernel)
  | completed (k : Kernel)
deriving DecidableEq, Repr

/-- Lines 100-199 of `addFunction`: the loop over the parameters, from
parameter `i` on. -/
def addFunctionLoop (F : ArgFile) (append : Bool) : List LlvmType → Nat → Kernel → LoopResult
  | [], _, k => LoopResult.completed k
  | ty :: rest, i, k =>
      let k1 : Kernel := if isLocalPointer F ty then { k with p_local_args := true } else k
      let a := argOfType F ty
      if a.p_kind = Kind.Invalid then LoopResult.returned CL_INVALID_KERNEL_DEFINITION k1
      else if append then
        addFunctionLoop F append rest (i + 1) { k1 with p_args := k1.p_args ++ [a] }
      else
        match k1.p_args[i]? with
        | none => LoopResult.fault
        | some b =>
            if a.ne b then LoopResult.returned CL_INVALID_KERNEL_DEFINITION k1
            else addFunctionLoop F append rest (i + 1) k1

/-- The method `Kernel::addFunction(device, function, module)`; `dk` is the
pointer `device->createDeviceKernel` returns.  The result is `none` when the
call reads `p_args[i]` past the end of the vector. -/
def Kernel.addFunction (F : ArgFile) (k : Kernel) (device : Nat) (function : LlvmFunction)
    (module dk : Nat) : Option (Int × Kernel) :=
  let k0 : Kernel := { k with p_name := function.name }
  let append : Bool := k0.p_args.length == 0
  if !append && k0.p_args.length != function.params.length then
    some (CL_INVALID_KERNEL_DEFINITION, k0)
  else
    match addFunctionLoop F append function.params 0 k0 with
    | LoopResult.fault => none
    | LoopResult.returned status k1 => some (status, k1)
    | LoopResult.completed k1 =>
        some (CL_SUCCESS,
          { k1 with p_device_dependent := k1.p_device_dependent ++
              [{ device := device, function := function.addr, module := module, kernel := dk }] })

/-- Values for the enumerators of `Kernel::Arg::File` in the examples. -/
def fileExample : ArgFile := { Private := 0, Global := 1, Local := 2 }

/-- A kernel with three arguments: a `__global` buffer, a `float4` and a
`__local` pointer. -/
def kernelExample : Kernel :=
  { p_name := "k", p_local_args := true,
    p_device_dependent := [{ device := 1, function := 100, module := 200, kernel := 300 }],
    p_args := [Arg.new 1 1 Kind.Buffer, Arg.new 4 0 Kind.Float, Arg.new 1 2 Kind.Buffer] }

/-- A kernel with two image arguments, an `image2d` and an `image3d`. -/
def kernelImages : Kernel :=
  { p_name := "k", p_local_args := false,
    p_device_dependent := [{ device := 1, function := 100, module := 200, kernel := 300 }],
    p_args := [Arg.new 1 1 Kind.Image2D, Arg.new 1 1 Kind.Image3D] }

/-- A kernel on which a function without parameters has been registered. -/
def kernelNoArgs : Kernel :=
  { p_name := "k", p_local_args := false,
    p_device_dependent := [{ device := 1, function := 100, module := 200, kernel := 300 }],
    p_args := [] }

/-- The function registered on `kernelExample`, as compiled for another
device. -/
def functionExample : LlvmFunction :=
  { addr := 101, name := "k",
    params := [LlvmType.pointer 1 "float", LlvmType.vector 4 LlvmElem.floatTy,
               LlvmType.pointer 2 "float"] }

/-- A function with one `int` parameter. -/
def functionOneInt : LlvmFunction :=
  { addr := 102, name := "k", params := [LlvmType.scalar (LlvmElem.integerTy 32)] }

/-! ## Events (`src/core/events.cpp`) -/

/-- What the `RWBufferEvent` constructor reads of its `buffer`: its context,
its size, whether `type()` is `MemObject::SubBuffer`, the `offset()` of the
sub-buffer, and what `allocate(device)` answers. -/
structure MemObject where
  context : Nat
  size : Nat
  isSubBuffer : Bool
  offset : Nat
  allocate : Bool
deriving DecidableEq, Repr

/-- What the command queue and its device answer to the constructor:
`parent->info(CL_QUEUE_CONTEXT)` (status and context),
`parent->info(CL_QUEUE_DEVICE)` (status and device) and
`device->info(CL_DEVICE_MEM_BASE_ADDR_ALIGN)` (status and `align`). -/
structure CommandQueue where
  context_status : Int
  context : Nat
  device_status : Int
  device : Nat
  align_status : Int
  align : Nat
deriving DecidableEq, Repr

/-- The queries and checks of the `RWBufferEvent` constructor that follow the
null-buffer test, in program order. -/
inductive RWStep where
  | queueContext
  | contextMatch
  | nullPtr
  | bounds
  | queueDevice
  | deviceAlign
  | alignment
  | allocate
deriving DecidableEq, Repr

/-- How the constructor leaves: the value of `*errcode_ret` and the queries
and checks it has executed. -/
structure RWResult where
  errcode : Int
  steps : List RWStep
deriving DecidableEq, Repr

/-- The store `*errcode_ret = v`; a store through a null pointer is a fault. -/
def storeErrcode (errcode_ret : Nat) (v : Int) : Option Int :=
  if errcode_ret = 0 then none else some v

/-- Lines 71-74 of the constructor: `mask` after `align` rounds of
`mask = 1 | (mask << 1)`, in `size_t`. -/
def alignMask : Nat → Nat
  | 0 => 0
  | i + 1 => (1 ||| (alignMask i <<< 1)) % SIZE_T

/-- Line 76 of the constructor: the test `offset() | mask`. -/
def misaligned (offset align : Nat) : Bool :=
  (offset ||| alignMask align) != 0

/-- The constructor `RWBufferEvent::RWBufferEvent`, after the constructor of
the base class.  `buffer` is `none` for a null pointer, `ptr` and
`errcode_ret` are pointers; the tests `errcode_ret != CL_SUCCESS` compare the
pointer itself with the constant. -/
def RWBufferEvent.new (parent : CommandQueue) (buffer : Option MemObject)
    (offset cb ptr errcode_ret : Nat) : Option RWResult :=
  match buffer with
  | none => do
      let e ← storeErrcode errcode_ret CL_INVALID_MEM_OBJECT
      pure { errcode := e, steps := [] }
  | some buf => do
      let e1 ← storeErrcode errcode_ret parent.context_status
      if (errcode_ret : Int) ≠ CL_SUCCESS then
        pure { errcode := e1, steps := [RWStep.queueContext] }
      else if buf.context ≠ parent.context then do
        let e ← storeErrcode errcode_ret CL_INVALID_CONTEXT
        pure { errcode := e, steps := [RWStep.queueContext, RWStep.contextMatch] }
      else if ptr = 0 then do
        let e ← storeErrcode errcode_ret CL_INVALID_VALUE
        pure { errcode := e,
               steps := [RWStep.queueContext, RWStep.contextMatch, RWStep.nullPtr] }
      else if (offset + cb) % SIZE_T > buf.size then do
        let e ← storeErrcode errcode_ret CL_INVALID_VALUE
        pure { errcode := e,
               steps := [RWStep.queueContext, RWStep.contextMatch, RWStep.nullPtr,
                         RWStep.bounds] }
      else do
        let e2 ← storeErrcode errcode_ret parent.device_status
        let s2 := [RWStep.queueContext, RWStep.contextMatch, RWStep.nullPtr, RWStep.bounds,
                   RWStep.queueDevice]
        if (errcode_ret : Int) ≠ CL_SUCCESS then pure { errcode := e2, steps := s2 }
        else if buf.isSubBuffer then do
          let e3 ← storeErrcode errcode_ret parent.align_status
          if (errcode_ret : Int) ≠ CL_SUCCESS then
            pure { errcode := e3, steps := s2 ++ [RWStep.deviceAlign] }
          else if misaligned buf.offset parent.align then do
            let e ← storeErrcode errcode_ret CL_MISALIGNED_SUB_BUFFER_OFFSET
            pure { errcode := e, steps := s2 ++ [RWStep.deviceAlign, RWStep.alignment] }
          else if !buf.allocate then do
            let e ← storeErrcode errcode_ret CL_MEM_OBJECT_ALLOCATION_FAILURE
            pure { errcode := e,
                   steps := s2 ++ [RWStep.deviceAlign, RWStep.alignment, RWStep.allocate] }
          else
            pure { errcode := e3,
                   steps := s2 ++ [RWStep.deviceAlign, RWStep.alignment, RWStep.allocate] }
        else if !buf.allocate then do
          let e ← storeErrcode errcode_ret CL_MEM_OBJECT_ALLOCATION_FAILURE
          pure { errcode := e, steps := s2 ++ [RWStep.allocate] }
        else
          pure { errcode := e2, steps := s2 ++ [RWStep.allocate] }

/-- A command queue of context 7 whose queries succeed; its device reports
`align = 7`. -/
def queueExample : CommandQueue :=
  { context_status := CL_SUCCESS, context := 7, device_status := CL_SUCCESS, device := 9,
    align_status := CL_SUCCESS, align := 7 }

/-- A buffer of 16 bytes of context 7. -/
def bufferExample : MemObject :=
  { context := 7, size := 16, isSubBuffer := false, offset := 0, allocate := true }

/-- A sub-buffer of 16 bytes of context 7 at offset 3 of its parent. -/
def subBufferExample : MemObject :=
  { context := 7, size := 16, isSubBuffer := true, offset := 3, allocate := true }

/-! ## User events and sequences of `setArg` calls -/

/-- The method `UserEvent::addDependentCommandQueue`, on the vector
`p_dependent_queues` of queue pointers. -/
def addDependentCommandQueue (p_dependent_queues : List Nat) (queue : Nat) : List Nat :=
  if p_dependent_queues.any (fun q => q == queue) then p_dependent_queues
  else p_dependent_queues ++ [queue]

/-- The method `UserEvent::flushQueues`: the queues on which
`pushEventsOnDevice()` is called, in the order of the calls. -/
def flushQueues (p_dependent_queues : List Nat) : List Nat :=
  p_dependent_queues.foldl (fun calls q => calls ++ [q]) []

/-- The dependent-queue list of a new `UserEvent` after the given calls of
`addDependentCommandQueue`. -/
def addDependentCommandQueues (queues : List Nat) : List Nat :=
  queues.foldl addDependentCommandQueue []

/-- One call `setArg(index, size, value)`. -/
structure SetArgCall where
  index : Nat
  size : Nat
  value : Option (Nat → Nat)

/-- A sequence of `setArg` calls on a kernel: the kernel they leave and, for
each call, the index it was given and the status it returned.  The result is
`none` when one of the calls reads past the end of `p_args`. -/
def Kernel.setArgs (F : ArgFile) : Kernel → List SetArgCall → Option (Kernel × List (Nat × Int))
  | k, [] => some (k, [])
  | k, c :: cs =>
      match k.setArg F c.index c.size c.value with
      | none => none
      | some r =>
          match Kernel.setArgs F r.2 cs with
          | none => none
          | some r' => some (r'.1, (c.index, r.1) :: r'.2)

/-! ## Program API (`src/api/api_program.cpp`) -/

/-- The status `CL_INVALID_DEVICE` of `CL/cl.h`. -/
def CL_INVALID_DEVICE : Int := -33

/-- The status `CL_INVALID_PROGRAM` of `CL/cl.h`. -/
def CL_INVALID_PROGRAM : Int := -44

/-- The status `CL_INVALID_OPERATION` of `CL/cl.h`. -/
def CL_INVALID_OPERATION : Int := -59

/-- What `Coal::Context::info` answers to the two queries of the program
API: the status of the `CL_CONTEXT_NUM_DEVICES` query, the status of the
`CL_CONTEXT_DEVICES` query, and the devices of the context (whose number the
first query reports). -/
structure ContextInfo where
  num_devices_status : Int
  devices_status : Int
  devices : List Nat
deriving DecidableEq, Repr

/-- What `clBuildProgram` reads of a `Coal::Program`: its context, its
`state()` and what `build(...)` returns. -/
structure Program where
  context : ContextInfo
  state : Nat
  build_status : Int
deriving DecidableEq, Repr

/-- How an API call ends: the status it returns and whether it has called
`program->build`. -/
structure BuildResult where
  status : Int
  built : Bool
deriving DecidableEq, Repr

/-- The inner loop of the device checks (lines 105-112 and 210-217): whether
`device` is one of the `context_num_devices` devices of the context. -/
def deviceFound (context_devices : List Nat) (device : Nat) : Bool :=
  context_devices.any fun d => device == d

/-- Lines 206-221 of `clBuildProgram`: the loop over `device_list` from index
`i` on, `n` devices being left.  `some true` when every device was found,
`some false` at the first device not found, `none` when `device_list[i]` is
read past the end of the array. -/
def buildDevicesLoop (context_devices device_list : List Nat) : Nat → Nat → Option Bool
  | 0, _ => some true
  | n + 1, i =>
      match device_list[i]? with
      | none => none
      | some d =>
          if !deviceFound context_devices d then some false
          else buildDevicesLoop context_devices device_list n (i + 1)

/-- How the device checks of `clBuildProgram` end: with a read past the end
of `device_list`, with a `return` of a status, or by running to their end. -/
inductive DevicesCheck where
  | fault
  | returned (status : Int)
  | passed
deriving DecidableEq, Repr

/-- Lines 183-222 of `clBuildProgram`: "Check the devices for compliance". -/
def buildCheckDevices (context : ContextInfo) (num_devices : Nat) (device_list : List Nat) :
    DevicesCheck :=
  if num_devices ≠ 0 then
    if context.num_devices_status ≠ CL_SUCCESS then
      DevicesCheck.returned context.num_devices_status
    else if context.devices_status ≠ CL_SUCCESS then
      DevicesCheck.returned context.devices_status
    else
      match buildDevicesLoop context.devices device_list num_devices 0 with
      | none => DevicesCheck.fault
      | some false => DevicesCheck.returned CL_INVALID_DEVICE
      | some true => DevicesCheck.passed
  else DevicesCheck.passed

/-- The function `clBuildProgram`.  `program` and `device_list` are `none` for
null pointers; `Loaded` is the enumerator `Coal::Program::Loaded`, whose
declaration is not among the sources.  The result is `none` when
`device_list` is read past its end. -/
def clBuildProgram (Loaded : Nat) (program : Option Program) (num_devices : Nat)
    (device_list : Option (List Nat)) (_options pfn_notify user_data : Nat) :
    Option BuildResult :=
  match program with
  | none => some { status := CL_INVALID_PROGRAM, built := false }
  | some p =>
      if device_list.isNone ∧ num_devices > 0 then
        some { status := CL_INVALID_VALUE, built := false }
      else if num_devices = 0 ∧ device_list.isSome then
        some { status := CL_INVALID_VALUE, built := false }
      else if pfn_notify = 0 ∧ user_data ≠ 0 then
        some { status := CL_INVALID_VALUE, built := false }
      else
        match buildCheckDevices p.context num_devices (device_list.getD []) with
        | DevicesCheck.fault => none
        | DevicesCheck.returned status => some { status := status, built := false }
        | DevicesCheck.passed =>
            if p.state ≠ Loaded then some { status := CL_INVALID_OPERATION, built := false }
            else some { status := p.build_status, built := true }

/-- The claim's account of `clBuildProgram`, to be compared with the
function: the checks in their order of precedence, `build` being called only
when all of them pass. -/
def clBuildProgramSpec (Loaded : Nat) (program : Option Program) (num_devices : Nat)
    (device_list : Option (List Nat)) (pfn_notify user_data : Nat) : BuildResult :=
  match program with
  | none => { status := CL_INVALID_PROGRAM, built := false }
  | some p =>
      if ¬ ((device_list = none ↔ num_devices = 0) ∧ (pfn_notify = 0 → user_data = 0)) then
        { status := CL_INVALID_VALUE, built := false }
      else if num_devices ≠ 0 ∧ p.context.num_devices_status ≠ CL_SUCCESS then
        { status := p.context.num_devices_status, built := false }
      else if num_devices ≠ 0 ∧ p.context.devices_status ≠ CL_SUCCESS then
        { status := p.context.devices_status, built := false }
      else if ¬ (∀ d ∈ device_list.getD [], d ∈ p.context.devices) then
        { status := CL_INVALID_DEVICE, built := false }
      else if p.state ≠ Loaded then { status := CL_INVALID_OPERATION, built := false }
      else { status := p.build_status, built := true }

/-- How `clCreateProgramWithBinary` ends: the program returned (`none` for a
null pointer, otherwise the context it was created on), the error code
stored through `errcode_ret` (or in `dummy_errcode`), and the contents of
`binary_status`. -/
structure CreateResult where
  program : Option ContextInfo
  errcode : Int
  binary_status : Option (List Int)
deriving DecidableEq, Repr

/-- How the loop of `clCreateProgramWithBinary` ends: with a read past the
end of an array, with a `return 0` (error code and `binary_status`), or by
running to its end. -/
inductive BinariesLoop where
  | fault
  | failed (errcode : Int) (binary_status : Option (List Int))
  | passed
deriving DecidableEq, Repr

/-- Lines 92-119 of `clCreateProgramWithBinary`: the loop over the devices
from index `i` on, `n` devices being left.  `binaries` holds pointers. -/
def binariesLoop (context_devices device_list lengths binaries : List Nat)
    (binary_status : Option (List Int)) : Nat → Nat → BinariesLoop
  | 0, _ => BinariesLoop.passed
  | n + 1, i =>
      match lengths[i]? with
      | none => BinariesLoop.fault
      | some len =>
          if len = 0 then
            BinariesLoop.failed CL_INVALID_VALUE
              (binary_status.map fun bs => bs.set i CL_INVALID_VALUE)
          else
            match binaries[i]? with
            | none => BinariesLoop.fault
            | some bin =>
                if bin = 0 then
                  BinariesLoop.failed CL_INVALID_VALUE
                    (binary_status.map fun bs => bs.set i CL_INVALID_VALUE)
                else
                  match device_list[i]? with
                  | none => BinariesLoop.fault
                  | some d =>
                      if !deviceFound context_devices d then
                        BinariesLoop.failed CL_INVALID_DEVICE binary_status
                      else
                        binariesLoop context_devices device_list lengths binaries
                          binary_status n (i + 1)

/-- The function `clCreateProgramWithBinary`.  Null pointers are `none`;
`load_status` and `load_binary_status` are what `Program::loadBinaries`
returns and leaves in `binary_status`.  The result is `none` when an array is
read past its end. -/
def clCreateProgramWithBinary (context : Option ContextInfo) (num_devices : Nat)
    (device_list lengths binaries : Option (List Nat)) (binary_status : Option (List Int))
    (load_status : Int) (load_binary_status : Option (List Int)) : Option CreateResult :=
  match context with
  | none => some { program := none, errcode := CL_INVALID_CONTEXT, binary_status := binary_status }
  | some ctx =>
      if num_devices = 0 ∨ device_list.isNone ∨ lengths.isNone ∨ binaries.isNone then
        some { program := none, errcode := CL_INVALID_VALUE, binary_status := binary_status }
      else if ctx.num_devices_status ≠ CL_SUCCESS then
        some { program := none, errcode := ctx.num_devices_status, binary_status := binary_status }
      else if ctx.devices_status ≠ CL_SUCCESS then
        some { program := none, errcode := ctx.devices_status, binary_status := binary_status }
      else
        match binariesLoop ctx.devices (device_list.getD []) (lengths.getD []) (binaries.getD [])
            binary_status num_devices 0 with
        | BinariesLoop.fault => none
        | BinariesLoop.failed errcode bs =>
            some { program := none, errcode := errcode, binary_status := bs }
        | BinariesLoop.passed =>
            if load_status ≠ CL_SUCCESS then
              some { program := none, errcode := load_status, binary_status := load_binary_status }
            else
              some { program := some ctx, errcode := load_status,
                     binary_status := load_binary_status }

/-- A context of the devices 11 and 12 whose queries succeed. -/
def contextExample : ContextInfo :=
  { num_devices_status := CL_SUCCESS, devices_status := CL_SUCCESS, devices := [11, 12] }

/-- A program of `contextExample` in the state 1, taken for `Loaded`, whose
build succeeds. -/
def programExample : Program :=
  { context := contextExample, state := 1, build_status := CL_SUCCESS }

/-! ## Image access (`src/core/cpu/sampler.cpp`) -/

/-- The channel order `CL_R` of `CL/cl.h`. -/
def CL_R : Nat := 0x10B0

/-- The channel order `CL_A` of `CL/cl.h`. -/
def CL_A : Nat := 0x10B1

/-- The channel order `CL_RG` of `CL/cl.h`. -/
def CL_RG : Nat := 0x10B2

/-- The channel order `CL_RA` of `CL/cl.h`. -/
def CL_RA : Nat := 0x10B3

/-- The channel order `CL_RGB` of `CL/cl.h`. -/
def CL_RGB : Nat := 0x10B4

/-- The channel order `CL_RGBA` of `CL/cl.h`. -/
def CL_RGBA : Nat := 0x10B5

/-- The channel order `CL_BGRA` of `CL/cl.h`. -/
def CL_BGRA : Nat := 0x10B6

/-- The channel order `CL_ARGB` of `CL/cl.h`. -/
def CL_ARGB : Nat := 0x10B7

/-- The channel order `CL_INTENSITY` of `CL/cl.h`. -/
def CL_INTENSITY : Nat := 0x10B8

/-- The channel order `CL_LUMINANCE` of `CL/cl.h`. -/
def CL_LUMINANCE : Nat := 0x10B9

/-- The channel order `CL_Rx` of `CL/cl.h`. -/
def CL_Rx : Nat := 0x10BA

/-- The channel order `CL_RGx` of `CL/cl.h`. -/
def CL_RGx : Nat := 0x10BB

/-- The channel order `CL_RGBx` of `CL/cl.h`. -/
def CL_RGBx : Nat := 0x10BC

/-- The channel type `CL_SIGNED_INT8` of `CL/cl.h`. -/
def CL_SIGNED_INT8 : Nat := 0x10D7

/-- The channel type `CL_SIGNED_INT16` of `CL/cl.h`. -/
def CL_SIGNED_INT16 : Nat := 0x10D8

/-- The channel type `CL_SIGNED_INT32` of `CL/cl.h`. -/
def CL_SIGNED_INT32 : Nat := 0x10D9

/-- The channel type `CL_UNSIGNED_INT8` of `CL/cl.h`. -/
def CL_UNSIGNED_INT8 : Nat := 0x10DA

/-- The channel type `CL_UNSIGNED_INT16` of `CL/cl.h`. -/
def CL_UNSIGNED_INT16 : Nat := 0x10DB

/-- The channel type `CL_UNSIGNED_INT32` of `CL/cl.h`. -/
def CL_UNSIGNED_INT32 : Nat := 0x10DC

/-- One operand of `slow_shuffle4`: `x < 4 ? a[x] : b[x - 4]`. -/
def shuffleOperand (a b : List Nat) (x : Nat) : Option Nat :=
  if x < 4 then a[x]? else b[x - 4]?

/-- The function `slow_shuffle4`.  The result is the array `rs` after the
call, whose four elements are all assigned; `rs` is taken not to overlap `a`
and `b`, as in `writeImage`, where the target is the local `converted`. -/
def slow_shuffle4 (a b : List Nat) (x y z w : Nat) : Option (List Nat) :=
  match shuffleOperand a b x, shuffleOperand a b y, shuffleOperand a b z,
      shuffleOperand a b w with
  | some r0, some r1, some r2, some r3 => some [r0, r1, r2, r3]
  | _, _, _, _ => none

/-- The call `std::memcpy(target, source, 16)` on arrays of 32-bit words. -/
def memcpy16 (target source : List Nat) : Option (List Nat) :=
  if source.length < 4 ∨ target.length < 4 then none
  else some (source.take 4 ++ target.drop 4)

/-- The function `swizzle`, with `shuffle4` expanded to `slow_shuffle4`.  The
result is the array `target` after the call; a reading order that the
`switch` does not list leaves it as it was. -/
def swizzle (target source : List Nat) (order : Nat) (reading : Bool) (t_max : Nat) :
    Option (List Nat) :=
  let special : List Nat := [0, t_max, 0, 0]
  if reading then
    if order = CL_R ∨ order = CL_Rx then slow_shuffle4 source special 0 4 4 5
    else if order = CL_A then slow_shuffle4 source special 4 4 4 0
    else if order = CL_INTENSITY then slow_shuffle4 source source 0 0 0 0
    else if order = CL_LUMINANCE then slow_shuffle4 source special 0 0 0 5
    else if order = CL_RG ∨ order = CL_RGx then slow_shuffle4 source special 0 1 4 5
    else if order = CL_RA then slow_shuffle4 source special 0 4 4 1
    else if order = CL_RGB ∨ order = CL_RGBx ∨ order = CL_RGBA then memcpy16 target source
    else if order = CL_ARGB then slow_shuffle4 source source 1 2 3 0
    else if order = CL_BGRA then slow_shuffle4 source source 2 1 0 3
    else some target
  else
    if order = CL_A then slow_shuffle4 source source 3 3 3 3
    else if order = CL_RA then slow_shuffle4 source source 0 3 3 3
    else if order = CL_ARGB then slow_shuffle4 source source 3 0 1 2
    else if order = CL_BGRA then slow_shuffle4 source source 2 1 0 3
    else memcpy16 target source

/-- The 32-bit element `data[i]` of a buffer of bytes, least significant
byte first. -/
def readWord (data : List Nat) (i : Nat) : Option Nat :=
  match data[4 * i]?, data[4 * i + 1]?, data[4 * i + 2]?, data[4 * i + 3]? with
  | some b0, some b1, some b2, some b3 => some (b0 + 256 * b1 + 65536 * b2 + 16777216 * b3)
  | _, _, _, _ => none

/-- The store `((uint8_t *)data)[i] = v`, which keeps the low 8 bits; the
store through `int8_t *` leaves the same byte. -/
def writeByte (data : List Nat) (i v : Nat) : List Nat :=
  data.set i (v % 256)

/-- The store `((uint16_t *)data)[i] = v`, which keeps the low 16 bits; the
store through `int16_t *` leaves the same bytes. -/
def writeHalf (data : List Nat) (i v : Nat) : List Nat :=
  (data.set (2 * i) (v % 256)).set (2 * i + 1) (v / 256 % 256)

/-- The 8-bit element `k` of a buffer of bytes. -/
def readByte (data : List Nat) (k : Nat) : Option Nat :=
  data[k]?

/-- The 16-bit element `k` of a buffer of bytes. -/
def readHalf (data : List Nat) (k : Nat) : Option Nat :=
  match data[2 * k]?, data[2 * k + 1]? with
  | some b0, some b1 => some (b0 + 256 * b1)
  | _, _ => none

/-- The body of the loop of `slow_convert_to_format4i` at index `i`, on the
bytes of `data`; a signed component is its 32-bit pattern. -/
def convertStep4i (type : Nat) (data : List Nat) (i : Nat) : Option (List Nat) :=
  if type = CL_SIGNED_INT8 then (readWord data i).map fun v => writeByte data i v
  else if type = CL_SIGNED_INT16 then (readWord data i).map fun v => writeHalf data i v
  else some data

/-- The function `slow_convert_to_format4i`: the loop runs for `i < 3`. -/
def slow_convert_to_format4i (data : List Nat) (type : Nat) : Option (List Nat) :=
  if type = CL_SIGNED_INT32 then some data
  else (List.range 3).foldlM (convertStep4i type) data

/-- The body of the loop of `slow_convert_to_format4ui` at index `i`, on the
bytes of `data`. -/
def convertStep4ui (type : Nat) (data : List Nat) (i : Nat) : Option (List Nat) :=
  if type = CL_UNSIGNED_INT8 then (readWord data i).map fun v => writeByte data i v
  else if type = CL_UNSIGNED_INT16 then (readWord data i).map fun v => writeHalf data i v
  else some data

/-- The function `slow_convert_to_format4ui`: the loop runs for `i < 3`. -/
def slow_convert_to_format4ui (data : List Nat) (type : Nat) : Option (List Nat) :=
  if type = CL_UNSIGNED_INT32 then some data
  else (List.range 3).foldlM (convertStep4ui type) data

/-- The bytes of the four 32-bit components 1, 2, 3 and 4. -/
def dataExample : List Nat := [1, 0, 0, 0, 2, 0, 0, 0, 3, 0, 0, 0, 4, 0, 0, 0]

/-! ## Local ids handed out by the barrier -/

/-- The local id that `barrier` gives the slot `k`: `incVec` applied `k`
times to the zero vector of the main context. -/
def nthLocalId (wg : CPUKernelWorkGroup) (k : Nat) : List Nat :=
  (fun v => incVec wg.p_work_dim v wg.p_max_local_id)^[k] (List.replicate MAX_WORK_DIMS 0)

/-- The digits of `k` over the sizes `ns`, the first dimension running
fastest. -/
def littleEndian (k : Nat) : List Nat → List Nat
  | [] => []
  | n :: ns => k % n :: littleEndian (k / n) ns

/-- A local id of the work-group: below `local_work_size[d]` in each of the
`work_dim` dimensions, zero in the others. -/
def InLocalRange (wg : CPUKernelWorkGroup) (v : List Nat) : Prop :=
  InRange (v.take wg.p_work_dim) (wg.p_event.p_local_work_size.take wg.p_work_dim) ∧
  v.drop wg.p_work_dim = List.replicate (MAX_WORK_DIMS - wg.p_work_dim) 0

/-- The state of the pool at `P` after `k` switching `barrier` calls of a
work-group started as `wg0`: the fields that `barrier` leaves alone, the
running work-item and its context, and the slots: initialized up to `k`
with their local ids, zero beyond. -/
def SlotsInvariant (C P : Nat) (wg0 : CPUKernelWorkGroup) (k : Nat) (wg : CPUKernelWorkGroup)
    (th : Thread) : Prop :=
  wg.p_contexts = P ∧
  wg.p_num_work_items = wg0.p_num_work_items ∧
  wg.p_stack_size = wg0.p_stack_size ∧
  wg.p_work_dim = wg0.p_work_dim ∧
  wg.p_max_local_id = wg0.p_max_local_id ∧
  wg.p_current_work_item = k % wg0.p_num_work_items ∧
  wg.p_current_context = getContextAddr C wg (k % wg0.p_num_work_items) ∧
  ∀ j, j < wg0.p_num_work_items →
    (j ≤ k → (th.mem (getContextAddr C wg j)).initialized = 1 ∧
      (th.mem (getContextAddr C wg j)).local_id = nthLocalId wg0 j) ∧
    (k < j → (th.mem (getContextAddr C wg j)).initialized = 0 ∧
      (th.mem (getContextAddr C wg j)).local_id.length = MAX_WORK_DIMS)

/-! ## Theorems: the work-item functions -/

theorem getElem_some_of_length {xs : List Nat} {d n : Nat} (hlen : xs.length = n) (hd : d < n) :
    ∃ v, xs[d]? = some v := by
  have h : d < xs.length := by omega
  exact ⟨xs[d], List.getElem?_eq_getElem h⟩

/-- C1: in a work-group state whose `global_id_start_offset[d]` is
`global_work_offset[d] + index[d] * local_work_size[d]`, for every `d < work_dim`
the seven getters return values with
`getGlobalId(d) = getGlobalOffset(d) + getGroupID(d) * getLocalSize(d) + getLocalID(d)`
in `size_t` arithmetic, hence as plain numbers whenever the right-hand side
fits in a `size_t`. -/
theorem getGlobalId_eq_offset_group_local (wg : CPUKernelWorkGroup) (mem : Nat → Context)
    (d : Nat) (hwf : WellFormed wg mem) (hd : d < wg.p_work_dim)
    (hstart : wg.p_global_id_start_offset[d]? = startOffset wg d) :
    ∃ o g l i, getGlobalOffset wg d = some o ∧ getGroupID wg d = some g ∧
      getLocalSize wg d = some l ∧ getLocalID wg mem d = some i ∧
      getGlobalId wg mem d = some ((o + g * l + i) % SIZE_T) ∧
      (o + g * l + i < SIZE_T → getGlobalId wg mem d = some (o + g * l + i)) := by
  obtain ⟨hdim, _, hl, ho, hi, _, hc⟩ := hwf
  have hd3 : d < MAX_WORK_DIMS := by omega
  obtain ⟨o, ho⟩ := getElem_some_of_length ho hd3
  obtain ⟨g, hg⟩ := getElem_some_of_length hi hd3
  obtain ⟨l, hl⟩ := getElem_some_of_length hl hd3
  obtain ⟨i, hi⟩ := getElem_some_of_length hc hd3
  have hng : ¬ d > wg.p_work_dim := by omega
  have hs : wg.p_global_id_start_offset[d]? = some ((o + g * l) % SIZE_T) := by
    rw [hstart]; simp [startOffset, ho, hg, hl]
  have hgid : getGlobalId wg mem d = some ((o + g * l + i) % SIZE_T) := by
    simp [getGlobalId, hng, hs, hi, Nat.add_mod]
  refine ⟨o, g, l, i, ?_, ?_, ?_, ?_, hgid, ?_⟩
  · simp [getGlobalOffset, hng, KernelEvent.global_work_offset, ho]
  · simp [getGroupID, hng, hg]
  · simp [getLocalSize, hng, KernelEvent.local_work_size, hl]
  · simp [getLocalID, hng, hi]
  · intro hlt
    rw [hgid, Nat.mod_eq_of_lt hlt]

/-- Witness of C1 on the second work-group of a launch with offset 10, where
`getGlobalId(0)` is `10 + 1 * 4 + 2`. -/
theorem getGlobalId_eq_offset_group_local_witness :
    (WellFormed wgExample memExample ∧ 0 < wgExample.p_work_dim ∧
      wgExample.p_global_id_start_offset[0]? = startOffset wgExample 0) ∧
    ∃ o g l i, getGlobalOffset wgExample 0 = some o ∧ getGroupID wgExample 0 = some g ∧
      getLocalSize wgExample 0 = some l ∧ getLocalID wgExample memExample 0 = some i ∧
      getGlobalId wgExample memExample 0 = some ((o + g * l + i) % SIZE_T) ∧
      (o + g * l + i < SIZE_T → getGlobalId wgExample memExample 0 = some (o + g * l + i)) :=
  ⟨⟨by decide, by decide, by decide⟩,
   getGlobalId_eq_offset_group_local wgExample memExample 0 (by decide) (by decide) (by decide)⟩

/-- C2, at the dimension index `d = work_dim`: the getters do not take their
identity branch there.  For `work_dim = MAX_WORK_DIMS = 3` every one of them
reads index 3 of a three-element array (no value is defined); for
`work_dim = 2` they return what the arrays hold at index 2 (here 6, 3, 2, 5,
7, 4 and 13) and not the identities 1 and 0. -/
theorem getters_at_work_dim_not_identity :
    (getGlobalSize wgExample3 3 = none ∧ getLocalSize wgExample3 3 = none ∧
      getNumGroups wgExample3 3 = none ∧ getGlobalOffset wgExample3 3 = none ∧
      getGroupID wgExample3 3 = none ∧ getLocalID wgExample3 memExample 3 = none ∧
      getGlobalId wgExample3 memExample 3 = none) ∧
    (getGlobalSize wgExample2 2 = some 6 ∧ getLocalSize wgExample2 2 = some 3 ∧
      getNumGroups wgExample2 2 = some 2 ∧ getGlobalOffset wgExample2 2 = some 5 ∧
      getGroupID wgExample2 2 = some 7 ∧
      getLocalID wgExample2 (store memExample 512 { Context.zero with local_id := [1, 1, 4] }) 2
        = some 4 ∧
      getGlobalId wgExample2 (store memExample 512 { Context.zero with local_id := [1, 1, 4] }) 2
        = some 13) := by
  decide

theorem getters_above_work_dim (wg : CPUKernelWorkGroup) (mem : Nat → Context) (d : Nat)
    (hd : d > wg.p_work_dim) :
    getGlobalSize wg d = some 1 ∧ getLocalSize wg d = some 1 ∧ getNumGroups wg d = some 1 ∧
      getGlobalOffset wg d = some 0 ∧ getGroupID wg d = some 0 ∧
      getLocalID wg mem d = some 0 ∧ getGlobalId wg mem d = some 0 := by
  simp [getGlobalSize, getLocalSize, getNumGroups, getGlobalOffset, getGroupID, getLocalID,
    getGlobalId, hd]

/-- C9: for `d < work_dim`, when `local_work_size[d] > 0` divides
`global_work_size[d]`, `getNumGroups(d)` is their quotient and
`getNumGroups(d) * getLocalSize(d) = getGlobalSize(d)`. -/
theorem getNumGroups_exact (wg : CPUKernelWorkGroup) (d g l : Nat)
    (hd : d < wg.p_work_dim)
    (hg : wg.p_event.p_global_work_size[d]? = some g)
    (hl : wg.p_event.p_local_work_size[d]? = some l)
    (hpos : 0 < l) (hdiv : g % l = 0) :
    getNumGroups wg d = some (g / l) ∧ getLocalSize wg d = some l ∧
      getGlobalSize wg d = some g ∧ g / l * l = g := by
  have hng : ¬ d > wg.p_work_dim := by omega
  have hl0 : l ≠ 0 := by omega
  refine ⟨?_, ?_, ?_, ?_⟩
  · simp [getNumGroups, hng, KernelEvent.global_work_size, KernelEvent.local_work_size,
      hg, hl, hl0]
  · simp [getLocalSize, hng, KernelEvent.local_work_size, hl]
  · simp [getGlobalSize, hng, KernelEvent.global_work_size, hg]
  · exact Nat.div_mul_cancel (Nat.dvd_of_mod_eq_zero hdiv)

/-- Witness of C9: global size 8 and local size 4 give 2 groups. -/
theorem getNumGroups_exact_witness :
    (0 < wgExample.p_work_dim ∧ wgExample.p_event.p_global_work_size[0]? = some 8 ∧
      wgExample.p_event.p_local_work_size[0]? = some 4 ∧ 0 < 4 ∧ 8 % 4 = 0) ∧
    getNumGroups wgExample 0 = some (8 / 4) ∧ getLocalSize wgExample 0 = some 4 ∧
      getGlobalSize wgExample 0 = some 8 ∧ 8 / 4 * 4 = 8 :=
  ⟨by decide,
   getNumGroups_exact wgExample 0 8 4 (by decide) (by decide) (by decide) (by decide) (by decide)⟩

/-- C10: for `d < work_dim` the getters return the elements at index `d` of
the launch descriptor's `global_work_size`, `local_work_size` and
`global_work_offset`, of `index` and of the current context's `local_id`;
`getWorkDim` returns `work_dim`. -/
theorem getters_in_range (wg : CPUKernelWorkGroup) (mem : Nat → Context) (d : Nat)
    (hwf : WellFormed wg mem) (hd : d < wg.p_work_dim) :
    ∃ gs ls go gi li,
      wg.p_event.p_global_work_size[d]? = some gs ∧
      wg.p_event.p_local_work_size[d]? = some ls ∧
      wg.p_event.p_global_work_offset[d]? = some go ∧
      wg.p_index[d]? = some gi ∧
      (mem wg.p_current_context).local_id[d]? = some li ∧
      getGlobalSize wg d = some gs ∧ getLocalSize wg d = some ls ∧
      getGlobalOffset wg d = some go ∧ getGroupID wg d = some gi ∧
      getLocalID wg mem d = some li ∧ getWorkDim wg = wg.p_work_dim := by
  obtain ⟨hdim, hgs, hls, hgo, hgi, _, hli⟩ := hwf
  have hd3 : d < MAX_WORK_DIMS := by omega
  obtain ⟨gs, hgs⟩ := getElem_some_of_length hgs hd3
  obtain ⟨ls, hls⟩ := getElem_some_of_length hls hd3
  obtain ⟨go, hgo⟩ := getElem_some_of_length hgo hd3
  obtain ⟨gi, hgi⟩ := getElem_some_of_length hgi hd3
  obtain ⟨li, hli⟩ := getElem_some_of_length hli hd3
  have hng : ¬ d > wg.p_work_dim := by omega
  refine ⟨gs, ls, go, gi, li, hgs, hls, hgo, hgi, hli, ?_, ?_, ?_, ?_, ?_, rfl⟩
  · simp [getGlobalSize, hng, KernelEvent.global_work_size, hgs]
  · simp [getLocalSize, hng, KernelEvent.local_work_size, hls]
  · simp [getGlobalOffset, hng, KernelEvent.global_work_offset, hgo]
  · simp [getGroupID, hng, hgi]
  · simp [getLocalID, hng, hli]

/-- Witness of C10 in dimension 1 of a two-dimensional launch. -/
theorem getters_in_range_witness :
    (WellFormed wgExample2 memExample ∧ 1 < wgExample2.p_work_dim) ∧
    ∃ gs ls go gi li,
      wgExample2.p_event.p_global_work_size[1]? = some gs ∧
      wgExample2.p_event.p_local_work_size[1]? = some ls ∧
      wgExample2.p_event.p_global_work_offset[1]? = some go ∧
      wgExample2.p_index[1]? = some gi ∧
      (memExample wgExample2.p_current_context).local_id[1]? = some li ∧
      getGlobalSize wgExample2 1 = some gs ∧ getLocalSize wgExample2 1 = some ls ∧
      getGlobalOffset wgExample2 1 = some go ∧ getGroupID wgExample2 1 = some gi ∧
      getLocalID wgExample2 memExample 1 = some li ∧
      getWorkDim wgExample2 = wgExample2.p_work_dim :=
  ⟨⟨by decide, by decide⟩, getters_in_range wgExample2 memExample 1 (by decide) (by decide)⟩

/-! ## Theorems: the barrier -/

theorem barrier_attached (C : Nat) (h : Host) (flags : Nat) (wg : CPUKernelWorkGroup)
    (th : Thread) (hpool : wg.p_contexts ≠ 0) :
    barrier C h flags wg th = takeNextContext C h { wg with p_had_barrier := true } th := by
  simp [barrier, hpool]

theorem barrier_eq_takeNext (C : Nat) (h : Host) (flags : Nat) (wg : CPUKernelWorkGroup)
    (th : Thread) (hreach : wg.p_contexts ≠ 0 ∨ wg.p_current_work_item = 0) :
    barrier C h flags wg th =
      takeNextContext C h (atTakeNext C h wg th).1 (atTakeNext C h wg th).2 := by
  unfold barrier atTakeNext
  by_cases hp : wg.p_contexts = 0
  · have hc : wg.p_current_work_item = 0 := by
      rcases hreach with h1 | h1
      · exact absurd hp h1
      · exact h1
    simp [hp, hc]
  · simp [hp]

theorem next_work_item_mod (i n : Nat) (h : i < n) :
    (if i + 1 = n then 0 else i + 1) = (i + 1) % n := by
  split_ifs with he
  · rw [he, Nat.mod_self]
  · rw [Nat.mod_eq_of_lt (by omega)]

theorem memcpy_full (dst src : List Nat) (n : Nat) (hd : dst.length = n) (hs : src.length = n) :
    memcpy dst src n = src := by
  unfold memcpy
  rw [List.take_of_length_le (by omega), List.drop_of_length_le (by omega), List.append_nil]


theorem store_saved_initialized (mem : Nat → Context) (cur x : Nat) :
    (store mem cur { mem cur with context := { (mem cur).context with saved := true } } x).initialized
      = (mem x).initialized := by
  unfold store
  split_ifs with hx
  · rw [hx]
  · rfl

theorem store_saved_local_id (mem : Nat → Context) (cur x : Nat) :
    (store mem cur { mem cur with context := { (mem cur).context with saved := true } } x).local_id
      = (mem x).local_id := by
  unfold store
  split_ifs with hx
  · rw [hx]
  · rfl

theorem initNextContext_next (C : Nat) (h : Host) (wg : CPUKernelWorkGroup) (th : Thread)
    (next main : Nat) :
    ((initNextContext C h wg th next main).1.mem next).initialized = 1 ∧
    ((initNextContext C h wg th next main).1.mem next).local_id =
      incVec wg.p_work_dim
        (memcpy (th.mem next).local_id (th.mem wg.p_current_context).local_id MAX_WORK_DIMS)
        wg.p_max_local_id := by
  unfold initNextContext
  by_cases hg : h.getcontext_next = 0 <;> by_cases hc : wg.p_current_context = next <;>
    simp [hg, hc, store]


theorem takeNextContext_next_uninit (C : Nat) (h : Host) (wg : CPUKernelWorkGroup) (th : Thread)
    (hinit : (th.mem (getContextAddr C wg (nextWorkItem wg))).initialized = 0) :
    ((takeNextContext C h wg th).2.mem (getContextAddr C wg (nextWorkItem wg))).initialized = 1 ∧
    ((takeNextContext C h wg th).2.mem (getContextAddr C wg (nextWorkItem wg))).local_id =
      incVec wg.p_work_dim
        (memcpy (th.mem (getContextAddr C wg (nextWorkItem wg))).local_id
          (th.mem wg.p_current_context).local_id MAX_WORK_DIMS) wg.p_max_local_id := by
  have key := initNextContext_next C h
    { wg with p_current_work_item := nextWorkItem wg } th
    (getContextAddr C wg (nextWorkItem wg)) (getContextAddr C wg 0)
  have hstep : takeNextContext C h wg th =
      (if (initNextContext C h { wg with p_current_work_item := nextWorkItem wg } th
            (getContextAddr C wg (nextWorkItem wg)) (getContextAddr C wg 0)).2 = false then
        ({ wg with p_current_work_item := nextWorkItem wg },
          (initNextContext C h { wg with p_current_work_item := nextWorkItem wg } th
            (getContextAddr C wg (nextWorkItem wg)) (getContextAddr C wg 0)).1)
      else
        switchContext { wg with p_current_work_item := nextWorkItem wg }
          (initNextContext C h { wg with p_current_work_item := nextWorkItem wg } th
            (getContextAddr C wg (nextWorkItem wg)) (getContextAddr C wg 0)).1
          (getContextAddr C wg (nextWorkItem wg))) := by
    show (if (th.mem (getContextAddr C wg (nextWorkItem wg))).initialized = 0 then _ else _) = _
    rw [if_pos hinit]
    rfl
  rw [hstep]
  split_ifs
  · exact key
  · exact ⟨by unfold switchContext; simp only [store_saved_initialized]; exact key.1,
      by unfold switchContext; simp only [store_saved_local_id]; exact key.2⟩

theorem takeNextContext_next_init (C : Nat) (h : Host) (wg : CPUKernelWorkGroup) (th : Thread)
    (hinit : (th.mem (getContextAddr C wg (nextWorkItem wg))).initialized ≠ 0) :
    ((takeNextContext C h wg th).2.mem (getContextAddr C wg (nextWorkItem wg))).initialized =
      (th.mem (getContextAddr C wg (nextWorkItem wg))).initialized ∧
    ((takeNextContext C h wg th).2.mem (getContextAddr C wg (nextWorkItem wg))).local_id =
      (th.mem (getContextAddr C wg (nextWorkItem wg))).local_id := by
  have hstep : takeNextContext C h wg th =
      switchContext { wg with p_current_work_item := nextWorkItem wg } th
        (getContextAddr C wg (nextWorkItem wg)) := by
    show (if (th.mem (getContextAddr C wg (nextWorkItem wg))).initialized = 0 then _ else _) = _
    rw [if_neg hinit]
    rfl
  rw [hstep]
  exact ⟨by unfold switchContext; simp only [store_saved_initialized],
    by unfold switchContext; simp only [store_saved_local_id]⟩

theorem takeNextContext_fields (C : Nat) (h : Host) (wg : CPUKernelWorkGroup) (th : Thread) :
    (takeNextContext C h wg th).1.p_current_work_item = nextWorkItem wg ∧
      (takeNextContext C h wg th).1.p_contexts = wg.p_contexts ∧
      (takeNextContext C h wg th).1.p_num_work_items = wg.p_num_work_items ∧
      (takeNextContext C h wg th).1.p_stack_size = wg.p_stack_size := by
  unfold takeNextContext switchContext
  simp only []
  split_ifs <;> exact ⟨rfl, rfl, rfl, rfl⟩

theorem barrier_fields (C : Nat) (h : Host) (flags : Nat) (wg : CPUKernelWorkGroup)
    (th : Thread) (hpool : wg.p_contexts ≠ 0) :
    (barrier C h flags wg th).1.p_current_work_item = nextWorkItem wg ∧
      (barrier C h flags wg th).1.p_contexts = wg.p_contexts ∧
      (barrier C h flags wg th).1.p_num_work_items = wg.p_num_work_items := by
  rw [barrier_attached C h flags wg th hpool]
  obtain ⟨h1, h2, h3, _⟩ := takeNextContext_fields C h { wg with p_had_barrier := true } th
  exact ⟨h1, h2, h3⟩

theorem barriers_work_item (C : Nat) (hs : List Host) :
    ∀ (wg : CPUKernelWorkGroup) (th : Thread), wg.p_contexts ≠ 0 →
      wg.p_current_work_item < wg.p_num_work_items →
      (barriers C hs wg th).1.p_current_work_item =
        (wg.p_current_work_item + hs.length) % wg.p_num_work_items := by
  induction hs with
  | nil =>
      intro wg th _ hcur
      simp [barriers, Nat.mod_eq_of_lt hcur]
  | cons h hs ih =>
      intro wg th hpool hcur
      obtain ⟨h1, h2, h3⟩ := barrier_fields C h 0 wg th hpool
      have hmod := next_work_item_mod wg.p_current_work_item wg.p_num_work_items hcur
      have hlt : (barrier C h 0 wg th).1.p_current_work_item
          < (barrier C h 0 wg th).1.p_num_work_items := by
        rw [h1, h3]
        unfold nextWorkItem
        rw [hmod]
        exact Nat.mod_lt _ (by omega)
      have := ih (barrier C h 0 wg th).1 (barrier C h 0 wg th).2 (by rw [h2]; exact hpool) hlt
      show (barriers C hs (barrier C h 0 wg th).1 (barrier C h 0 wg th).2).1.p_current_work_item = _
      rw [this, h1, h3]
      unfold nextWorkItem
      rw [hmod, List.length_cons, Nat.mod_add_mod]
      congr 1
      omega

/-- C4: a `barrier` call made with the pool attached and
`current_work_item < num_work_items` sets `current_work_item` to
`(current_work_item + 1) mod num_work_items`, which is below
`num_work_items`; and after any `k` successive such calls it is
`(current_work_item + k) mod num_work_items`, so the calls are entered by the
work-items in cyclic order. -/
theorem barrier_round_robin (C : Nat) (h : Host) (flags : Nat) (wg : CPUKernelWorkGroup)
    (th : Thread) (hpool : wg.p_contexts ≠ 0)
    (hcur : wg.p_current_work_item < wg.p_num_work_items) :
    (barrier C h flags wg th).1.p_current_work_item =
        (wg.p_current_work_item + 1) % wg.p_num_work_items ∧
      (barrier C h flags wg th).1.p_current_work_item < wg.p_num_work_items ∧
      (barrier C h flags wg th).1.p_num_work_items = wg.p_num_work_items ∧
      ∀ hs : List Host, (barriers C hs wg th).1.p_current_work_item =
        (wg.p_current_work_item + hs.length) % wg.p_num_work_items := by
  obtain ⟨h1, _, h3⟩ := barrier_fields C h flags wg th hpool
  have hmod := next_work_item_mod wg.p_current_work_item wg.p_num_work_items hcur
  unfold nextWorkItem at h1
  rw [hmod] at h1
  refine ⟨h1, ?_, h3, fun hs => barriers_work_item C hs wg th hpool hcur⟩
  rw [h1]
  exact Nat.mod_lt _ (by omega)

/-- Witness of C4: in a group of 4 work-items, a barrier entered by
work-item 3 hands over to work-item 0. -/
theorem barrier_round_robin_witness :
    (wgAttached.p_contexts ≠ 0 ∧ wgAttached.p_current_work_item < wgAttached.p_num_work_items) ∧
    ((barrier sizeofContextExample hostA 0 wgAttached threadFresh).1.p_current_work_item =
        (wgAttached.p_current_work_item + 1) % wgAttached.p_num_work_items ∧
      (barrier sizeofContextExample hostA 0 wgAttached threadFresh).1.p_current_work_item
        < wgAttached.p_num_work_items ∧
      (barrier sizeofContextExample hostA 0 wgAttached threadFresh).1.p_num_work_items
        = wgAttached.p_num_work_items ∧
      ∀ hs : List Host,
        (barriers sizeofContextExample hs wgAttached threadFresh).1.p_current_work_item =
          (wgAttached.p_current_work_item + hs.length) % wgAttached.p_num_work_items) :=
  ⟨⟨by decide, by decide⟩,
   barrier_round_robin sizeofContextExample hostA 0 wgAttached threadFresh (by decide) (by decide)⟩

/-- C6: `barrier` called with no pool attached and `current_work_item != 0`
only sets `p_had_barrier` and writes the diagnostic: `current_work_item`,
`current_context` and the pool pointer keep their values, memory (hence every
slot's `initialized` flag) and the thread-local pool record are unchanged,
and no context switch is made. -/
theorem barrier_no_pool_not_first (C : Nat) (h : Host) (flags : Nat) (wg : CPUKernelWorkGroup)
    (th : Thread) (hnull : wg.p_contexts = 0) (hne : wg.p_current_work_item ≠ 0) :
    (barrier C h flags wg th).1 = { wg with p_had_barrier := true } ∧
      (barrier C h flags wg th).1.p_current_work_item = wg.p_current_work_item ∧
      (barrier C h flags wg th).1.p_current_context = wg.p_current_context ∧
      (barrier C h flags wg th).1.p_contexts = wg.p_contexts ∧
      (barrier C h flags wg th).2.mem = th.mem ∧
      (barrier C h flags wg th).2.work_items_data = th.work_items_data ∧
      (barrier C h flags wg th).2.work_items_size = th.work_items_size ∧
      (barrier C h flags wg th).2.trace = th.trace ++ [HostCall.cerr] := by
  have hb : barrier C h flags wg th =
      ({ wg with p_had_barrier := true }, { th with trace := th.trace ++ [HostCall.cerr] }) := by
    simp [barrier, hnull, hne]
  rw [hb]
  exact ⟨rfl, rfl, rfl, rfl, rfl, rfl, rfl, rfl⟩

/-- Witness of C6: work-item 2 enters `barrier` with no pool attached. -/
theorem barrier_no_pool_not_first_witness :
    (wgDetached.p_contexts = 0 ∧ wgDetached.p_current_work_item ≠ 0) ∧
    ((barrier sizeofContextExample hostA 0 wgDetached threadFresh).1
        = { wgDetached with p_had_barrier := true } ∧
      (barrier sizeofContextExample hostA 0 wgDetached threadFresh).1.p_current_work_item
        = wgDetached.p_current_work_item ∧
      (barrier sizeofContextExample hostA 0 wgDetached threadFresh).1.p_current_context
        = wgDetached.p_current_context ∧
      (barrier sizeofContextExample hostA 0 wgDetached threadFresh).1.p_contexts
        = wgDetached.p_contexts ∧
      (barrier sizeofContextExample hostA 0 wgDetached threadFresh).2.mem = threadFresh.mem ∧
      (barrier sizeofContextExample hostA 0 wgDetached threadFresh).2.work_items_data
        = threadFresh.work_items_data ∧
      (barrier sizeofContextExample hostA 0 wgDetached threadFresh).2.work_items_size
        = threadFresh.work_items_size ∧
      (barrier sizeofContextExample hostA 0 wgDetached threadFresh).2.trace
        = threadFresh.trace ++ [HostCall.cerr]) :=
  ⟨⟨by decide, by decide⟩,
   barrier_no_pool_not_first sizeofContextExample hostA 0 wgDetached threadFresh
     (by decide) (by decide)⟩

theorem memsetZero_length (xs : List Nat) (n : Nat) : (memsetZero xs n).length = xs.length := by
  unfold memsetZero
  simp only [List.length_append, List.length_replicate, List.length_drop]
  omega

theorem allocateStacks_typed (C : Nat) (h : Host) (wg : CPUKernelWorkGroup) (th : Thread)
    (htyped : MemTyped th.mem) : MemTyped (allocateStacks C h wg th).2.mem := by
  intro a
  have hz : ∀ (m : Nat → Context) (p len : Nat), (∀ x, (m x).local_id.length = MAX_WORK_DIMS) →
      ((mmapZero m p len) a).local_id.length = MAX_WORK_DIMS := by
    intro m p len hm
    unfold mmapZero
    split_ifs
    · rfl
    · exact hm a
  unfold allocateStacks getWorkItemsData setWorkItemsData
  simp only []
  split_ifs <;> first
    | exact htyped a
    | exact hz _ _ _ htyped

theorem initMainContext_typed (C : Nat) (h : Host) (wg : CPUKernelWorkGroup) (th : Thread)
    (htyped : MemTyped th.mem) : MemTyped (initMainContext C h wg th).2.mem := by
  intro a
  unfold initMainContext store
  simp only []
  split_ifs
  · simp only [memsetZero_length]
    exact htyped _
  · simp only [memsetZero_length]
    exact htyped _
  · exact htyped a

theorem atTakeNext_typed (C : Nat) (h : Host) (wg : CPUKernelWorkGroup) (th : Thread)
    (htyped : MemTyped th.mem) : MemTyped (atTakeNext C h wg th).2.mem := by
  unfold atTakeNext
  simp only []
  split_ifs
  · exact initMainContext_typed C h _ _ (allocateStacks_typed C h _ _ htyped)
  · exact htyped

theorem atTakeNext_fields (C : Nat) (h : Host) (wg : CPUKernelWorkGroup) (th : Thread) :
    (atTakeNext C h wg th).1.p_work_dim = wg.p_work_dim ∧
      (atTakeNext C h wg th).1.p_max_local_id = wg.p_max_local_id ∧
      (atTakeNext C h wg th).1.p_current_work_item = wg.p_current_work_item ∧
      (atTakeNext C h wg th).1.p_num_work_items = wg.p_num_work_items := by
  unfold atTakeNext allocateStacks initMainContext
  simp only []
  split_ifs <;> exact ⟨rfl, rfl, rfl, rfl⟩

theorem atTakeNext_attached (C : Nat) (h : Host) (wg : CPUKernelWorkGroup) (th : Thread)
    (hpool : wg.p_contexts ≠ 0) :
    atTakeNext C h wg th = ({ wg with p_had_barrier := true }, th) := by
  simp [atTakeNext, hpool]

/-- C5: let `s` be the state in which a `barrier` call reaches "Take the
next context" (for a call made with the pool attached, the state at entry)
and `next` the slot of the new `current_work_item`.  If the `initialized` flag
of `next` is 0 in `s`, the call sets it to 1 and sets the `local_id` of `next`
to `incVec(work_dim, local_id of the current context in s, max_local_id)`;
otherwise the flag and the `local_id` of `next` stay as they are in `s`. -/
theorem barrier_next_slot (C : Nat) (h : Host) (flags : Nat) (wg : CPUKernelWorkGroup)
    (th : Thread) (hreach : wg.p_contexts ≠ 0 ∨ wg.p_current_work_item = 0)
    (htyped : MemTyped th.mem) :
    let s := atTakeNext C h wg th
    let r := barrier C h flags wg th
    let next := getContextAddr C r.1 r.1.p_current_work_item
    ((s.2.mem next).initialized = 0 →
        (r.2.mem next).initialized = 1 ∧
        (r.2.mem next).local_id =
          incVec wg.p_work_dim (s.2.mem s.1.p_current_context).local_id wg.p_max_local_id) ∧
    ((s.2.mem next).initialized ≠ 0 →
        (r.2.mem next).initialized = (s.2.mem next).initialized ∧
        (r.2.mem next).local_id = (s.2.mem next).local_id) ∧
    (wg.p_contexts ≠ 0 →
        s.2.mem = th.mem ∧ s.1.p_current_context = wg.p_current_context) := by
  intro s r next
  have hr : r = takeNextContext C h s.1 s.2 := barrier_eq_takeNext C h flags wg th hreach
  obtain ⟨f1, f2, _, f4⟩ := takeNextContext_fields C h s.1 s.2
  obtain ⟨g1, g2, _, _⟩ := atTakeNext_fields C h wg th
  have hnext : next = getContextAddr C s.1 (nextWorkItem s.1) := by
    show getContextAddr C r.1 r.1.p_current_work_item = _
    rw [hr]
    unfold getContextAddr
    rw [f1, f2, f4]
  have hs_typed : MemTyped s.2.mem := atTakeNext_typed C h wg th htyped
  refine ⟨?_, ?_, ?_⟩
  · intro hinit
    rw [hnext] at hinit ⊢
    obtain ⟨k1, k2⟩ := takeNextContext_next_uninit C h s.1 s.2 hinit
    rw [hr]
    refine ⟨k1, ?_⟩
    rw [k2, memcpy_full _ _ MAX_WORK_DIMS (hs_typed _) (hs_typed _)]
    show incVec (atTakeNext C h wg th).1.p_work_dim _ (atTakeNext C h wg th).1.p_max_local_id = _
    rw [g1, g2]
  · intro hinit
    rw [hnext] at hinit ⊢
    rw [hr]
    exact takeNextContext_next_init C h s.1 s.2 hinit
  · intro hpool
    have hs : s = ({ wg with p_had_barrier := true }, th) := atTakeNext_attached C h wg th hpool
    rw [hs]
    exact ⟨rfl, rfl⟩

theorem threadFresh_typed : MemTyped threadFresh.mem := by
  intro a
  rfl

/-- Witness of C5 on the first barrier of a group of 4 work-items: slot 1,
not initialized, receives local id 1, the successor of the local id 0 of
work-item 0. -/
theorem barrier_next_slot_witness :
    ((wgExample.p_contexts ≠ 0 ∨ wgExample.p_current_work_item = 0) ∧
      MemTyped threadFresh.mem) ∧
    (((barrier sizeofContextExample hostA 0 wgExample threadFresh).2.mem
        (65536 + 1 * (976 + 8192))).initialized = 1 ∧
     ((barrier sizeofContextExample hostA 0 wgExample threadFresh).2.mem
        (65536 + 1 * (976 + 8192))).local_id = [1, 0, 0]) :=
  ⟨⟨by decide, threadFresh_typed⟩,
   (barrier_next_slot sizeofContextExample hostA 0 wgExample threadFresh (by decide)
      threadFresh_typed).1 (by decide)⟩

theorem allocateStacks_size (C : Nat) (h : Host) (wg : CPUKernelWorkGroup) (th : Thread) :
    (allocateStacks C h wg th).2.work_items_size = th.work_items_size := by
  unfold allocateStacks getWorkItemsData setWorkItemsData
  simp only []
  split_ifs <;> rfl

theorem takeNextContext_size (C : Nat) (h : Host) (wg : CPUKernelWorkGroup) (th : Thread) :
    (takeNextContext C h wg th).2.work_items_size = th.work_items_size := by
  have hi : ∀ (w : CPUKernelWorkGroup) (next main : Nat),
      (initNextContext C h w th next main).1.work_items_size = th.work_items_size := by
    intro w next main
    unfold initNextContext
    simp only []
    split_ifs <;> rfl
  unfold takeNextContext switchContext
  simp only []
  split_ifs
  · exact hi _ _ _
  · exact hi _ _ _
  · rfl

theorem barrier_size (C : Nat) (h : Host) (flags : Nat) (wg : CPUKernelWorkGroup)
    (th : Thread) : (barrier C h flags wg th).2.work_items_size = th.work_items_size := by
  unfold barrier
  simp only []
  split_ifs
  · rfl
  · rw [takeNextContext_size]
    show (allocateStacks C h _ th).2.work_items_size = _
    rw [allocateStacks_size]
  · rw [takeNextContext_size]

/-- C7, on two successive work-groups of the same shape on one thread: the
thread-local size is never updated by `barrier` (it is written back as read),
so after the first barrier has mapped 36672 bytes at 65536 the recorded size
is still 0, and the first barrier of the next work-group unmaps and maps
again; the thread-local pointer changes to 131072. -/
theorem barrier_maps_again :
    (∀ (C : Nat) (h : Host) (flags : Nat) (wg : CPUKernelWorkGroup) (th : Thread),
      (barrier C h flags wg th).2.work_items_size = th.work_items_size) ∧
    (barrier sizeofContextExample hostA 0 wgExample threadFresh).2.trace =
      [HostCall.mmap 36672 65536, HostCall.getcontext 65536, HostCall.getcontext 74704,
       HostCall.makecontext 74704 4096, HostCall.swapcontext 65536 74704] ∧
    (barrier sizeofContextExample hostA 0 wgExample threadFresh).2.work_items_data = 65536 ∧
    (barrier sizeofContextExample hostA 0 wgExample threadFresh).2.work_items_size = 0 ∧
    (barrier sizeofContextExample hostB 0 wgExample
        (barrier sizeofContextExample hostA 0 wgExample threadFresh).2).2.trace =
      (barrier sizeofContextExample hostA 0 wgExample threadFresh).2.trace ++
        [HostCall.munmap 65536 0, HostCall.mmap 36672 131072, HostCall.getcontext 131072,
         HostCall.getcontext 140240, HostCall.makecontext 140240 4096,
         HostCall.swapcontext 131072 140240] ∧
    (barrier sizeofContextExample hostB 0 wgExample
        (barrier sizeofContextExample hostA 0 wgExample threadFresh).2).2.work_items_data
      = 131072 := by
  refine ⟨?_, by decide, by decide, by decide, by decide, by decide⟩
  intro C h flags wg th
  exact barrier_size C h flags wg th

/-- C8, when `mmap` fails during the first barrier: the call records
`MAP_FAILED` as the pool, in the work-group and in the thread-local pointer,
marks the record at that address initialized, advances `current_work_item`
to 1 and goes on to `swapcontext`. -/
theorem barrier_mmap_failure_unchecked :
    (barrier sizeofContextExample hostFail 0 wgExample threadFresh).1.p_contexts = MAP_FAILED ∧
    (barrier sizeofContextExample hostFail 0 wgExample threadFresh).2.work_items_data
      = MAP_FAILED ∧
    ((barrier sizeofContextExample hostFail 0 wgExample threadFresh).2.mem MAP_FAILED).initialized
      = 1 ∧
    (barrier sizeofContextExample hostFail 0 wgExample threadFresh).1.p_current_work_item = 1 ∧
    HostCall.swapcontext MAP_FAILED
        (barrier sizeofContextExample hostFail 0 wgExample threadFresh).1.p_current_context
      ∈ (barrier sizeofContextExample hostFail 0 wgExample threadFresh).2.trace := by
  decide

/-! ## Theorems: `getBuiltin` -/

/-- C11 as stated fails at the name `debug`, which is none of the nine
coordination intrinsics nor a `__cpu_*` image built-in: `getBuiltin` returns
`printf` for it, not the stub. -/
theorem getBuiltin_debug_not_stub :
    "debug" ∉ surfaceTable.map Prod.fst ∧
      getBuiltin "debug" = (Builtin.printf, none) ∧
      (getBuiltin "debug").1 ≠ Builtin.unimplemented_stub := by
  decide

/-- C11, amended: `getBuiltin` returns the no-op stub (and reports the name)
for every name that is neither one of the sixteen built-ins of the table nor
`debug`; for each name of the table it returns that built-in's own
implementation, which is not the stub, and reports nothing; for `debug` it
returns `printf`. -/
theorem getBuiltin_table :
    (∀ name : String, name ∉ surfaceTable.map Prod.fst → name ≠ "debug" →
        getBuiltin name = (Builtin.unimplemented_stub, some name)) ∧
    (∀ p ∈ surfaceTable, getBuiltin p.1 = (p.2, none) ∧ p.2 ≠ Builtin.unimplemented_stub) ∧
    getBuiltin "debug" = (Builtin.printf, none) := by
  refine ⟨?_, ?_, by decide⟩
  · intro name hname hdebug
    simp only [surfaceTable, List.map_cons, List.map_nil, List.mem_cons, List.mem_nil_iff,
      or_false, not_or] at hname
    obtain ⟨h1, h2, h3, h4, h5, h6, h7, h8, h9, h10, h11, h12, h13, h14, h15, h16⟩ := hname
    simp only [getBuiltin, h1, h2, h3, h4, h5, h6, h7, h8, h9, h10, h11, h12, h13, h14, h15,
      h16, hdebug, if_false]
  · decide

/-- Witness of the amended C11 at the name `get_local_linear_id`, which the
table does not hold. -/
theorem getBuiltin_table_witness :
    ("get_local_linear_id" ∉ surfaceTable.map Prod.fst ∧ "get_local_linear_id" ≠ "debug") ∧
      getBuiltin "get_local_linear_id"
        = (Builtin.unimplemented_stub, some "get_local_linear_id") :=
  ⟨by decide, getBuiltin_table.1 "get_local_linear_id" (by decide) (by decide)⟩

/-! ## Theorems: the work-group scheduler -/

theorem rowMajor_add_mul (ns : List Nat) : ∀ k m : Nat,
    rowMajor (k + m * ns.prod) ns = rowMajor k ns := by
  induction ns with
  | nil => intro k m; rfl
  | cons n ns ih =>
      intro k m
      have htail : rowMajor (k + m * (n :: ns).prod) ns = rowMajor k ns := by
        have : k + m * (n :: ns).prod = k + (m * n) * ns.prod := by
          rw [List.prod_cons, Nat.mul_assoc]
        rw [this, ih]
      have hhead : (k + m * (n :: ns).prod) / ns.prod % n = k / ns.prod % n := by
        rcases Nat.eq_zero_or_pos ns.prod with h0 | hpos
        · simp [h0]
        · have : k + m * (n :: ns).prod = k + (m * n) * ns.prod := by
            rw [List.prod_cons, Nat.mul_assoc]
          rw [this, Nat.add_mul_div_right _ _ hpos, Nat.add_mul_mod_self_right]
      show (k + m * (n :: ns).prod) / ns.prod % n :: rowMajor (k + m * (n :: ns).prod) ns = _
      rw [hhead, htail]
      rfl

theorem rowMajor_mod (ns : List Nat) (k : Nat) : rowMajor (k % ns.prod) ns = rowMajor k ns := by
  have h := rowMajor_add_mul ns (k % ns.prod) (k / ns.prod)
  rw [Nat.mul_comm, Nat.mod_add_div] at h
  exact h.symm

theorem linearIndex_rowMajor_mod (ns : List Nat) : ∀ k : Nat,
    linearIndex (rowMajor k ns) ns = k % ns.prod := by
  induction ns with
  | nil => intro k; simp [rowMajor, linearIndex, Nat.mod_one]
  | cons n ns ih =>
      intro k
      show k / ns.prod % n * ns.prod + linearIndex (rowMajor k ns) ns = k % (n :: ns).prod
      rw [ih, List.prod_cons, Nat.mul_comm n ns.prod, Nat.mod_mul, Nat.mul_comm, Nat.add_comm]

theorem inRange_rowMajor (ns : List Nat) (k : Nat) (hpos : ∀ n ∈ ns, 0 < n) :
    InRange (rowMajor k ns) ns := by
  induction ns with
  | nil => trivial
  | cons n ns ih =>
      refine ⟨Nat.mod_lt _ (hpos n (List.mem_cons_self n ns)), ih ?_⟩
      intro m hm
      exact hpos m (List.mem_cons_of_mem n hm)

theorem pos_of_lt_prod (ns : List Nat) (k : Nat) (hk : k < ns.prod) : ∀ n ∈ ns, 0 < n := by
  intro n hn
  rcases Nat.eq_zero_or_pos n with h0 | hpos
  · exfalso
    have : ns.prod = 0 := List.prod_eq_zero (h0 ▸ hn)
    omega
  · exact hpos

theorem linearIndex_lt (ns : List Nat) : ∀ v : List Nat, InRange v ns →
    linearIndex v ns < ns.prod ∧ rowMajor (linearIndex v ns) ns = v := by
  induction ns with
  | nil =>
      intro v hv
      cases v with
      | nil => exact ⟨by simp [linearIndex], rfl⟩
      | cons i is => exact absurd hv (by simp [InRange])
  | cons n ns ih =>
      intro v hv
      cases v with
      | nil => exact absurd hv (by simp [InRange])
      | cons i is =>
          obtain ⟨hi, his⟩ := hv
          obtain ⟨hlt, hrow⟩ := ih is his
          have hP : 0 < ns.prod := by omega
          refine ⟨?_, ?_⟩
          · show i * ns.prod + linearIndex is ns < (n :: ns).prod
            rw [List.prod_cons]
            calc i * ns.prod + linearIndex is ns
                < i * ns.prod + ns.prod := by omega
              _ = (i + 1) * ns.prod := by rw [Nat.add_mul, Nat.one_mul]
              _ ≤ n * ns.prod := Nat.mul_le_mul_right _ hi
          · show (i * ns.prod + linearIndex is ns) / ns.prod % n
                :: rowMajor (i * ns.prod + linearIndex is ns) ns = i :: is
            have h1 : (i * ns.prod + linearIndex is ns) / ns.prod = i := by
              rw [Nat.add_comm, Nat.add_mul_div_right _ _ hP, Nat.div_eq_of_lt hlt, Nat.zero_add]
            have h2 : rowMajor (i * ns.prod + linearIndex is ns) ns = is := by
              rw [Nat.add_comm, rowMajor_add_mul, hrow]
            rw [h1, h2, Nat.mod_eq_of_lt hi]

theorem rowMajor_lex (ns : List Nat) : ∀ k k' : Nat, k < k' → k' < ns.prod →
    List.Lex (· < ·) (rowMajor k ns) (rowMajor k' ns) := by
  induction ns with
  | nil =>
      intro k k' hk hk'
      simp at hk'
      omega
  | cons n ns ih =>
      intro k k' hk hk'
      rw [List.prod_cons] at hk'
      have hP : 0 < ns.prod := by
        rcases Nat.eq_zero_or_pos ns.prod with h0 | hpos
        · rw [h0] at hk'; omega
        · exact hpos
      have hd' : k' / ns.prod < n := Nat.div_lt_of_lt_mul (by rw [Nat.mul_comm]; exact hk')
      have hle : k / ns.prod ≤ k' / ns.prod := Nat.div_le_div_right (Nat.le_of_lt hk)
      have hd : k / ns.prod < n := by omega
      show List.Lex (· < ·) (k / ns.prod % n :: rowMajor k ns) (k' / ns.prod % n :: rowMajor k' ns)
      rw [Nat.mod_eq_of_lt hd, Nat.mod_eq_of_lt hd']
      rcases Nat.lt_or_eq_of_le hle with hlt | heq
      · exact List.Lex.rel hlt
      · rw [heq, ← rowMajor_mod ns k, ← rowMajor_mod ns k']
        refine List.Lex.cons (ih _ _ ?_ (Nat.mod_lt _ hP))
        have e1 := Nat.div_add_mod k ns.prod
        have e2 := Nat.div_add_mod k' ns.prod
        rw [heq] at e1
        omega

theorem reserves_state : ∀ (k : Nat) (e : CPUKernelEvent),
    e.p_current_wg ≤ e.p_num_wg →
    (reserves k e).p_current_wg = min (e.p_current_wg + k) e.p_num_wg ∧
      (reserves k e).p_num_wg = e.p_num_wg ∧ (reserves k e).num_groups = e.num_groups := by
  intro k
  induction k with
  | zero =>
      intro e he
      exact ⟨by simp [reserves, Nat.min_eq_left he], rfl, rfl⟩
  | succ k ih =>
      intro e he
      show (reserves k e.reserve.2).p_current_wg = _ ∧ (reserves k e.reserve.2).p_num_wg = _ ∧
        (reserves k e.reserve.2).num_groups = _
      by_cases hfull : e.p_current_wg = e.p_num_wg
      · have hr : e.reserve.2 = e := by simp [CPUKernelEvent.reserve, hfull]
        rw [hr]
        obtain ⟨h1, h2, h3⟩ := ih e he
        refine ⟨?_, h2, h3⟩
        rw [h1]
        omega
      · have hr : e.reserve.2 = { e with p_current_wg := e.p_current_wg + 1 } := by
          simp [CPUKernelEvent.reserve, hfull]
        rw [hr]
        obtain ⟨h1, h2, h3⟩ := ih { e with p_current_wg := e.p_current_wg + 1 }
          (by show e.p_current_wg + 1 ≤ e.p_num_wg; omega)
        refine ⟨?_, h2, h3⟩
        rw [h1]
        show min (e.p_current_wg + 1 + k) e.p_num_wg = min (e.p_current_wg + (k + 1)) e.p_num_wg
        congr 1
        omega

/-- C12: in a launch of `num_wg = Π num_groups[d]` work-groups, the `k`-th
`reserve()` (`k` counted from 0, `k < num_wg`) hands out the row-major
decomposition of `k` over `num_groups[]`, an index vector of the launch whose
row-major number is `k` (so no vector is handed out twice); a later
`reserve()` hands out a lexicographically greater vector; every index vector
`v` of the launch is handed out, by the `reserve()` numbered by the row-major
number of `v`; and every `reserve()` from the `num_wg`-th on reports no
work. -/
theorem reserve_row_major (num_groups : List Nat) :
    (∀ k, k < num_groups.prod →
        (reserves k (CPUKernelEvent.init num_groups)).reserve.1
          = some (rowMajor k num_groups, decide (k + 1 = num_groups.prod)) ∧
        InRange (rowMajor k num_groups) num_groups ∧
        linearIndex (rowMajor k num_groups) num_groups = k) ∧
    (∀ k k', k < k' → k' < num_groups.prod →
        List.Lex (· < ·) (rowMajor k num_groups) (rowMajor k' num_groups)) ∧
    (∀ v, InRange v num_groups →
        linearIndex v num_groups < num_groups.prod ∧
        rowMajor (linearIndex v num_groups) num_groups = v) ∧
    (∀ k, num_groups.prod ≤ k →
        (reserves k (CPUKernelEvent.init num_groups)).reserve.1 = none) := by
  have hst : ∀ k, (reserves k (CPUKernelEvent.init num_groups)).p_current_wg
        = min k num_groups.prod ∧
      (reserves k (CPUKernelEvent.init num_groups)).p_num_wg = num_groups.prod ∧
      (reserves k (CPUKernelEvent.init num_groups)).num_groups = num_groups := by
    intro k
    have h := reserves_state k (CPUKernelEvent.init num_groups) (Nat.zero_le _)
    simpa [CPUKernelEvent.init] using h
  refine ⟨?_, rowMajor_lex num_groups, linearIndex_lt num_groups, ?_⟩
  · intro k hk
    obtain ⟨h1, h2, h3⟩ := hst k
    rw [Nat.min_eq_left (Nat.le_of_lt hk)] at h1
    refine ⟨?_, inRange_rowMajor num_groups k (pos_of_lt_prod num_groups k hk), ?_⟩
    · have hne : ¬ k = num_groups.prod := by omega
      simp [CPUKernelEvent.reserve, h1, h2, h3, hne]
    · rw [linearIndex_rowMajor_mod, Nat.mod_eq_of_lt hk]
  · intro k hk
    obtain ⟨h1, h2, _⟩ := hst k
    rw [Nat.min_eq_right hk] at h1
    simp [CPUKernelEvent.reserve, h1, h2]

/-- Witness of C12 on a launch of 2 x 3 work-groups: the reserve numbered 4
hands out the index vector (1, 1), and the seventh reports no work. -/
theorem reserve_row_major_witness :
    (4 < [2, 3].prod ∧ [2, 3].prod ≤ 6) ∧
      (reserves 4 (CPUKernelEvent.init [2, 3])).reserve.1
          = some (rowMajor 4 [2, 3], decide (4 + 1 = [2, 3].prod)) ∧
      rowMajor 4 [2, 3] = [1, 1] ∧
      (reserves 6 (CPUKernelEvent.init [2, 3])).reserve.1 = none :=
  ⟨by decide, ((reserve_row_major [2, 3]).1 4 (by decide)).1, by decide,
   (reserve_row_major [2, 3]).2.2.2 6 (by decide)⟩

theorem schedStep_invariant (e : CPUKernelEvent) (c : SchedCall)
    (hf : e.p_finished_wg ≤ e.p_current_wg) (hc : e.p_current_wg ≤ e.p_num_wg)
    (hadm : c = SchedCall.workGroupFinished → e.p_finished_wg < e.p_current_wg) :
    (schedStep e c).p_finished_wg ≤ (schedStep e c).p_current_wg ∧
      (schedStep e c).p_current_wg ≤ (schedStep e c).p_num_wg ∧
      (schedStep e c).p_num_wg = e.p_num_wg := by
  cases c with
  | reserve =>
      by_cases hfull : e.p_current_wg = e.p_num_wg
      · have hr : schedStep e SchedCall.reserve = e := by
          simp [schedStep, CPUKernelEvent.reserve, hfull]
        rw [hr]
        exact ⟨hf, hc, rfl⟩
      · have hr : schedStep e SchedCall.reserve
            = { e with p_current_wg := e.p_current_wg + 1 } := by
          simp [schedStep, CPUKernelEvent.reserve, hfull]
        rw [hr]
        refine ⟨?_, ?_, rfl⟩
        · show e.p_finished_wg ≤ e.p_current_wg + 1
          omega
        · show e.p_current_wg + 1 ≤ e.p_num_wg
          omega
  | takeInstance => exact ⟨hf, hc, rfl⟩
  | workGroupFinished =>
      have := hadm rfl
      refine ⟨?_, hc, rfl⟩
      show e.p_finished_wg + 1 ≤ e.p_current_wg
      omega

theorem schedRun_invariant (cs : List SchedCall) : ∀ e : CPUKernelEvent,
    e.p_finished_wg ≤ e.p_current_wg → e.p_current_wg ≤ e.p_num_wg → Admissible e cs →
    (schedRun e cs).p_finished_wg ≤ (schedRun e cs).p_current_wg ∧
      (schedRun e cs).p_current_wg ≤ (schedRun e cs).p_num_wg ∧
      (schedRun e cs).p_num_wg = e.p_num_wg := by
  induction cs with
  | nil =>
      intro e hf hc _
      exact ⟨hf, hc, rfl⟩
  | cons c cs ih =>
      intro e hf hc hadm
      obtain ⟨h1, h2, h3⟩ := schedStep_invariant e c hf hc hadm.1
      obtain ⟨g1, g2, g3⟩ := ih (schedStep e c) h1 h2 hadm.2
      exact ⟨g1, g2, g3.trans h3⟩

/-- C13: every state of the launch reached from the initial one through
`reserve()`, `takeInstance()` and `workGroupFinished()`, each
`workGroupFinished()` following a work-group handed out and not yet finished,
satisfies `finished_wg <= current_wg <= num_wg`, with `num_wg` the number of
work-groups of the launch; and `finished()` holds exactly when
`finished_wg == num_wg`. -/
theorem sched_counters_invariant (num_groups : List Nat) (cs : List SchedCall)
    (hadm : Admissible (CPUKernelEvent.init num_groups) cs) :
    (schedRun (CPUKernelEvent.init num_groups) cs).p_finished_wg
        ≤ (schedRun (CPUKernelEvent.init num_groups) cs).p_current_wg ∧
      (schedRun (CPUKernelEvent.init num_groups) cs).p_current_wg
        ≤ (schedRun (CPUKernelEvent.init num_groups) cs).p_num_wg ∧
      (schedRun (CPUKernelEvent.init num_groups) cs).p_num_wg = num_groups.prod ∧
      ((schedRun (CPUKernelEvent.init num_groups) cs).finished = true ↔
        (schedRun (CPUKernelEvent.init num_groups) cs).p_finished_wg
          = (schedRun (CPUKernelEvent.init num_groups) cs).p_num_wg) := by
  obtain ⟨h1, h2, h3⟩ := schedRun_invariant cs (CPUKernelEvent.init num_groups)
    (Nat.le_refl _) (Nat.zero_le _) hadm
  refine ⟨h1, h2, h3, ?_⟩
  simp [CPUKernelEvent.finished]

/-- Witness of C13 on a launch of 2 work-groups run to completion by two
workers. -/
theorem sched_counters_invariant_witness :
    Admissible (CPUKernelEvent.init [2])
        [SchedCall.reserve, SchedCall.takeInstance, SchedCall.reserve,
         SchedCall.workGroupFinished, SchedCall.takeInstance,
         SchedCall.workGroupFinished, SchedCall.reserve] ∧
      (schedRun (CPUKernelEvent.init [2])
        [SchedCall.reserve, SchedCall.takeInstance, SchedCall.reserve,
         SchedCall.workGroupFinished, SchedCall.takeInstance,
         SchedCall.workGroupFinished, SchedCall.reserve]).finished = true ∧
      (schedRun (CPUKernelEvent.init [2])
        [SchedCall.reserve, SchedCall.takeInstance, SchedCall.reserve,
         SchedCall.workGroupFinished, SchedCall.takeInstance,
         SchedCall.workGroupFinished, SchedCall.reserve]).p_current_wg = 2 :=
  have hadm : Admissible (CPUKernelEvent.init [2])
      [SchedCall.reserve, SchedCall.takeInstance, SchedCall.reserve,
       SchedCall.workGroupFinished, SchedCall.takeInstance,
       SchedCall.workGroupFinished, SchedCall.reserve] := by
    simp [Admissible, schedStep, CPUKernelEvent.init, CPUKernelEvent.reserve,
      CPUKernelEvent.takeInstance, CPUKernelEvent.workGroupFinished]
  ⟨hadm,
   (sched_counters_invariant [2] _ hadm).2.2.2.2
     (by simp [schedRun, schedStep, CPUKernelEvent.init, CPUKernelEvent.reserve,
        CPUKernelEvent.takeInstance, CPUKernelEvent.workGroupFinished]),
   by simp [schedRun, schedStep, CPUKernelEvent.init, CPUKernelEvent.reserve,
        CPUKernelEvent.takeInstance, CPUKernelEvent.workGroupFinished]⟩

/-! ## Theorems: the layout of the context pool -/

theorem initNextContext_stack (C : Nat) (h : Host) (wg : CPUKernelWorkGroup) (th : Thread)
    (next main : Nat) (hctx : h.getcontext_next = 0) :
    ((initNextContext C h wg th next main).1.mem next).context.ss_sp = next + C ∧
      ((initNextContext C h wg th next main).1.mem next).context.ss_size = wg.p_stack_size ∧
      ((initNextContext C h wg th next main).1.mem next).context.uc_link = main := by
  unfold initNextContext
  simp [hctx, store]

theorem allocateStacks_first (C : Nat) (h : Host) (wg : CPUKernelWorkGroup) (th : Thread)
    (hnew : th.work_items_data = 0) :
    (allocateStacks C h wg th).2.trace = th.trace ++
      [HostCall.mmap (wg.p_num_work_items * (wg.p_stack_size + C) % SIZE_T) h.mmap_ret] := by
  unfold allocateStacks getWorkItemsData setWorkItemsData
  simp [hnew]

theorem slot_succ_le (C : Nat) (wg : CPUKernelWorkGroup) (i j : Nat) (hij : i < j) :
    getContextAddr C wg i + (C + wg.p_stack_size) ≤ getContextAddr C wg j := by
  unfold getContextAddr
  have h1 : (i + 1) * (C + wg.p_stack_size) ≤ j * (C + wg.p_stack_size) :=
    Nat.mul_le_mul_right _ hij
  rw [Nat.add_mul, Nat.one_mul] at h1
  omega

/-- C14: with `C = sizeof(Context)`, `S` the stack size and `N` the number of
work-items, when `N * (S + C)` fits in a `size_t` the first allocation of
`barrier` asks `mmap` for `N * (S + C)` bytes; for `i < N` and `j ≠ i`, the
slot `slot(i) = base + i * (C + S)` of length `C + S` lies inside these bytes
and is disjoint from slot `j`; the stack `barrier` gives slot `i` starts at
`slot(i) + C` and has `S` bytes, so it lies inside slot `i` and overlaps
neither the header nor the stack of slot `j`. -/
theorem slots_layout (C : Nat) (h : Host) (wg : CPUKernelWorkGroup) (th : Thread) (i j : Nat)
    (hi : i < wg.p_num_work_items) (hij : i ≠ j)
    (hfit : wg.p_num_work_items * (wg.p_stack_size + C) < SIZE_T)
    (hnew : th.work_items_data = 0) (hctx : h.getcontext_next = 0) :
    (allocateStacks C h wg th).2.trace = th.trace ++
        [HostCall.mmap (wg.p_num_work_items * (wg.p_stack_size + C)) h.mmap_ret] ∧
      wg.p_contexts ≤ getContextAddr C wg i ∧
      getContextAddr C wg i + (C + wg.p_stack_size)
        ≤ wg.p_contexts + wg.p_num_work_items * (wg.p_stack_size + C) ∧
      (getContextAddr C wg i + (C + wg.p_stack_size) ≤ getContextAddr C wg j ∨
        getContextAddr C wg j + (C + wg.p_stack_size) ≤ getContextAddr C wg i) ∧
      ((initNextContext C h wg th (getContextAddr C wg i) (getContextAddr C wg 0)).1.mem
          (getContextAddr C wg i)).context.ss_sp = getContextAddr C wg i + C ∧
      ((initNextContext C h wg th (getContextAddr C wg i) (getContextAddr C wg 0)).1.mem
          (getContextAddr C wg i)).context.ss_size = wg.p_stack_size ∧
      getContextAddr C wg i ≤ getContextAddr C wg i + C ∧
      getContextAddr C wg i + C + wg.p_stack_size
        ≤ getContextAddr C wg i + (C + wg.p_stack_size) ∧
      (getContextAddr C wg i + C + wg.p_stack_size ≤ getContextAddr C wg j ∨
        getContextAddr C wg j + (C + wg.p_stack_size) ≤ getContextAddr C wg i + C) := by
  have hreq := allocateStacks_first C h wg th hnew
  rw [Nat.mod_eq_of_lt hfit] at hreq
  obtain ⟨hsp, hss, _⟩ := initNextContext_stack C h wg th (getContextAddr C wg i)
    (getContextAddr C wg 0) hctx
  have hend : getContextAddr C wg i + (C + wg.p_stack_size)
      ≤ wg.p_contexts + wg.p_num_work_items * (wg.p_stack_size + C) := by
    unfold getContextAddr
    have h1 : (i + 1) * (C + wg.p_stack_size) ≤ wg.p_num_work_items * (C + wg.p_stack_size) :=
      Nat.mul_le_mul_right _ hi
    rw [Nat.add_mul, Nat.one_mul] at h1
    rw [Nat.add_comm wg.p_stack_size C]
    omega
  have hdis : getContextAddr C wg i + (C + wg.p_stack_size) ≤ getContextAddr C wg j ∨
      getContextAddr C wg j + (C + wg.p_stack_size) ≤ getContextAddr C wg i := by
    rcases Nat.lt_or_gt_of_ne hij with hlt | hgt
    · exact Or.inl (slot_succ_le C wg i j hlt)
    · exact Or.inr (slot_succ_le C wg j i hgt)
  refine ⟨hreq, ?_, hend, hdis, hsp, hss, Nat.le_add_right _ _, ?_, ?_⟩
  · unfold getContextAddr
    exact Nat.le_add_right _ _
  · omega
  · rcases hdis with h1 | h1
    · exact Or.inl (by omega)
    · exact Or.inr (by omega)

/-- Witness of C14 for slots 1 and 2 of a pool of 4 slots at 65536. -/
theorem slots_layout_witness :
    (1 < wgAttached.p_num_work_items ∧ 1 ≠ 2 ∧
      wgAttached.p_num_work_items * (wgAttached.p_stack_size + sizeofContextExample) < SIZE_T ∧
      threadFresh.work_items_data = 0 ∧ hostA.getcontext_next = 0) ∧
    getContextAddr sizeofContextExample wgAttached 1 = 74704 ∧
    getContextAddr sizeofContextExample wgAttached 1 + (sizeofContextExample + 8192)
      ≤ getContextAddr sizeofContextExample wgAttached 2 ∧
    ((initNextContext sizeofContextExample hostA wgAttached threadFresh
        (getContextAddr sizeofContextExample wgAttached 1)
        (getContextAddr sizeofContextExample wgAttached 0)).1.mem
          (getContextAddr sizeofContextExample wgAttached 1)).context.ss_sp = 75680 :=
  ⟨by decide, by decide, by decide,
   (slots_layout sizeofContextExample hostA wgAttached threadFresh 1 2 (by decide)
      (by decide) (by decide) (by decide) (by decide)).2.2.2.2.1⟩

/-! ## Theorems: kernel arguments -/

/-- C15, at a null `value` for a `__global` buffer, an `image2d` and an
`image3d` argument with `size = sizeof(cl_mem)`: `setArg` returns
`CL_INVALID_ARG_VALUE` and leaves the kernel as it was (no value stored, the
argument not marked defined). -/
theorem setArg_null_value_rejected :
    Kernel.setArg fileExample kernelExample 0 sizeof_cl_mem none
        = some (CL_INVALID_ARG_VALUE, kernelExample) ∧
      Kernel.setArg fileExample kernelImages 0 sizeof_cl_mem none
        = some (CL_INVALID_ARG_VALUE, kernelImages) ∧
      Kernel.setArg fileExample kernelImages 1 sizeof_cl_mem none
        = some (CL_INVALID_ARG_VALUE, kernelImages) ∧
      (kernelExample.p_args[0]?.map fun a => a.p_defined) = some false := by
  decide

theorem setArg_null_value_never_succeeds (F : ArgFile) (k : Kernel) (index size : Nat)
    (arg : Arg) (harg : k.p_args[index]? = some arg) (hfile : arg.p_file ≠ F.Local) :
    Kernel.setArg F k index size none = some (CL_INVALID_ARG_SIZE, k) ∨
      Kernel.setArg F k index size none = some (CL_INVALID_ARG_VALUE, k) := by
  have hidx : ¬ index > k.p_args.length := by
    have := (List.getElem?_eq_some.mp harg).1
    omega
  by_cases hsize : size = arg.valueSize
  · right
    simp [Kernel.setArg, hidx, harg, hfile, hsize]
  · left
    simp [Kernel.setArg, hidx, harg, hfile, hsize]

/-- C16, at a `float4` argument (`vec_dim = 4`, 4-byte elements): `setArg`
with the byte size 16 of the type returns `CL_INVALID_ARG_SIZE`; with size 4
it succeeds and stores 16 bytes read from `value`. -/
theorem setArg_vector_size_mismatch :
    Kernel.setArg fileExample kernelExample 1 16 (some fun i => i + 1)
        = some (CL_INVALID_ARG_SIZE, kernelExample) ∧
      (Kernel.setArg fileExample kernelExample 1 4 (some fun i => i + 1)).map Prod.fst
        = some CL_SUCCESS ∧
      ((Kernel.setArg fileExample kernelExample 1 4 (some fun i => i + 1)).bind fun r =>
          (r.2.p_args[1]?).bind fun a => a.p_data)
        = some [1, 2, 3, 4, 5, 6, 7, 8, 9, 10, 11, 12, 13, 14, 15, 16] := by
  decide

/-- C17: for a `__local` argument at a valid index, `setArg` returns
`CL_INVALID_ARG_SIZE` when `size == 0`; otherwise `CL_INVALID_ARG_VALUE` when
`value` is not null; otherwise `CL_SUCCESS`, the argument then having
`size` as its run-time allocation size and being defined, the other
arguments being untouched.  On the two errors the kernel is unchanged. -/
theorem setArg_local (F : ArgFile) (k : Kernel) (index size : Nat) (value : Option (Nat → Nat))
    (arg : Arg) (harg : k.p_args[index]? = some arg) (hfile : arg.p_file = F.Local) :
    (size = 0 → Kernel.setArg F k index size value = some (CL_INVALID_ARG_SIZE, k)) ∧
    (size ≠ 0 → value.isSome = true →
      Kernel.setArg F k index size value = some (CL_INVALID_ARG_VALUE, k)) ∧
    (size ≠ 0 → value.isSome = false →
      Kernel.setArg F k index size value = some (CL_SUCCESS,
        { k with p_args :=
            k.p_args.set index ({ arg with p_runtime_alloc := size, p_defined := true }) }) ∧
      ((k.p_args.set index ({ arg with p_runtime_alloc := size, p_defined := true }))[index]?
        ).map (fun a => (a.p_runtime_alloc, a.p_defined)) = some (size, true)) := by
  have hlt : index < k.p_args.length := (List.getElem?_eq_some.mp harg).1
  have hidx : ¬ index > k.p_args.length := by omega
  refine ⟨?_, ?_, ?_⟩
  · intro h0
    simp [Kernel.setArg, hidx, harg, hfile, h0]
  · intro h0 hv
    simp [Kernel.setArg, hidx, harg, hfile, h0, hv]
  · intro h0 hv
    refine ⟨?_, ?_⟩
    · simp [Kernel.setArg, hidx, harg, hfile, h0, hv, Arg.setAllocAtKernelRuntime]
    · simp [List.getElem?_set, hlt]

/-- Witness of C17 on the `__local` argument of `kernelExample`, given 64
bytes. -/
theorem setArg_local_witness :
    (kernelExample.p_args[2]? = some (Arg.new 1 2 Kind.Buffer) ∧
      (Arg.new 1 2 Kind.Buffer).p_file = fileExample.Local ∧ (64 : Nat) ≠ 0 ∧
      (none : Option (Nat → Nat)).isSome = false) ∧
    Kernel.setArg fileExample kernelExample 2 64 none = some (CL_SUCCESS,
        { kernelExample with
          p_args := kernelExample.p_args.set 2 ((Arg.new 1 2 Kind.Buffer).setAllocAtKernelRuntime 64) }) :=
  ⟨by decide,
   ((setArg_local fileExample kernelExample 2 64 none (Arg.new 1 2 Kind.Buffer) (by decide)
      (by decide)).2.2 (by decide) (by decide)).1⟩

/-! ## Theorems: `addFunction` -/

/-- C20, on a kernel whose registered function has no parameter: a later
`addFunction` with a function of one `int` parameter, which differs from the
(empty) argument list in its number of parameters, returns `CL_SUCCESS`,
appends the argument and adds a device-dependent entry. -/
theorem addFunction_after_no_args :
    kernelNoArgs.p_device_dependent ≠ [] ∧
      functionOneInt.params.length ≠ kernelNoArgs.p_args.length ∧
      Kernel.addFunction fileExample kernelNoArgs 2 functionOneInt 201 301 =
        some (CL_SUCCESS,
          { kernelNoArgs with
            p_args := [Arg.new 1 0 Kind.Int32],
            p_device_dependent := kernelNoArgs.p_device_dependent ++
              [{ device := 2, function := 102, module := 201, kernel := 301 }] }) := by
  decide

theorem drop_eq_cons_getElem {l : List Arg} {i : Nat} {b : Arg} {rest : List Arg}
    (h : l.drop i = b :: rest) : l[i]? = some b ∧ l.drop (i + 1) = rest := by
  refine ⟨?_, ?_⟩
  · have h0 : (l.drop i)[0]? = some b := by rw [h]; simp
    rw [List.getElem?_drop] at h0
    simpa using h0
  · have h1 : (l.drop i).drop 1 = rest := by rw [h]; rfl
    rw [List.drop_drop] at h1
    simpa [Nat.add_comm] using h1

theorem addFunctionLoop_same (F : ArgFile) (params : List LlvmType) :
    ∀ (i : Nat) (k : Kernel),
      (∀ ty ∈ params, (argOfType F ty).p_kind ≠ Kind.Invalid) →
      List.Forall₂ (fun ty b => (argOfType F ty).ne b = false) params (k.p_args.drop i) →
      ∃ k', addFunctionLoop F false params i k = LoopResult.completed k' ∧
        k'.p_args = k.p_args ∧ k'.p_device_dependent = k.p_device_dependent := by
  induction params with
  | nil =>
      intro i k _ _
      exact ⟨k, rfl, rfl, rfl⟩
  | cons ty rest ih =>
      intro i k hvalid hsame
      cases hdrop : k.p_args.drop i with
      | nil => rw [hdrop] at hsame; cases hsame
      | cons b bs =>
          rw [hdrop] at hsame
          obtain ⟨hb, hbs⟩ := drop_eq_cons_getElem hdrop
          cases hsame with
          | cons hne hrest =>
              have hk : (argOfType F ty).p_kind ≠ Kind.Invalid :=
                hvalid ty (List.mem_cons_self ty rest)
              have hv' : ∀ t ∈ rest, (argOfType F t).p_kind ≠ Kind.Invalid :=
                fun t ht => hvalid t (List.mem_cons_of_mem ty ht)
              by_cases hl : isLocalPointer F ty = true
              · obtain ⟨k', h1, h2, h3⟩ := ih (i + 1) { k with p_local_args := true } hv'
                  (by show List.Forall₂ _ rest (k.p_args.drop (i + 1)); rw [hbs]; exact hrest)
                refine ⟨k', ?_, h2, h3⟩
                simp [addFunctionLoop, hl, hk, hb, hne, h1]
              · obtain ⟨k', h1, h2, h3⟩ := ih (i + 1) k hv'
                  (by rw [hbs]; exact hrest)
                refine ⟨k', ?_, h2, h3⟩
                simp [addFunctionLoop, hl, hk, hb, hne, h1]

theorem addFunctionLoop_differs (F : ArgFile) (params : List LlvmType) :
    ∀ (i : Nat) (k : Kernel),
      params.length = (k.p_args.drop i).length →
      ¬ ((∀ ty ∈ params, (argOfType F ty).p_kind ≠ Kind.Invalid) ∧
        List.Forall₂ (fun ty b => (argOfType F ty).ne b = false) params (k.p_args.drop i)) →
      ∃ k', addFunctionLoop F false params i k
          = LoopResult.returned CL_INVALID_KERNEL_DEFINITION k' ∧
        k'.p_args = k.p_args ∧ k'.p_device_dependent = k.p_device_dependent := by
  induction params with
  | nil =>
      intro i k hlen hnot
      exfalso
      apply hnot
      have : k.p_args.drop i = [] := List.length_eq_zero.mp hlen.symm
      rw [this]
      exact ⟨fun _ h => absurd h (List.not_mem_nil _), List.Forall₂.nil⟩
  | cons ty rest ih =>
      intro i k hlen hnot
      cases hdrop : k.p_args.drop i with
      | nil => rw [hdrop] at hlen; simp at hlen
      | cons b bs =>
          rw [hdrop] at hlen hnot
          obtain ⟨hb, hbs⟩ := drop_eq_cons_getElem hdrop
          have hlen' : rest.length = bs.length := by simpa using hlen
          by_cases hk : (argOfType F ty).p_kind = Kind.Invalid
          · by_cases hl : isLocalPointer F ty = true
            · exact ⟨{ k with p_local_args := true }, by simp [addFunctionLoop, hl, hk], rfl, rfl⟩
            · exact ⟨k, by simp [addFunctionLoop, hl, hk], rfl, rfl⟩
          · by_cases hne : (argOfType F ty).ne b = true
            · by_cases hl : isLocalPointer F ty = true
              · exact ⟨{ k with p_local_args := true },
                  by simp [addFunctionLoop, hl, hk, hb, hne], rfl, rfl⟩
              · exact ⟨k, by simp [addFunctionLoop, hl, hk, hb, hne], rfl, rfl⟩
            · have hne' : (argOfType F ty).ne b = false := by simpa using hne
              have hnot' : ¬ ((∀ t ∈ rest, (argOfType F t).p_kind ≠ Kind.Invalid) ∧
                  List.Forall₂ (fun t c => (argOfType F t).ne c = false) rest bs) := by
                intro hh
                apply hnot
                refine ⟨?_, List.Forall₂.cons hne' hh.2⟩
                intro t ht
                rcases List.mem_cons.mp ht with h1 | h1
                · rw [h1]; exact hk
                · exact hh.1 t h1
              by_cases hl : isLocalPointer F ty = true
              · obtain ⟨k', h1, h2, h3⟩ := ih (i + 1) { k with p_local_args := true }
                  (by show rest.length = (k.p_args.drop (i + 1)).length; rw [hbs]; exact hlen')
                  (by show ¬ (_ ∧ List.Forall₂ _ rest (k.p_args.drop (i + 1))); rw [hbs]
                      exact hnot')
                refine ⟨k', ?_, h2, h3⟩
                simp [addFunctionLoop, hl, hk, hb, hne', h1]
              · obtain ⟨k', h1, h2, h3⟩ := ih (i + 1) k
                  (by rw [hbs]; exact hlen') (by rw [hbs]; exact hnot')
                refine ⟨k', ?_, h2, h3⟩
                simp [addFunctionLoop, hl, hk, hb, hne', h1]

theorem addFunction_verifies (F : ArgFile) (k : Kernel) (device : Nat)
    (function : LlvmFunction) (module dk : Nat) (hne : k.p_args ≠ []) :
    (((∀ ty ∈ function.params, (argOfType F ty).p_kind ≠ Kind.Invalid) ∧
        List.Forall₂ (fun ty b => (argOfType F ty).ne b = false) function.params k.p_args) →
      ∃ k', Kernel.addFunction F k device function module dk = some (CL_SUCCESS, k') ∧
        k'.p_args = k.p_args ∧
        k'.p_device_dependent = k.p_device_dependent ++
          [{ device := device, function := function.addr, module := module, kernel := dk }]) ∧
    (¬ ((∀ ty ∈ function.params, (argOfType F ty).p_kind ≠ Kind.Invalid) ∧
        List.Forall₂ (fun ty b => (argOfType F ty).ne b = false) function.params k.p_args) →
      ∃ k', Kernel.addFunction F k device function module dk
          = some (CL_INVALID_KERNEL_DEFINITION, k') ∧
        k'.p_args = k.p_args ∧ k'.p_device_dependent = k.p_device_dependent) := by
  have hlen0 : ¬ k.p_args.length = 0 := fun h => hne (List.length_eq_zero.mp h)
  refine ⟨?_, ?_⟩
  · intro hsame
    have hlen : k.p_args.length = function.params.length := (List.Forall₂.length_eq hsame.2).symm
    obtain ⟨k', h1, h2, h3⟩ := addFunctionLoop_same F function.params 0
      { k with p_name := function.name } hsame.1 (by simpa using hsame.2)
    refine ⟨{ k' with p_device_dependent := k'.p_device_dependent ++
        [{ device := device, function := function.addr, module := module, kernel := dk }] },
      ?_, h2, ?_⟩
    · have hlenp : (function.params.length == 0) = false := by
        rw [beq_eq_false_iff_ne]; omega
      simp [Kernel.addFunction, hlen, hlenp, h1]
    · show k'.p_device_dependent ++ _ = _
      rw [h3]
  · intro hnot
    by_cases hlen : k.p_args.length = function.params.length
    · obtain ⟨k', h1, h2, h3⟩ := addFunctionLoop_differs F function.params 0
        { k with p_name := function.name } (by simpa using hlen.symm) (by simpa using hnot)
      have hlenp : (function.params.length == 0) = false := by
        rw [beq_eq_false_iff_ne]; omega
      exact ⟨k', by simp [Kernel.addFunction, hlen, hlenp, h1], h2, h3⟩
    · exact ⟨{ k with p_name := function.name },
        by simp [Kernel.addFunction, hlen0, hlen], rfl, rfl⟩

/-! ## Theorems: the `RWBufferEvent` constructor -/

theorem RWBufferEvent_new_returns_early (parent : CommandQueue) (buf : MemObject)
    (offset cb ptr errcode_ret : Nat) (hret : errcode_ret ≠ 0) :
    RWBufferEvent.new parent (some buf) offset cb ptr errcode_ret
      = some { errcode := parent.context_status, steps := [RWStep.queueContext] } := by
  have hcast : (errcode_ret : Int) ≠ CL_SUCCESS := by
    unfold CL_SUCCESS
    exact_mod_cast hret
  simp [RWBufferEvent.new, storeErrcode, hret, hcast]

theorem alignMask_odd (align : Nat) (hpos : 0 < align) : alignMask align % 2 = 1 := by
  cases align with
  | zero => omega
  | succ i =>
      unfold alignMask
      rw [Nat.mod_mod_of_dvd _ (by unfold SIZE_T; exact Dvd.intro (2 ^ 63) rfl)]
      rw [Nat.or_mod_two_eq_one]
      left
      rfl

theorem misaligned_always (offset align : Nat) (hpos : 0 < align) :
    misaligned offset align = true := by
  have hodd : (offset ||| alignMask align) % 2 = 1 := by
    rw [Nat.or_mod_two_eq_one]
    right
    exact alignMask_odd align hpos
  unfold misaligned
  rw [bne_iff_ne]
  intro h0
  rw [h0] at hodd
  omega

/-- C18, at a 16-byte buffer of the queue's context, a non-null `ptr`,
`offset = 8` and `cb = 16` (so `offset + cb > size`), with a non-null
`errcode_ret` and a queue whose context query succeeds: the constructor
returns after that query with `*errcode_ret = CL_SUCCESS`, the bounds check
not executed; with a null `ptr` it does the same. -/
theorem rwBufferEvent_out_of_bounds_unreported :
    8 + 16 > bufferExample.size ∧ bufferExample.context = queueExample.context ∧
      RWBufferEvent.new queueExample (some bufferExample) 8 16 4096 8192
        = some { errcode := CL_SUCCESS, steps := [RWStep.queueContext] } ∧
      RWBufferEvent.new queueExample (some bufferExample) 0 8 0 8192
        = some { errcode := CL_SUCCESS, steps := [RWStep.queueContext] } ∧
      CL_SUCCESS ≠ CL_INVALID_VALUE := by
  decide

/-- C19: the mask is `2^align - 1` (127 for `align = 7`), but the test of
line 76 is `offset | mask`, which holds for the aligned offsets 0 and 128
too (`offset & mask` is 0 there); and with a non-null `errcode_ret` the
constructor returns before the alignment check, so the sub-buffer at the
misaligned offset 3 is not reported. -/
theorem subBuffer_alignment_check_wrong :
    alignMask 7 = 2 ^ 7 - 1 ∧
      0 &&& alignMask 7 = 0 ∧ misaligned 0 7 = true ∧
      128 &&& alignMask 7 = 0 ∧ misaligned 128 7 = true ∧
      subBufferExample.offset &&& alignMask queueExample.align ≠ 0 ∧
      RWBufferEvent.new queueExample (some subBufferExample) 0 8 4096 8192
        = some { errcode := CL_SUCCESS, steps := [RWStep.queueContext] } := by
  decide

/-! ## Theorems: what the guards of the source do -/

/-- C25: the seven getters take their identity branch exactly for
`d > work_dim`.  For every `d <= work_dim`, `d = work_dim` included, each of
them reads element `d` of its per-dimension data, `getGlobalId(d)` being
`global_id_start_offset[d] + local_id[d]`; and in a well-formed work-group
with `work_dim = MAX_WORK_DIMS` the element read for `d = work_dim` lies one
past the end of each array (no value is defined there). -/
theorem getters_guard_off_by_one (wg : CPUKernelWorkGroup) (mem : Nat → Context) (d : Nat) :
    (d > wg.p_work_dim →
      getGlobalSize wg d = some 1 ∧ getLocalSize wg d = some 1 ∧ getNumGroups wg d = some 1 ∧
      getGlobalOffset wg d = some 0 ∧ getGroupID wg d = some 0 ∧
      getLocalID wg mem d = some 0 ∧ getGlobalId wg mem d = some 0) ∧
    (d ≤ wg.p_work_dim →
      getGlobalSize wg d = wg.p_event.p_global_work_size[d]? ∧
      getLocalSize wg d = wg.p_event.p_local_work_size[d]? ∧
      getNumGroups wg d =
        (wg.p_event.p_global_work_size[d]?.bind fun g =>
          wg.p_event.p_local_work_size[d]?.bind fun l =>
            if l = 0 then none else some (g / l)) ∧
      getGlobalOffset wg d = wg.p_event.p_global_work_offset[d]? ∧
      getGroupID wg d = wg.p_index[d]? ∧
      getLocalID wg mem d = (mem wg.p_current_context).local_id[d]? ∧
      getGlobalId wg mem d =
        (wg.p_global_id_start_offset[d]?.bind fun a =>
          (mem wg.p_current_context).local_id[d]?.bind fun b => some ((a + b) % SIZE_T))) ∧
    (WellFormed wg mem → wg.p_work_dim = MAX_WORK_DIMS → d = wg.p_work_dim →
      wg.p_event.p_global_work_size.length = d ∧
      getGlobalSize wg d = none ∧ getLocalSize wg d = none ∧ getNumGroups wg d = none ∧
      getGlobalOffset wg d = none ∧ getGroupID wg d = none ∧
      getLocalID wg mem d = none ∧ getGlobalId wg mem d = none) := by
  refine ⟨getters_above_work_dim wg mem d, ?_, ?_⟩
  · intro hd
    have hng : ¬ d > wg.p_work_dim := by omega
    refine ⟨?_, ?_, ?_, ?_, ?_, ?_, ?_⟩
    · simp [getGlobalSize, hng, KernelEvent.global_work_size]
    · simp [getLocalSize, hng, KernelEvent.local_work_size]
    · simp only [getNumGroups, hng, if_false, KernelEvent.global_work_size,
        KernelEvent.local_work_size]
      rfl
    · simp [getGlobalOffset, hng, KernelEvent.global_work_offset]
    · simp [getGroupID, hng]
    · simp [getLocalID, hng]
    · simp only [getGlobalId, hng, if_false]
      rfl
  · intro hwf hdim hd
    obtain ⟨_, h1, h2, h3, h4, h5, h6⟩ := hwf
    have hng : ¬ d > wg.p_work_dim := by omega
    have e1 : wg.p_event.p_global_work_size[d]? = none :=
      List.getElem?_eq_none (by omega)
    have e2 : wg.p_event.p_local_work_size[d]? = none := List.getElem?_eq_none (by omega)
    have e3 : wg.p_event.p_global_work_offset[d]? = none := List.getElem?_eq_none (by omega)
    have e4 : wg.p_index[d]? = none := List.getElem?_eq_none (by omega)
    have e5 : wg.p_global_id_start_offset[d]? = none := List.getElem?_eq_none (by omega)
    have e6 : (mem wg.p_current_context).local_id[d]? = none :=
      List.getElem?_eq_none (by omega)
    refine ⟨by omega, ?_, ?_, ?_, ?_, ?_, ?_, ?_⟩
    · simp [getGlobalSize, hng, KernelEvent.global_work_size, e1]
    · simp [getLocalSize, hng, KernelEvent.local_work_size, e2]
    · simp [getNumGroups, hng, KernelEvent.global_work_size, e1]
    · simp [getGlobalOffset, hng, KernelEvent.global_work_offset, e3]
    · simp [getGroupID, hng, e4]
    · simp [getLocalID, hng, e6]
    · simp [getGlobalId, hng, e5]

/-- Witness of C25 on a two-dimensional launch at `d = work_dim = 2`, where
the getters return what the arrays hold at index 2, and on a
three-dimensional launch at `d = 3`. -/
theorem getters_guard_off_by_one_witness :
    (2 ≤ wgExample2.p_work_dim ∧ WellFormed wgExample3 memExample ∧
      wgExample3.p_work_dim = MAX_WORK_DIMS ∧ 3 = wgExample3.p_work_dim) ∧
    getGlobalSize wgExample2 2 = wgExample2.p_event.p_global_work_size[2]? ∧
    wgExample2.p_event.p_global_work_size[2]? = some 6 ∧
    getGlobalId wgExample3 memExample 3 = none :=
  ⟨by decide, ((getters_guard_off_by_one wgExample2 memExample 2).2.1 (by decide)).1,
   by decide,
   ((getters_guard_off_by_one wgExample3 memExample 3).2.2 (by decide) (by decide)
      (by decide)).2.2.2.2.2.2.2⟩

/-- C26: the tests that follow the status-returning queries of the
`RWBufferEvent` constructor compare the pointer `errcode_ret` with
`CL_SUCCESS`.  So for every non-null buffer and non-null `errcode_ret`, and
whatever the queue, the offsets and `ptr` are, the constructor returns right
after the queue-context query: `*errcode_ret` is the status of that query and
none of the later checks or queries is executed. -/
theorem rwBufferEvent_pointer_test (parent : CommandQueue) (buf : MemObject)
    (offset cb ptr errcode_ret : Nat) (hret : errcode_ret ≠ 0) :
    ∃ r, RWBufferEvent.new parent (some buf) offset cb ptr errcode_ret = some r ∧
      r.errcode = parent.context_status ∧
      r.steps = [RWStep.queueContext] ∧
      RWStep.contextMatch ∉ r.steps ∧ RWStep.nullPtr ∉ r.steps ∧ RWStep.bounds ∉ r.steps ∧
      RWStep.queueDevice ∉ r.steps ∧ RWStep.deviceAlign ∉ r.steps ∧
      RWStep.alignment ∉ r.steps ∧ RWStep.allocate ∉ r.steps := by
  refine ⟨{ errcode := parent.context_status, steps := [RWStep.queueContext] },
    RWBufferEvent_new_returns_early parent buf offset cb ptr errcode_ret hret, rfl, rfl,
    ?_, ?_, ?_, ?_, ?_, ?_, ?_⟩ <;> simp

/-- Witness of C26 on a buffer of another context than the queue's, with a
null `ptr`: the constructor reports the `CL_SUCCESS` of the context query. -/
theorem rwBufferEvent_pointer_test_witness :
    (8192 : Nat) ≠ 0 ∧
    ∃ r, RWBufferEvent.new queueExample (some { bufferExample with context := 8 }) 0 64 0 8192
        = some r ∧
      r.errcode = queueExample.context_status ∧
      r.steps = [RWStep.queueContext] ∧
      RWStep.contextMatch ∉ r.steps ∧ RWStep.nullPtr ∉ r.steps ∧ RWStep.bounds ∉ r.steps ∧
      RWStep.queueDevice ∉ r.steps ∧ RWStep.deviceAlign ∉ r.steps ∧
      RWStep.alignment ∉ r.steps ∧ RWStep.allocate ∉ r.steps :=
  ⟨by decide,
   rwBufferEvent_pointer_test queueExample { bufferExample with context := 8 } 0 64 0 8192
     (by decide)⟩

/-! ## Theorems: dependent queues of a user event -/

theorem flushQueues_eq (qs : List Nat) : flushQueues qs = qs := by
  have h : ∀ (l acc : List Nat), l.foldl (fun calls q => calls ++ [q]) acc = acc ++ l := by
    intro l
    induction l with
    | nil => intro acc; simp
    | cons a l ih => intro acc; simp [ih]
  simpa [flushQueues] using h qs []

theorem addDependentCommandQueue_mem (qs : List Nat) (q : Nat) (hq : q ∈ qs) :
    addDependentCommandQueue qs q = qs := by
  have : qs.any (fun x => x == q) = true := by
    rw [List.any_eq_true]
    exact ⟨q, hq, by simp⟩
  simp [addDependentCommandQueue, this]

theorem addDependentCommandQueue_not_mem (qs : List Nat) (q : Nat) (hq : q ∉ qs) :
    addDependentCommandQueue qs q = qs ++ [q] := by
  have : ¬ qs.any (fun x => x == q) = true := by
    rw [List.any_eq_true]
    rintro ⟨x, hx, hxq⟩
    have : x = q := by simpa using hxq
    exact hq (this ▸ hx)
  simp [addDependentCommandQueue, this]

theorem addDependentCommandQueue_nodup (qs : List Nat) (q : Nat) (hnd : qs.Nodup) :
    (addDependentCommandQueue qs q).Nodup ∧
      ∀ x, x ∈ addDependentCommandQueue qs q ↔ x ∈ qs ∨ x = q := by
  by_cases hq : q ∈ qs
  · rw [addDependentCommandQueue_mem qs q hq]
    refine ⟨hnd, fun x => ⟨Or.inl, ?_⟩⟩
    rintro (h | h)
    · exact h
    · rw [h]; exact hq
  · rw [addDependentCommandQueue_not_mem qs q hq]
    refine ⟨?_, fun x => by simp⟩
    rw [List.nodup_append]
    refine ⟨hnd, List.nodup_singleton q, ?_⟩
    intro a ha hb
    have : a = q := by simpa using hb
    exact hq (this ▸ ha)

theorem foldl_addDependentCommandQueue (queues : List Nat) : ∀ init : List Nat, init.Nodup →
    (queues.foldl addDependentCommandQueue init).Nodup ∧
      ∀ x, x ∈ queues.foldl addDependentCommandQueue init ↔ x ∈ init ∨ x ∈ queues := by
  induction queues with
  | nil => intro init hnd; exact ⟨hnd, fun x => by simp⟩
  | cons q queues ih =>
      intro init hnd
      obtain ⟨h1, h2⟩ := addDependentCommandQueue_nodup init q hnd
      obtain ⟨g1, g2⟩ := ih (addDependentCommandQueue init q) h1
      refine ⟨g1, fun x => ?_⟩
      rw [List.foldl_cons, g2, h2, List.mem_cons]
      tauto

/-- C28: `addDependentCommandQueue` leaves the list unchanged for a queue it
holds and appends a new queue at the end; it keeps the list free of
duplicates; hence, after any calls on a new event, the list holds exactly the
queues that were added and `flushQueues` calls `pushEventsOnDevice` once for
each of them and for no other queue. -/
theorem dependent_queues_no_duplicates (qs queues : List Nat) (q : Nat) :
    (q ∈ qs → addDependentCommandQueue qs q = qs) ∧
    (q ∉ qs → addDependentCommandQueue qs q = qs ++ [q]) ∧
    (qs.Nodup → (addDependentCommandQueue qs q).Nodup) ∧
    (addDependentCommandQueues queues).Nodup ∧
    (q ∈ queues → (flushQueues (addDependentCommandQueues queues)).count q = 1) ∧
    (q ∉ queues → (flushQueues (addDependentCommandQueues queues)).count q = 0) := by
  obtain ⟨h1, h2⟩ := foldl_addDependentCommandQueue queues [] List.nodup_nil
  refine ⟨addDependentCommandQueue_mem qs q, addDependentCommandQueue_not_mem qs q,
    fun hnd => (addDependentCommandQueue_nodup qs q hnd).1, h1, ?_, ?_⟩
  · intro hq
    rw [flushQueues_eq]
    exact List.count_eq_one_of_mem h1 ((h2 q).mpr (Or.inr hq))
  · intro hq
    rw [flushQueues_eq]
    refine List.count_eq_zero_of_not_mem ?_
    intro hmem
    rcases (h2 q).mp hmem with h | h
    · exact absurd h (List.not_mem_nil q)
    · exact hq h

/-- Witness of C28: queue 5 is added twice and flushed once. -/
theorem dependent_queues_no_duplicates_witness :
    (5 ∈ [5, 7] ∧ 9 ∉ [5, 7] ∧ [5, 7].Nodup ∧ 5 ∈ [5, 7, 5] ∧ 9 ∉ [5, 7, 5]) ∧
    addDependentCommandQueue [5, 7] 5 = [5, 7] ∧
    addDependentCommandQueue [5, 7] 9 = [5, 7] ++ [9] ∧
    (flushQueues (addDependentCommandQueues [5, 7, 5])).count 5 = 1 ∧
    (flushQueues (addDependentCommandQueues [5, 7, 5])).count 9 = 0 :=
  ⟨by decide, (dependent_queues_no_duplicates [5, 7] [5, 7, 5] 5).1 (by decide),
   (dependent_queues_no_duplicates [5, 7] [5, 7, 5] 9).2.1 (by decide),
   (dependent_queues_no_duplicates [5, 7] [5, 7, 5] 5).2.2.2.2.1 (by decide),
   (dependent_queues_no_duplicates [5, 7] [5, 7, 5] 9).2.2.2.2.2 (by decide)⟩

/-! ## Theorems: the defined flag of kernel arguments -/

theorem setArg_defined_flags (F : ArgFile) (k k' : Kernel) (index size : Nat)
    (value : Option (Nat → Nat)) (rc : Int)
    (h : k.setArg F index size value = some (rc, k')) :
    k'.p_args.length = k.p_args.length ∧
      ∀ i, (k'.p_args[i]?.map fun a => a.p_defined) =
        if i = index ∧ rc = CL_SUCCESS then (k.p_args[i]?.map fun _ => true)
        else (k.p_args[i]?.map fun a => a.p_defined) := by
  have hne1 : CL_INVALID_ARG_INDEX ≠ CL_SUCCESS := by decide
  have hne2 : CL_INVALID_ARG_SIZE ≠ CL_SUCCESS := by decide
  have hne3 : CL_INVALID_ARG_VALUE ≠ CL_SUCCESS := by decide
  have hset : ∀ (a b : Arg), k.p_args[index]? = some a → b.p_defined = true →
      ∀ i, ((k.p_args.set index b)[i]?.map fun a => a.p_defined) =
        if i = index ∧ CL_SUCCESS = CL_SUCCESS then (k.p_args[i]?.map fun _ => true)
        else (k.p_args[i]?.map fun a => a.p_defined) := by
    intro a b ha hb i
    have hlt : index < k.p_args.length := (List.getElem?_eq_some.mp ha).1
    by_cases hi : i = index
    · subst hi
      simp [List.getElem?_set, hlt, hb, ha]
    · have hi' : ¬ index = i := fun e => hi e.symm
      simp [List.getElem?_set, hi, hi']
  have hsame : ∀ (e : Int), e ≠ CL_SUCCESS →
      ∀ i, (k.p_args[i]?.map fun a => a.p_defined) =
        if i = index ∧ e = CL_SUCCESS then (k.p_args[i]?.map fun _ => true)
        else (k.p_args[i]?.map fun a => a.p_defined) := by
    intro e he i
    simp [he]
  have hfin : ∀ (e : Int) (kk : Kernel), some (e, kk) = some (rc, k') →
      (kk.p_args.length = k.p_args.length ∧
        ∀ i, (kk.p_args[i]?.map fun a => a.p_defined) =
          if i = index ∧ e = CL_SUCCESS then (k.p_args[i]?.map fun _ => true)
          else (k.p_args[i]?.map fun a => a.p_defined)) →
      (k'.p_args.length = k.p_args.length ∧
        ∀ i, (k'.p_args[i]?.map fun a => a.p_defined) =
          if i = index ∧ rc = CL_SUCCESS then (k.p_args[i]?.map fun _ => true)
          else (k.p_args[i]?.map fun a => a.p_defined)) := by
    intro e kk heq hh
    simp only [Option.some.injEq, Prod.mk.injEq] at heq
    obtain ⟨h1, h2⟩ := heq
    subst h1 h2
    exact hh
  by_cases hidx : index > k.p_args.length
  · rw [Kernel.setArg, if_pos hidx] at h
    exact hfin _ _ h ⟨rfl, hsame _ hne1⟩
  · rw [Kernel.setArg, if_neg hidx] at h
    cases harg : k.p_args[index]? with
    | none => rw [harg] at h; cases h
    | some arg =>
        rw [harg] at h
        simp only [] at h
        by_cases hloc : arg.p_file = F.Local
        · rw [if_pos hloc] at h
          by_cases hsize : size = 0
          · rw [if_pos hsize] at h
            exact hfin _ _ h ⟨rfl, hsame _ hne2⟩
          · rw [if_neg hsize] at h
            by_cases hval : value.isSome = true
            · rw [if_pos hval] at h
              exact hfin _ _ h ⟨rfl, hsame _ hne3⟩
            · rw [if_neg hval] at h
              exact hfin _ _ h ⟨by simp, hset arg _ harg rfl⟩
        · rw [if_neg hloc] at h
          by_cases hsize : size ≠ arg.valueSize
          · rw [if_pos hsize] at h
            exact hfin _ _ h ⟨rfl, hsame _ hne2⟩
          · rw [if_neg hsize] at h
            cases value with
            | none => exact hfin _ _ h ⟨rfl, hsame _ hne3⟩
            | some data => exact hfin _ _ h ⟨by simp, hset arg _ harg rfl⟩

theorem getElem_map_const_of_length (l1 l2 : List Arg) (hlen : l1.length = l2.length)
    (i : Nat) : (l1[i]?.map fun _ => true) = (l2[i]?.map fun _ => true) := by
  by_cases hi : i < l1.length
  · rw [List.getElem?_eq_getElem hi, List.getElem?_eq_getElem (hlen ▸ hi)]
    rfl
  · rw [List.getElem?_eq_none (by omega), List.getElem?_eq_none (by omega)]

theorem setArgs_defined_flags (F : ArgFile) (cs : List SetArgCall) :
    ∀ (k k' : Kernel) (log : List (Nat × Int)), Kernel.setArgs F k cs = some (k', log) →
      k'.p_args.length = k.p_args.length ∧
      ∀ i, (k'.p_args[i]?.map fun a => a.p_defined) =
        if (i, CL_SUCCESS) ∈ log then (k.p_args[i]?.map fun _ => true)
        else (k.p_args[i]?.map fun a => a.p_defined) := by
  induction cs with
  | nil =>
      intro k k' log h
      simp only [Kernel.setArgs, Option.some.injEq, Prod.mk.injEq] at h
      obtain ⟨h1, h2⟩ := h
      subst h1 h2
      exact ⟨rfl, fun i => by simp⟩
  | cons c cs ih =>
      intro k k' log h
      unfold Kernel.setArgs at h
      cases hstep : k.setArg F c.index c.size c.value with
      | none => rw [hstep] at h; cases h
      | some r =>
          rw [hstep] at h
          simp only [] at h
          cases hrest : Kernel.setArgs F r.2 cs with
          | none => rw [hrest] at h; cases h
          | some r' =>
              rw [hrest] at h
              simp only [Option.some.injEq, Prod.mk.injEq] at h
              obtain ⟨h1, h2⟩ := h
              subst h1 h2
              obtain ⟨l1, f1⟩ := setArg_defined_flags F k r.2 c.index c.size c.value r.1 hstep
              obtain ⟨l2, f2⟩ := ih r.2 r'.1 r'.2 hrest
              refine ⟨l2.trans l1, fun i => ?_⟩
              have hconst : (r.2.p_args[i]?.map fun _ => true)
                  = (k.p_args[i]?.map fun _ => true) :=
                getElem_map_const_of_length r.2.p_args k.p_args l1 i
              rw [f2 i, f1 i]
              by_cases hlog : (i, CL_SUCCESS) ∈ r'.2
              · have hmem : (i, CL_SUCCESS) ∈ (c.index, r.1) :: r'.2 :=
                  List.mem_cons_of_mem _ hlog
                rw [if_pos hlog, if_pos hmem, hconst]
              · rw [if_neg hlog]
                by_cases hhead : i = c.index ∧ r.1 = CL_SUCCESS
                · have hmem : (i, CL_SUCCESS) ∈ (c.index, r.1) :: r'.2 := by
                    rw [List.mem_cons]; left; rw [hhead.1, hhead.2]
                  rw [if_pos hhead, if_pos hmem]
                · have hmem : ¬ (i, CL_SUCCESS) ∈ (c.index, r.1) :: r'.2 := by
                    rw [List.mem_cons]
                    rintro (h1 | h1)
                    · apply hhead
                      simp only [Prod.mk.injEq] at h1
                      exact ⟨h1.1, h1.2.symm⟩
                    · exact hlog h1
                  rw [if_neg hhead, if_neg hmem]

theorem argsSpecified_iff (k : Kernel) :
    k.argsSpecified = true ↔ ∀ i, i < k.p_args.length →
      (k.p_args[i]?.map fun a => a.p_defined) = some true := by
  unfold Kernel.argsSpecified
  rw [List.all_eq_true]
  constructor
  · intro h i hi
    rw [List.getElem?_eq_getElem hi]
    simp [h _ (List.getElem_mem hi)]
  · intro h a ha
    obtain ⟨i, hi, hia⟩ := List.getElem_of_mem ha
    have := h i hi
    rw [List.getElem?_eq_getElem hi, hia] at this
    simpa using this

/-- C29: a `setArg` call that returns `CL_SUCCESS` sets the defined flag of
the argument at its index, and no `setArg` call clears a flag or touches the
flag of another index.  Hence, after any sequence of `setArg` calls on a
kernel none of whose arguments was defined, `argsSpecified()` is true exactly
when every argument index has been given to a `setArg` call that returned
`CL_SUCCESS`; and it is true for a kernel without arguments. -/
theorem argsSpecified_after_setArgs (F : ArgFile) (k k' : Kernel) (cs : List SetArgCall)
    (log : List (Nat × Int)) (hrun : Kernel.setArgs F k cs = some (k', log)) :
    k'.p_args.length = k.p_args.length ∧
    (∀ i a, k.p_args[i]? = some a →
      (k'.p_args[i]?.map fun b => b.p_defined) =
        some (decide ((i, CL_SUCCESS) ∈ log) || a.p_defined)) ∧
    ((∀ a ∈ k.p_args, a.p_defined = false) →
      (k'.argsSpecified = true ↔ ∀ i, i < k.p_args.length → (i, CL_SUCCESS) ∈ log)) ∧
    (k.p_args = [] → k'.argsSpecified = true) := by
  obtain ⟨hlen, hflags⟩ := setArgs_defined_flags F cs k k' log hrun
  have hpoint : ∀ i a, k.p_args[i]? = some a →
      (k'.p_args[i]?.map fun b => b.p_defined) =
        some (decide ((i, CL_SUCCESS) ∈ log) || a.p_defined) := by
    intro i a ha
    rw [hflags i, ha]
    by_cases hlog : (i, CL_SUCCESS) ∈ log <;> simp [hlog]
  refine ⟨hlen, hpoint, ?_, ?_⟩
  · intro hfresh
    rw [argsSpecified_iff, hlen]
    constructor
    · intro h i hi
      have ha := List.getElem?_eq_getElem hi
      have hd : (k.p_args[i]).p_defined = false := hfresh _ (List.getElem_mem hi)
      have := h i hi
      rw [hpoint i _ ha, hd] at this
      simpa using this
    · intro h i hi
      have ha := List.getElem?_eq_getElem hi
      rw [hpoint i _ ha]
      simp [h i hi]
  · intro hnil
    rw [argsSpecified_iff, hlen, hnil]
    intro i hi
    simp at hi

/-- Witness of C29 on `kernelExample`: after a successful `setArg` on each of
the arguments 0 and 2 and a rejected one on argument 1, `argsSpecified()` is
false. -/
theorem argsSpecified_after_setArgs_witness :
    ∃ k' log,
      Kernel.setArgs fileExample kernelExample
        [{ index := 0, size := 8, value := some fun _ => 0 },
         { index := 1, size := 16, value := some fun _ => 0 },
         { index := 2, size := 64, value := none }] = some (k', log) ∧
      log = [(0, CL_SUCCESS), (1, CL_INVALID_ARG_SIZE), (2, CL_SUCCESS)] ∧
      (∀ a ∈ kernelExample.p_args, a.p_defined = false) ∧
      (k'.argsSpecified = true ↔
        ∀ i, i < kernelExample.p_args.length → (i, CL_SUCCESS) ∈ log) ∧
      k'.argsSpecified = false :=
  have hrun : Kernel.setArgs fileExample kernelExample
      [{ index := 0, size := 8, value := some fun _ => 0 },
       { index := 1, size := 16, value := some fun _ => 0 },
       { index := 2, size := 64, value := none }]
      = some ((Kernel.setArgs fileExample kernelExample
          [{ index := 0, size := 8, value := some fun _ => 0 },
           { index := 1, size := 16, value := some fun _ => 0 },
           { index := 2, size := 64, value := none }]).get (by decide)) :=
    (Option.some_get _).symm
  ⟨_, _, hrun, by decide, by decide,
   (argsSpecified_after_setArgs fileExample kernelExample _ _ _ hrun).2.2.1 (by decide),
   by decide⟩

/-! ## Theorems: the program API -/

theorem deviceFound_iff (context_devices : List Nat) (d : Nat) :
    deviceFound context_devices d = true ↔ d ∈ context_devices := by
  unfold deviceFound
  rw [List.any_eq_true]
  constructor
  · rintro ⟨x, hx, hxd⟩
    have : d = x := by simpa using hxd
    exact this ▸ hx
  · intro h
    exact ⟨d, h, by simp⟩

theorem buildDevicesLoop_eq (context_devices device_list : List Nat) :
    ∀ n i, i + n = device_list.length →
      buildDevicesLoop context_devices device_list n i
        = some ((device_list.drop i).all (deviceFound context_devices)) := by
  intro n
  induction n with
  | zero =>
      intro i hi
      have : device_list.drop i = [] := List.drop_of_length_le (by omega)
      simp [buildDevicesLoop, this]
  | succ n ih =>
      intro i hi
      have hlt : i < device_list.length := by omega
      have hd : device_list.drop i = device_list[i] :: device_list.drop (i + 1) :=
        List.drop_eq_getElem_cons hlt
      rw [hd, List.all_cons]
      unfold buildDevicesLoop
      rw [List.getElem?_eq_getElem hlt]
      simp only []
      by_cases hf : deviceFound context_devices device_list[i] = true
      · rw [ih (i + 1) (by omega)]
        simp [hf]
      · have hf' : deviceFound context_devices device_list[i] = false := by simpa using hf
        simp [hf']

theorem buildCheckDevices_eq (context : ContextInfo) (num_devices : Nat)
    (device_list : List Nat) (hlen : num_devices ≠ 0 → device_list.length = num_devices) :
    buildCheckDevices context num_devices device_list =
      if num_devices ≠ 0 ∧ context.num_devices_status ≠ CL_SUCCESS then
        DevicesCheck.returned context.num_devices_status
      else if num_devices ≠ 0 ∧ context.devices_status ≠ CL_SUCCESS then
        DevicesCheck.returned context.devices_status
      else if num_devices ≠ 0 ∧ ¬ (∀ d ∈ device_list, d ∈ context.devices) then
        DevicesCheck.returned CL_INVALID_DEVICE
      else DevicesCheck.passed := by
  have hall : (device_list.all (deviceFound context.devices) = true ↔
      ∀ d ∈ device_list, d ∈ context.devices) := by
    rw [List.all_eq_true]
    exact forall₂_congr fun d _ => deviceFound_iff context.devices d
  unfold buildCheckDevices
  by_cases hn : num_devices = 0
  · simp [hn]
  · have hloop := buildDevicesLoop_eq context.devices device_list num_devices 0
      (by rw [hlen hn]; omega)
    rw [List.drop_zero] at hloop
    by_cases hs1 : context.num_devices_status = CL_SUCCESS
    · by_cases hs2 : context.devices_status = CL_SUCCESS
      · by_cases hmem : ∀ d ∈ device_list, d ∈ context.devices
        · have := hall.mpr hmem
          have hex : ¬ ∃ x ∈ device_list, x ∉ context.devices := by
            rintro ⟨x, hx, hnx⟩
            exact hnx (hmem x hx)
          simp [hn, hs1, hs2, hloop, this, hex]
        · have : device_list.all (deviceFound context.devices) = false := by
            rw [← Bool.not_eq_true]
            exact fun h => hmem (hall.mp h)
          simp only [ne_eq, hn, not_false_eq_true, hs1, not_true_eq_false, if_false, if_true,
            hs2, hloop, this, hmem, and_false, and_self]
      · simp [hn, hs1, hs2]
    · simp [hn, hs1]

/-- C21: when `device_list`, if not null, holds `num_devices` devices,
`clBuildProgram` returns what the claim says: `CL_INVALID_PROGRAM` for a null
program; else `CL_INVALID_VALUE` unless `device_list` is null exactly when
`num_devices` is 0 and `user_data` is null whenever `pfn_notify` is; else the
error of a context query; else `CL_INVALID_DEVICE` unless every listed device
is one of the context's devices; else `CL_INVALID_OPERATION` unless the state
is `Loaded`; else the status of the program's `build`, which is called in
this last case only. -/
theorem clBuildProgram_checks (Loaded : Nat) (program : Option Program) (num_devices : Nat)
    (device_list : Option (List Nat)) (options pfn_notify user_data : Nat)
    (hlist : ∀ l, device_list = some l → l.length = num_devices) :
    clBuildProgram Loaded program num_devices device_list options pfn_notify user_data
        = some (clBuildProgramSpec Loaded program num_devices device_list pfn_notify user_data) ∧
      ((clBuildProgramSpec Loaded program num_devices device_list pfn_notify user_data).built
          = true ↔
        ∃ p, program = some p ∧
          (device_list = none ↔ num_devices = 0) ∧ (pfn_notify = 0 → user_data = 0) ∧
          (num_devices ≠ 0 → p.context.num_devices_status = CL_SUCCESS ∧
            p.context.devices_status = CL_SUCCESS) ∧
          (∀ d ∈ device_list.getD [], d ∈ p.context.devices) ∧ p.state = Loaded) := by
  cases program with
  | none =>
      refine ⟨rfl, ?_⟩
      constructor
      · intro h; exact Bool.noConfusion h
      · rintro ⟨p, hp, _⟩; cases hp
  | some p =>
      by_cases hargs : (device_list = none ↔ num_devices = 0) ∧ (pfn_notify = 0 → user_data = 0)
      · obtain ⟨hdl, hpfn⟩ := hargs
        have c1 : ¬ (device_list.isNone = true ∧ num_devices > 0) := by
          rintro ⟨h1, h2⟩
          have : device_list = none := by simpa using h1
          have := hdl.mp this
          omega
        have c2 : ¬ (num_devices = 0 ∧ device_list.isSome = true) := by
          rintro ⟨h1, h2⟩
          have := hdl.mpr h1
          rw [this] at h2
          simp at h2
        have c3 : ¬ (pfn_notify = 0 ∧ user_data ≠ 0) := by
          rintro ⟨h1, h2⟩
          exact h2 (hpfn h1)
        have hlen : num_devices ≠ 0 → (device_list.getD []).length = num_devices := by
          intro hn
          cases hdev : device_list with
          | none => exact absurd (hdl.mp hdev) hn
          | some l => simp [hlist l hdev]
        have hnil : num_devices = 0 → ∀ d ∈ device_list.getD [], d ∈ p.context.devices := by
          intro hn d hd
          rw [hdl.mpr hn] at hd
          cases hd
        have hcheck := buildCheckDevices_eq p.context num_devices (device_list.getD []) hlen
        have hspec : clBuildProgramSpec Loaded (some p) num_devices device_list pfn_notify
            user_data =
            (if num_devices ≠ 0 ∧ p.context.num_devices_status ≠ CL_SUCCESS then
              { status := p.context.num_devices_status, built := false }
            else if num_devices ≠ 0 ∧ p.context.devices_status ≠ CL_SUCCESS then
              { status := p.context.devices_status, built := false }
            else if ¬ (∀ d ∈ device_list.getD [], d ∈ p.context.devices) then
              { status := CL_INVALID_DEVICE, built := false }
            else if p.state ≠ Loaded then { status := CL_INVALID_OPERATION, built := false }
            else { status := p.build_status, built := true }) := by
          show (if ¬ ((device_list = none ↔ num_devices = 0) ∧
              (pfn_notify = 0 → user_data = 0)) then _ else _) = _
          rw [if_neg (not_not.mpr ⟨hdl, hpfn⟩)]
        have hfun : clBuildProgram Loaded (some p) num_devices device_list options pfn_notify
            user_data =
            (match buildCheckDevices p.context num_devices (device_list.getD []) with
              | DevicesCheck.fault => none
              | DevicesCheck.returned status => some { status := status, built := false }
              | DevicesCheck.passed =>
                  if p.state ≠ Loaded then
                    some { status := CL_INVALID_OPERATION, built := false }
                  else some { status := p.build_status, built := true }) := by
          show (if device_list.isNone = true ∧ num_devices > 0 then _ else _) = _
          rw [if_neg c1, if_neg c2, if_neg c3]
        rw [hfun, hspec, hcheck]
        by_cases hn : num_devices = 0
        · have hm := hnil hn
          have e1 : ¬ (num_devices ≠ 0 ∧ p.context.num_devices_status ≠ CL_SUCCESS) :=
            fun h => h.1 hn
          have e2 : ¬ (num_devices ≠ 0 ∧ p.context.devices_status ≠ CL_SUCCESS) :=
            fun h => h.1 hn
          have e3 : ¬ (num_devices ≠ 0 ∧ ¬ ∀ d ∈ device_list.getD [], d ∈ p.context.devices) :=
            fun h => h.1 hn
          rw [if_neg e1, if_neg e2, if_neg e3, if_neg e1, if_neg e2, if_neg (not_not.mpr hm)]
          by_cases hst : p.state = Loaded
          · rw [if_neg (not_not.mpr hst), if_neg (not_not.mpr hst)]
            exact ⟨rfl, fun _ => ⟨p, rfl, hdl, hpfn, fun h' => absurd hn h', hm, hst⟩,
              fun _ => rfl⟩
          · rw [if_pos hst, if_pos hst]
            refine ⟨rfl, fun h => Bool.noConfusion h, ?_⟩
            rintro ⟨q, hq, _, _, _, _, hq3⟩
            cases hq
            exact absurd hq3 hst
        · by_cases hs1 : p.context.num_devices_status = CL_SUCCESS
          · have e1 : ¬ (num_devices ≠ 0 ∧ p.context.num_devices_status ≠ CL_SUCCESS) :=
              fun h => h.2 hs1
            rw [if_neg e1, if_neg e1]
            by_cases hs2 : p.context.devices_status = CL_SUCCESS
            · have e2 : ¬ (num_devices ≠ 0 ∧ p.context.devices_status ≠ CL_SUCCESS) :=
                fun h => h.2 hs2
              rw [if_neg e2, if_neg e2]
              by_cases hmem : ∀ d ∈ device_list.getD [], d ∈ p.context.devices
              · have e3 : ¬ (num_devices ≠ 0 ∧
                    ¬ ∀ d ∈ device_list.getD [], d ∈ p.context.devices) := fun h => h.2 hmem
                rw [if_neg e3, if_neg (not_not.mpr hmem)]
                by_cases hst : p.state = Loaded
                · rw [if_neg (not_not.mpr hst), if_neg (not_not.mpr hst)]
                  exact ⟨rfl, fun _ => ⟨p, rfl, hdl, hpfn, fun _ => ⟨hs1, hs2⟩, hmem, hst⟩,
                    fun _ => rfl⟩
                · rw [if_pos hst, if_pos hst]
                  refine ⟨rfl, fun h => Bool.noConfusion h, ?_⟩
                  rintro ⟨q, hq, _, _, _, _, hq3⟩
                  cases hq
                  exact absurd hq3 hst
              · have e3 : num_devices ≠ 0 ∧
                    ¬ ∀ d ∈ device_list.getD [], d ∈ p.context.devices := ⟨hn, hmem⟩
                rw [if_pos e3, if_pos hmem]
                refine ⟨rfl, fun h => Bool.noConfusion h, ?_⟩
                rintro ⟨q, hq, _, _, _, hq2, _⟩
                cases hq
                exact absurd hq2 hmem
            · have e2 : num_devices ≠ 0 ∧ p.context.devices_status ≠ CL_SUCCESS := ⟨hn, hs2⟩
              rw [if_pos e2, if_pos e2]
              refine ⟨rfl, fun h => Bool.noConfusion h, ?_⟩
              rintro ⟨q, hq, _, _, hq1, _, _⟩
              cases hq
              exact absurd (hq1 hn).2 hs2
          · have e1 : num_devices ≠ 0 ∧ p.context.num_devices_status ≠ CL_SUCCESS := ⟨hn, hs1⟩
            rw [if_pos e1, if_pos e1]
            refine ⟨rfl, fun h => Bool.noConfusion h, ?_⟩
            rintro ⟨q, hq, _, _, hq1, _, _⟩
            cases hq
            exact absurd (hq1 hn).1 hs1
      · have hret : clBuildProgram Loaded (some p) num_devices device_list options pfn_notify
            user_data = some { status := CL_INVALID_VALUE, built := false } := by
          show (if device_list.isNone = true ∧ num_devices > 0 then _ else _) = _
          by_cases c1 : device_list.isNone = true ∧ num_devices > 0
          · rw [if_pos c1]
          · rw [if_neg c1]
            by_cases c2 : num_devices = 0 ∧ device_list.isSome = true
            · rw [if_pos c2]
            · rw [if_neg c2]
              by_cases c3 : pfn_notify = 0 ∧ user_data ≠ 0
              · rw [if_pos c3]
              · exfalso
                apply hargs
                refine ⟨⟨fun h => ?_, fun h => ?_⟩, fun h => ?_⟩
                · by_contra hn
                  exact c1 ⟨by simp [h], by omega⟩
                · cases hdev : device_list with
                  | none => rfl
                  | some l => exact absurd ⟨h, by rw [hdev]; rfl⟩ c2
                · by_contra hu
                  exact c3 ⟨h, hu⟩
        have hspec : clBuildProgramSpec Loaded (some p) num_devices device_list pfn_notify
            user_data = { status := CL_INVALID_VALUE, built := false } := by
          simp only [clBuildProgramSpec, hargs, not_false_eq_true, if_true]
        rw [hret, hspec]
        refine ⟨rfl, ?_⟩
        constructor
        · intro h; exact Bool.noConfusion h
        · rintro ⟨q, hq, h1, h2, _⟩
          exact absurd ⟨h1, h2⟩ hargs

/-- Witness of C21: both devices of the context listed, the program loaded. -/
theorem clBuildProgram_checks_witness :
    (∀ l, some [12, 11] = some l → l.length = 2) ∧
    clBuildProgram 1 (some programExample) 2 (some [12, 11]) 0 0 0
      = some (clBuildProgramSpec 1 (some programExample) 2 (some [12, 11]) 0 0) ∧
    clBuildProgramSpec 1 (some programExample) 2 (some [12, 11]) 0 0
      = { status := CL_SUCCESS, built := true } :=
  have hl : ∀ l, some [12, 11] = some l → l.length = 2 := by
    intro l h
    cases h
    rfl
  ⟨hl, (clBuildProgram_checks 1 (some programExample) 2 (some [12, 11]) 0 0 0 hl).1, by decide⟩

theorem binariesLoop_cases (cd dl ls bs : List Nat) (st : Option (List Int)) (N : Nat)
    (hdl : dl.length = N) (hls : ls.length = N) (hbs : bs.length = N) :
    ∀ n i, i + n = N →
      (binariesLoop cd dl ls bs st n i = BinariesLoop.passed ∧
        ∀ j, i ≤ j → j < N →
          ls[j]? ≠ some 0 ∧ bs[j]? ≠ some 0 ∧ ∃ d, dl[j]? = some d ∧ d ∈ cd) ∨
      (∃ k, i ≤ k ∧ k < N ∧
        (∀ j, i ≤ j → j < k →
          ls[j]? ≠ some 0 ∧ bs[j]? ≠ some 0 ∧ ∃ d, dl[j]? = some d ∧ d ∈ cd) ∧
        ((ls[k]? = some 0 ∨ bs[k]? = some 0) ∧
            binariesLoop cd dl ls bs st n i = BinariesLoop.failed CL_INVALID_VALUE
              (st.map fun s => s.set k CL_INVALID_VALUE) ∨
          (ls[k]? ≠ some 0 ∧ bs[k]? ≠ some 0 ∧ (∃ d, dl[k]? = some d ∧ d ∉ cd) ∧
            binariesLoop cd dl ls bs st n i = BinariesLoop.failed CL_INVALID_DEVICE st))) := by
  intro n
  induction n with
  | zero =>
      intro i hi
      left
      refine ⟨rfl, fun j h1 h2 => ?_⟩
      omega
  | succ n ih =>
      intro i hi
      have hil : i < ls.length := by omega
      have hib : i < bs.length := by omega
      have hid : i < dl.length := by omega
      have el : ls[i]? = some ls[i] := List.getElem?_eq_getElem hil
      have eb : bs[i]? = some bs[i] := List.getElem?_eq_getElem hib
      have ed : dl[i]? = some dl[i] := List.getElem?_eq_getElem hid
      by_cases h1 : ls[i] = 0
      · right
        refine ⟨i, le_refl _, by omega, fun j a b => by omega, Or.inl ⟨Or.inl ?_, ?_⟩⟩
        · rw [el, h1]
        · rw [binariesLoop, el]
          show (if ls[i] = 0 then _ else _) = _
          rw [if_pos h1]
      · by_cases h2 : bs[i] = 0
        · right
          refine ⟨i, le_refl _, by omega, fun j a b => by omega, Or.inl ⟨Or.inr ?_, ?_⟩⟩
          · rw [eb, h2]
          · rw [binariesLoop, el]
            show (if ls[i] = 0 then _ else _) = _
            rw [if_neg h1, eb]
            show (if bs[i] = 0 then _ else _) = _
            rw [if_pos h2]
        · have hl0 : ls[i]? ≠ some 0 := by
            rw [el]
            intro h
            exact h1 (Option.some.inj h)
          have hb0 : bs[i]? ≠ some 0 := by
            rw [eb]
            intro h
            exact h2 (Option.some.inj h)
          have hunf : binariesLoop cd dl ls bs st (n + 1) i =
              if (!deviceFound cd dl[i]) = true then BinariesLoop.failed CL_INVALID_DEVICE st
              else binariesLoop cd dl ls bs st n (i + 1) := by
            rw [binariesLoop, el]
            show (if ls[i] = 0 then _ else _) = _
            rw [if_neg h1, eb]
            show (if bs[i] = 0 then _ else _) = _
            rw [if_neg h2, ed]
          by_cases hf : deviceFound cd dl[i] = true
          · have hmem : dl[i] ∈ cd := (deviceFound_iff cd dl[i]).1 hf
            have hnext : binariesLoop cd dl ls bs st (n + 1) i =
                binariesLoop cd dl ls bs st n (i + 1) := by
              rw [hunf, if_neg (by simp [hf])]
            have hok : ∀ j, i ≤ j → j < i + 1 →
                ls[j]? ≠ some 0 ∧ bs[j]? ≠ some 0 ∧ ∃ d, dl[j]? = some d ∧ d ∈ cd := by
              intro j a b
              have hj : j = i := by omega
              subst hj
              exact ⟨hl0, hb0, dl[j], ed, hmem⟩
            rcases ih (i + 1) (by omega) with ⟨hp, hall⟩ | ⟨k, hk1, hk2, hall, hk⟩
            · left
              refine ⟨by rw [hnext, hp], fun j a b => ?_⟩
              by_cases hj : j < i + 1
              · exact hok j a hj
              · exact hall j (by omega) b
            · right
              refine ⟨k, by omega, hk2, fun j a b => ?_, ?_⟩
              · by_cases hj : j < i + 1
                · exact hok j a hj
                · exact hall j (by omega) b
              · rw [hnext]
                exact hk
          · right
            have hnm : dl[i] ∉ cd := fun h => hf ((deviceFound_iff cd dl[i]).2 h)
            refine ⟨i, le_refl _, by omega, fun j a b => by omega,
              Or.inr ⟨hl0, hb0, ⟨dl[i], ed, hnm⟩, ?_⟩⟩
            rw [hunf, if_pos (by simp [hf])]

theorem first_offender_unique (P : Nat → Prop) (i k : Nat) (hall : ∀ j, j < k → P j)
    (hprev : ∀ j, j < i → P j) (hk : ¬ P k) (hi : ¬ P i) : k = i := by
  rcases Nat.lt_trichotomy k i with h | h | h
  · exact absurd (hprev k h) hk
  · exact h
  · exact absurd (hall i h) hi

/-- C22: `clCreateProgramWithBinary`, given arrays of `num_devices` entries,
returns; the program is null exactly when the error code is not
`CL_SUCCESS`; a non-null program means that every device is one of the
context's and that no length is zero and no binary null; and at the first
offending index the error is `CL_INVALID_VALUE`, stored in `binary_status`
at that index too, for a zero length or a null binary, otherwise
`CL_INVALID_DEVICE`. -/
theorem clCreateProgramWithBinary_contract (context : Option ContextInfo) (num_devices : Nat)
    (device_list lengths binaries : Option (List Nat)) (binary_status : Option (List Int))
    (load_status : Int) (load_binary_status : Option (List Int))
    (hdl : ∀ l, device_list = some l → l.length = num_devices)
    (hls : ∀ l, lengths = some l → l.length = num_devices)
    (hbs : ∀ l, binaries = some l → l.length = num_devices)
    (hst : ∀ l, binary_status = some l → l.length = num_devices) :
    ∃ r, clCreateProgramWithBinary context num_devices device_list lengths binaries
        binary_status load_status load_binary_status = some r ∧
      (r.program = none ↔ r.errcode ≠ CL_SUCCESS) ∧
      (r.program ≠ none → ∃ ctx dl ls bs, context = some ctx ∧ device_list = some dl ∧
        lengths = some ls ∧ binaries = some bs ∧
        ∀ i, i < num_devices →
          ls[i]? ≠ some 0 ∧ bs[i]? ≠ some 0 ∧ ∃ d, dl[i]? = some d ∧ d ∈ ctx.devices) ∧
      (∀ ctx dl ls bs i, context = some ctx → ctx.num_devices_status = CL_SUCCESS →
        ctx.devices_status = CL_SUCCESS → device_list = some dl → lengths = some ls →
        binaries = some bs → i < num_devices →
        (∀ j, j < i →
          ls[j]? ≠ some 0 ∧ bs[j]? ≠ some 0 ∧ ∃ d, dl[j]? = some d ∧ d ∈ ctx.devices) →
        ((ls[i]? = some 0 ∨ bs[i]? = some 0) →
          r.program = none ∧ r.errcode = CL_INVALID_VALUE ∧
          r.binary_status = binary_status.map (fun s => s.set i CL_INVALID_VALUE) ∧
          ∀ s, r.binary_status = some s → s[i]? = some CL_INVALID_VALUE) ∧
        (ls[i]? ≠ some 0 → bs[i]? ≠ some 0 → (∃ d, dl[i]? = some d ∧ d ∉ ctx.devices) →
          r.program = none ∧ r.errcode = CL_INVALID_DEVICE ∧
          r.binary_status = binary_status)) := by
  cases context with
  | none =>
      refine ⟨_, rfl, ⟨fun _ => (by decide : CL_INVALID_CONTEXT ≠ CL_SUCCESS), fun _ => rfl⟩,
        fun h => absurd rfl h, ?_⟩
      intro ctx dl ls bs i h
      cases h
  | some ctx =>
      by_cases hnull : num_devices = 0 ∨ device_list.isNone = true ∨ lengths.isNone = true ∨
          binaries.isNone = true
      · refine ⟨{ program := none, errcode := CL_INVALID_VALUE, binary_status := binary_status },
          ?_, ⟨fun _ => (by decide : CL_INVALID_VALUE ≠ CL_SUCCESS), fun _ => rfl⟩,
          fun h => absurd rfl h, ?_⟩
        · show (if num_devices = 0 ∨ device_list.isNone = true ∨ lengths.isNone = true ∨
            binaries.isNone = true then _ else _) = _
          rw [if_pos hnull]
        · intro ctx2 dl ls bs i _ _ _ e1 e2 e3 hi
          exfalso
          rcases hnull with h | h | h | h
          · omega
          · rw [e1] at h
            cases h
          · rw [e2] at h
            cases h
          · rw [e3] at h
            cases h
      · have hnd : num_devices ≠ 0 := fun h => hnull (Or.inl h)
        obtain ⟨dl, edl⟩ : ∃ dl, device_list = some dl := by
          cases hd : device_list with
          | none => exact absurd (Or.inr (Or.inl (by rw [hd]; rfl))) hnull
          | some l => exact ⟨l, rfl⟩
        obtain ⟨ls, els⟩ : ∃ ls, lengths = some ls := by
          cases hd : lengths with
          | none => exact absurd (Or.inr (Or.inr (Or.inl (by rw [hd]; rfl)))) hnull
          | some l => exact ⟨l, rfl⟩
        obtain ⟨bs, ebs⟩ : ∃ bs, binaries = some bs := by
          cases hd : binaries with
          | none => exact absurd (Or.inr (Or.inr (Or.inr (by rw [hd]; rfl)))) hnull
          | some l => exact ⟨l, rfl⟩
        have ldl := hdl dl edl
        have lls := hls ls els
        have lbs := hbs bs ebs
        by_cases hs1 : ctx.num_devices_status ≠ CL_SUCCESS
        · refine ⟨CreateResult.mk none ctx.num_devices_status binary_status, ?_, ⟨fun _ => hs1, fun _ => rfl⟩,
            fun h => absurd rfl h, ?_⟩
          · show (if num_devices = 0 ∨ device_list.isNone = true ∨ lengths.isNone = true ∨
              binaries.isNone = true then _ else _) = _
            rw [if_neg hnull, if_pos hs1]
          · intro ctx2 dl2 ls2 bs2 i e h1
            cases e
            exact absurd h1 hs1
        · by_cases hs2 : ctx.devices_status ≠ CL_SUCCESS
          · refine ⟨CreateResult.mk none ctx.devices_status binary_status, ?_, ⟨fun _ => hs2, fun _ => rfl⟩,
              fun h => absurd rfl h, ?_⟩
            · show (if num_devices = 0 ∨ device_list.isNone = true ∨ lengths.isNone = true ∨
                binaries.isNone = true then _ else _) = _
              rw [if_neg hnull, if_neg hs1, if_pos hs2]
            · intro ctx2 dl2 ls2 bs2 i e _ h2
              cases e
              exact absurd h2 hs2
          · have hfun : clCreateProgramWithBinary (some ctx) num_devices device_list lengths
                binaries binary_status load_status load_binary_status =
                match binariesLoop ctx.devices dl ls bs binary_status num_devices 0 with
                | BinariesLoop.fault => none
                | BinariesLoop.failed errcode st =>
                    some { program := none, errcode := errcode, binary_status := st }
                | BinariesLoop.passed =>
                    if load_status ≠ CL_SUCCESS then
                      some { program := none, errcode := load_status,
                             binary_status := load_binary_status }
                    else
                      some { program := some ctx, errcode := load_status,
                             binary_status := load_binary_status } := by
              show (if num_devices = 0 ∨ device_list.isNone = true ∨ lengths.isNone = true ∨
                binaries.isNone = true then _ else _) = _
              rw [if_neg hnull, if_neg hs1, if_neg hs2, edl, els, ebs]
              rfl
            have hz : ∀ j : Nat, (ls[j]? ≠ some 0 ∧ bs[j]? ≠ some 0 ∧
                ∃ d, dl[j]? = some d ∧ d ∈ ctx.devices) →
                ¬ (ls[j]? = some 0 ∨ bs[j]? = some 0) := by
              intro j h1 h2
              rcases h2 with h2 | h2
              · exact h1.1 h2
              · exact h1.2.1 h2
            have hv : ∀ j : Nat, (ls[j]? ≠ some 0 ∧ bs[j]? ≠ some 0 ∧
                ∃ d, dl[j]? = some d ∧ d ∈ ctx.devices) →
                ¬ (∃ d, dl[j]? = some d ∧ d ∉ ctx.devices) := by
              intro j h1 h2
              obtain ⟨d, hd, hm⟩ := h1.2.2
              obtain ⟨d2, hd2, hn⟩ := h2
              rw [hd] at hd2
              cases hd2
              exact hn hm
            rcases binariesLoop_cases ctx.devices dl ls bs binary_status num_devices ldl lls lbs
              num_devices 0 (by omega) with ⟨hp, hall⟩ | ⟨k, _, hk2, hall, hk⟩
            · rw [hp] at hfun
              have hnone : ∀ (r : CreateResult) (ctx2 : ContextInfo) (dl2 ls2 bs2 : List Nat)
                  (i : Nat), some ctx = some ctx2 → ctx2.num_devices_status = CL_SUCCESS →
                  ctx2.devices_status = CL_SUCCESS → device_list = some dl2 →
                  lengths = some ls2 → binaries = some bs2 → i < num_devices →
                  (∀ j, j < i → ls2[j]? ≠ some 0 ∧ bs2[j]? ≠ some 0 ∧
                    ∃ d, dl2[j]? = some d ∧ d ∈ ctx2.devices) →
                  ((ls2[i]? = some 0 ∨ bs2[i]? = some 0) →
                    r.program = none ∧ r.errcode = CL_INVALID_VALUE ∧
                    r.binary_status = binary_status.map (fun s => s.set i CL_INVALID_VALUE) ∧
                    ∀ s, r.binary_status = some s → s[i]? = some CL_INVALID_VALUE) ∧
                  (ls2[i]? ≠ some 0 → bs2[i]? ≠ some 0 →
                    (∃ d, dl2[i]? = some d ∧ d ∉ ctx2.devices) →
                    r.program = none ∧ r.errcode = CL_INVALID_DEVICE ∧
                    r.binary_status = binary_status) := by
                intro r ctx2 dl2 ls2 bs2 i e _ _ e1 e2 e3 hi _
                cases e
                rw [edl] at e1
                rw [els] at e2
                rw [ebs] at e3
                cases e1
                cases e2
                cases e3
                have hok := hall i (Nat.zero_le i) hi
                exact ⟨fun h => absurd h (hz i hok), fun _ _ h => absurd h (hv i hok)⟩
              by_cases hload : load_status ≠ CL_SUCCESS
              · rw [if_pos hload] at hfun
                exact ⟨_, hfun, ⟨fun _ => hload, fun _ => rfl⟩, fun h => absurd rfl h,
                  hnone _⟩
              · rw [if_neg hload] at hfun
                refine ⟨_, hfun, ⟨fun h => ?_, fun h => absurd h hload⟩, fun _ => ?_, hnone _⟩
                · cases h
                · exact ⟨ctx, dl, ls, bs, rfl, edl, els, ebs,
                    fun i hi => hall i (Nat.zero_le i) hi⟩
            · have hnotk : ¬ (ls[k]? ≠ some 0 ∧ bs[k]? ≠ some 0 ∧
                  ∃ d, dl[k]? = some d ∧ d ∈ ctx.devices) := by
                intro hok
                rcases hk with ⟨h, _⟩ | ⟨_, _, h, _⟩
                · exact hz k hok h
                · exact hv k hok h
              have hsame : ∀ i : Nat, (∀ j, j < i → ls[j]? ≠ some 0 ∧ bs[j]? ≠ some 0 ∧
                    ∃ d, dl[j]? = some d ∧ d ∈ ctx.devices) →
                  ¬ (ls[i]? ≠ some 0 ∧ bs[i]? ≠ some 0 ∧
                    ∃ d, dl[i]? = some d ∧ d ∈ ctx.devices) → k = i := by
                intro i hprev hi
                exact first_offender_unique (fun j => ls[j]? ≠ some 0 ∧ bs[j]? ≠ some 0 ∧
                  ∃ d, dl[j]? = some d ∧ d ∈ ctx.devices) i k
                  (fun j hj => hall j (Nat.zero_le j) hj) hprev hnotk hi
              rcases hk with ⟨hzero, hres⟩ | ⟨hl0, hb0, hdev, hres⟩
              · rw [hres] at hfun
                refine ⟨_, hfun, ⟨fun _ => (by decide : CL_INVALID_VALUE ≠ CL_SUCCESS),
                  fun _ => rfl⟩, fun h => absurd rfl h, ?_⟩
                intro ctx2 dl2 ls2 bs2 i e _ _ e1 e2 e3 hi hprev
                cases e
                rw [edl] at e1
                rw [els] at e2
                rw [ebs] at e3
                cases e1
                cases e2
                cases e3
                refine ⟨fun h => ?_, fun h1 h2 hd => ?_⟩
                · have hki : k = i := hsame i hprev (fun hok => hz i hok h)
                  subst hki
                  refine ⟨rfl, rfl, rfl, fun s hs => ?_⟩
                  cases hbst : binary_status with
                  | none =>
                      rw [hbst] at hs
                      cases hs
                  | some st =>
                      rw [hbst] at hs
                      have hlen : k < st.length := by
                        rw [hst st hbst]
                        exact hi
                      have hs2 : st.set k CL_INVALID_VALUE = s := Option.some.inj hs
                      rw [← hs2]
                      simp [List.getElem?_set, hlen]
                · have hki : k = i := hsame i hprev (fun hok => hv i hok hd)
                  subst hki
                  rcases hzero with h | h
                  · exact absurd h h1
                  · exact absurd h h2
              · rw [hres] at hfun
                refine ⟨_, hfun, ⟨fun _ => (by decide : CL_INVALID_DEVICE ≠ CL_SUCCESS),
                  fun _ => rfl⟩, fun h => absurd rfl h, ?_⟩
                intro ctx2 dl2 ls2 bs2 i e _ _ e1 e2 e3 hi hprev
                cases e
                rw [edl] at e1
                rw [els] at e2
                rw [ebs] at e3
                cases e1
                cases e2
                cases e3
                refine ⟨fun h => ?_, fun _ _ _ => ⟨rfl, rfl, rfl⟩⟩
                have hki : k = i := hsame i hprev (fun hok => hz i hok h)
                subst hki
                rcases h with h | h
                · exact absurd h hl0
                · exact absurd h hb0

/-- Witness for C22: the devices 12 and 11 of `contextExample` with the
lengths 4 and 0: the second length is the first offence. -/
theorem clCreateProgramWithBinary_contract_witness :
    ∃ r, clCreateProgramWithBinary (some contextExample) 2 (some [12, 11]) (some [4, 0])
        (some [100, 200]) (some [7, 7]) CL_SUCCESS (some [0, 0]) = some r ∧
      (r.program = none ↔ r.errcode ≠ CL_SUCCESS) ∧ r.errcode = CL_INVALID_VALUE ∧
      r.binary_status = some [7, CL_INVALID_VALUE] :=
  have hdl : ∀ l, (some [12, 11] : Option (List Nat)) = some l → l.length = 2 := by
    intro l h
    cases h
    rfl
  have hls : ∀ l, (some [4, 0] : Option (List Nat)) = some l → l.length = 2 := by
    intro l h
    cases h
    rfl
  have hbs : ∀ l, (some [100, 200] : Option (List Nat)) = some l → l.length = 2 := by
    intro l h
    cases h
    rfl
  have hst : ∀ l, (some [7, 7] : Option (List Int)) = some l → l.length = 2 := by
    intro l h
    cases h
    rfl
  match clCreateProgramWithBinary_contract (some contextExample) 2 (some [12, 11])
      (some [4, 0]) (some [100, 200]) (some [7, 7]) CL_SUCCESS (some [0, 0]) hdl hls hbs hst with
  | ⟨r, hr, hiff, _, hfirst⟩ =>
      have h := (hfirst contextExample [12, 11] [4, 0] [100, 200] 1 rfl rfl rfl rfl rfl rfl
        (by decide) (by decide)).1 (Or.inl (by decide))
      ⟨r, hr, hiff, h.2.1, h.2.2.1⟩

/-- C23: for every source `(s0, s1, s2, s3)` and every `t_max`, `swizzle`
leaves in a four-element target the vector that its comments document, for
each of the thirteen channel orders when reading and when writing. -/
theorem swizzle_documented (t0 t1 t2 t3 s0 s1 s2 s3 t_max : Nat) :
    (swizzle [t0, t1, t2, t3] [s0, s1, s2, s3] CL_R true t_max = some [s0, 0, 0, t_max] ∧
     swizzle [t0, t1, t2, t3] [s0, s1, s2, s3] CL_Rx true t_max = some [s0, 0, 0, t_max] ∧
     swizzle [t0, t1, t2, t3] [s0, s1, s2, s3] CL_A true t_max = some [0, 0, 0, s0] ∧
     swizzle [t0, t1, t2, t3] [s0, s1, s2, s3] CL_INTENSITY true t_max =
       some [s0, s0, s0, s0] ∧
     swizzle [t0, t1, t2, t3] [s0, s1, s2, s3] CL_LUMINANCE true t_max =
       some [s0, s0, s0, t_max] ∧
     swizzle [t0, t1, t2, t3] [s0, s1, s2, s3] CL_RG true t_max = some [s0, s1, 0, t_max] ∧
     swizzle [t0, t1, t2, t3] [s0, s1, s2, s3] CL_RGx true t_max = some [s0, s1, 0, t_max] ∧
     swizzle [t0, t1, t2, t3] [s0, s1, s2, s3] CL_RA true t_max = some [s0, 0, 0, s1] ∧
     swizzle [t0, t1, t2, t3] [s0, s1, s2, s3] CL_RGB true t_max = some [s0, s1, s2, s3] ∧
     swizzle [t0, t1, t2, t3] [s0, s1, s2, s3] CL_RGBx true t_max = some [s0, s1, s2, s3] ∧
     swizzle [t0, t1, t2, t3] [s0, s1, s2, s3] CL_RGBA true t_max = some [s0, s1, s2, s3] ∧
     swizzle [t0, t1, t2, t3] [s0, s1, s2, s3] CL_ARGB true t_max = some [s1, s2, s3, s0] ∧
     swizzle [t0, t1, t2, t3] [s0, s1, s2, s3] CL_BGRA true t_max = some [s2, s1, s0, s3]) ∧
    ((∃ r, swizzle [t0, t1, t2, t3] [s0, s1, s2, s3] CL_A false t_max = some r ∧
        r[0]? = some s3) ∧
     (∃ r, swizzle [t0, t1, t2, t3] [s0, s1, s2, s3] CL_RA false t_max = some r ∧
        r[0]? = some s0 ∧ r[1]? = some s3) ∧
     swizzle [t0, t1, t2, t3] [s0, s1, s2, s3] CL_ARGB false t_max = some [s3, s0, s1, s2] ∧
     swizzle [t0, t1, t2, t3] [s0, s1, s2, s3] CL_BGRA false t_max = some [s2, s1, s0, s3] ∧
     ∀ order, order ≠ CL_A → order ≠ CL_RA → order ≠ CL_ARGB → order ≠ CL_BGRA →
       swizzle [t0, t1, t2, t3] [s0, s1, s2, s3] order false t_max =
         some [s0, s1, s2, s3]) := by
  refine ⟨⟨rfl, rfl, rfl, rfl, rfl, rfl, rfl, rfl, rfl, rfl, rfl, rfl, rfl⟩,
    ⟨_, rfl, rfl⟩, ⟨_, rfl, rfl, rfl⟩, rfl, rfl, ?_⟩
  intro order h1 h2 h3 h4
  show (if order = CL_A then _ else _) = _
  rw [if_neg h1, if_neg h2, if_neg h3, if_neg h4]
  rfl

/-- Witness for C23: writing the order `CL_RGB` copies the source. -/
theorem swizzle_documented_witness :
    swizzle [9, 9, 9, 9] [1, 2, 3, 4] CL_RGB false 255 = some [1, 2, 3, 4] :=
  (swizzle_documented 9 9 9 9 1 2 3 4 255).2.2.2.2.2 CL_RGB (by decide) (by decide)
    (by decide) (by decide)

/-- C24: on the components 1, 2, 3 and 4 the conversions to the 8-bit and to
the 16-bit types leave the fourth narrow element 0 and not 4: the loops stop
after three components. -/
theorem slow_convert_fourth_component :
    readWord dataExample 3 = some 4 ∧
    slow_convert_to_format4ui dataExample CL_UNSIGNED_INT8 =
      some [1, 2, 3, 0, 2, 0, 0, 0, 3, 0, 0, 0, 4, 0, 0, 0] ∧
    slow_convert_to_format4i dataExample CL_SIGNED_INT8 =
      some [1, 2, 3, 0, 2, 0, 0, 0, 3, 0, 0, 0, 4, 0, 0, 0] ∧
    slow_convert_to_format4ui dataExample CL_UNSIGNED_INT16 =
      some [1, 0, 2, 0, 3, 0, 0, 0, 3, 0, 0, 0, 4, 0, 0, 0] ∧
    slow_convert_to_format4i dataExample CL_SIGNED_INT16 =
      some [1, 0, 2, 0, 3, 0, 0, 0, 3, 0, 0, 0, 4, 0, 0, 0] ∧
    (slow_convert_to_format4ui dataExample CL_UNSIGNED_INT8).bind (fun d => readByte d 3) =
      some 0 ∧
    (slow_convert_to_format4ui dataExample CL_UNSIGNED_INT16).bind (fun d => readHalf d 3) =
      some 0 := by
  decide

/-! ## Theorems: the local ids of the slots -/

theorem littleEndian_length (ns : List Nat) : ∀ k, (littleEndian k ns).length = ns.length := by
  induction ns with
  | nil => intro k; rfl
  | cons n ns ih =>
      intro k
      show (littleEndian (k / n) ns).length + 1 = ns.length + 1
      rw [ih]

theorem littleEndian_zero (ns : List Nat) :
    littleEndian 0 ns = List.replicate ns.length 0 := by
  induction ns with
  | nil => rfl
  | cons n ns ih =>
      show 0 % n :: littleEndian (0 / n) ns = 0 :: List.replicate ns.length 0
      rw [Nat.zero_mod, Nat.zero_div, ih]

theorem incVec_littleEndian (ns : List Nat) :
    ∀ (k : Nat) (pad tail : List Nat), (∀ n ∈ ns, 0 < n ∧ n < SIZE_T) →
      incVec ns.length (littleEndian k ns ++ pad) (ns.map (fun l => l - 1) ++ tail) =
        littleEndian (k + 1) ns ++ pad := by
  induction ns with
  | nil =>
      intro k pad tail _
      cases pad <;> rfl
  | cons n ns ih =>
      intro k pad tail hpos
      have hn := hpos n (List.mem_cons_self n ns)
      have hrest : ∀ m ∈ ns, 0 < m ∧ m < SIZE_T := fun m hm => hpos m (List.mem_cons_of_mem n hm)
      have hlt : k % n < n := Nat.mod_lt k hn.1
      have hsmall : (k % n + 1) % SIZE_T = k % n + 1 := Nat.mod_eq_of_lt (by omega)
      have hk : n * (k / n) + k % n = k := Nat.div_add_mod k n
      show (if (k % n + 1) % SIZE_T > n - 1 then
          0 :: incVec ns.length (littleEndian (k / n) ns ++ pad)
            (ns.map (fun l => l - 1) ++ tail)
        else ((k % n + 1) % SIZE_T) :: (littleEndian (k / n) ns ++ pad)) =
        (k + 1) % n :: (littleEndian ((k + 1) / n) ns ++ pad)
      rw [hsmall]
      by_cases hw : k % n + 1 > n - 1
      · rw [if_pos hw, ih (k / n) pad tail hrest]
        have he : k + 1 = n * (k / n + 1) := by
          rw [Nat.mul_add, Nat.mul_one]
          omega
        have h1 : (k + 1) % n = 0 := by rw [he, Nat.mul_mod_right]
        have h2 : (k + 1) / n = k / n + 1 := by rw [he, Nat.mul_div_cancel_left _ hn.1]
        rw [h1, h2]
      · rw [if_neg hw]
        have hr : k % n + 1 < n := by omega
        have he : k + 1 = n * (k / n) + (k % n + 1) := by omega
        have h1 : (k + 1) % n = k % n + 1 := by
          rw [he, Nat.mul_add_mod, Nat.mod_eq_of_lt hr]
        have h2 : (k + 1) / n = k / n := by
          rw [he, Nat.mul_add_div hn.1, Nat.div_eq_of_lt hr, Nat.add_zero]
        rw [h1, h2]

theorem littleEndian_injective (ns : List Nat) :
    ∀ k k2 : Nat, littleEndian k ns = littleEndian k2 ns → k % ns.prod = k2 % ns.prod := by
  induction ns with
  | nil =>
      intro k k2 _
      simp [Nat.mod_one]
  | cons n ns ih =>
      intro k k2 h
      have h1 : k % n = k2 % n := (List.cons.inj h).1
      have h2 := ih (k / n) (k2 / n) (List.cons.inj h).2
      rw [List.prod_cons, Nat.mod_mul, Nat.mod_mul, h1, h2]

theorem littleEndian_surjective (ns : List Nat) :
    ∀ v : List Nat, InRange v ns → ∃ k, k < ns.prod ∧ littleEndian k ns = v := by
  induction ns with
  | nil =>
      intro v hv
      cases v with
      | nil => exact ⟨0, by simp, rfl⟩
      | cons x vs => exact absurd hv (by simp [InRange])
  | cons n ns ih =>
      intro v hv
      cases v with
      | nil => exact absurd hv (by simp [InRange])
      | cons x vs =>
          have hx : x < n := hv.1
          obtain ⟨k, hk, hle⟩ := ih vs hv.2
          refine ⟨x + n * k, ?_, ?_⟩
          · rw [List.prod_cons]
            calc x + n * k < n + n * k := by omega
              _ = n * (k + 1) := by rw [Nat.mul_add, Nat.mul_one, Nat.add_comm]
              _ ≤ n * ns.prod := Nat.mul_le_mul_left n hk
          · show (x + n * k) % n :: littleEndian ((x + n * k) / n) ns = x :: vs
            rw [Nat.add_mul_mod_self_left, Nat.mod_eq_of_lt hx,
              Nat.add_mul_div_left _ _ (by omega : 0 < n), Nat.div_eq_of_lt hx, Nat.zero_add, hle]

theorem littleEndian_inRange (ns : List Nat) :
    ∀ k : Nat, (∀ n ∈ ns, 0 < n) → InRange (littleEndian k ns) ns := by
  induction ns with
  | nil =>
      intro k _
      exact True.intro
  | cons n ns ih =>
      intro k hpos
      exact ⟨Nat.mod_lt k (hpos n (List.mem_cons_self n ns)),
        ih (k / n) (fun m hm => hpos m (List.mem_cons_of_mem n hm))⟩

theorem nthLocalId_littleEndian (wg : CPUKernelWorkGroup) (ns : List Nat)
    (hlen : ns.length = wg.p_work_dim) (hdim : wg.p_work_dim ≤ MAX_WORK_DIMS)
    (hmax : wg.p_max_local_id.take wg.p_work_dim = ns.map (fun l => l - 1))
    (hpos : ∀ n ∈ ns, 0 < n ∧ n < SIZE_T) :
    ∀ k, nthLocalId wg k =
      littleEndian k ns ++ List.replicate (MAX_WORK_DIMS - wg.p_work_dim) 0 := by
  intro k
  induction k with
  | zero =>
      show List.replicate MAX_WORK_DIMS 0 = _
      rw [littleEndian_zero, hlen, ← List.replicate_add]
      congr 1
      omega
  | succ k ih =>
      have hstep : nthLocalId wg (k + 1) =
          incVec wg.p_work_dim (nthLocalId wg k) wg.p_max_local_id := by
        unfold nthLocalId
        rw [Function.iterate_succ_apply']
      have hsplit : wg.p_max_local_id =
          ns.map (fun l => l - 1) ++ wg.p_max_local_id.drop wg.p_work_dim := by
        rw [← hmax, List.take_append_drop]
      rw [hstep, ih, hsplit, ← hlen]
      exact incVec_littleEndian ns k _ _ hpos

theorem initNextContext_other (C : Nat) (h : Host) (wg : CPUKernelWorkGroup) (th : Thread)
    (next main x : Nat) (hx : x ≠ next) :
    (initNextContext C h wg th next main).1.mem x = th.mem x := by
  unfold initNextContext
  by_cases hg : h.getcontext_next = 0 <;> simp [hg, store, hx]

theorem initNextContext_switches (C : Nat) (h : Host) (wg : CPUKernelWorkGroup) (th : Thread)
    (next main : Nat) (hg : h.getcontext_next = 0) :
    (initNextContext C h wg th next main).2 = true := by
  unfold initNextContext
  simp [hg]

theorem takeNextContext_cases (C : Nat) (h : Host) (wg : CPUKernelWorkGroup) (th : Thread)
    (hg : h.getcontext_next = 0) :
    takeNextContext C h wg th =
      switchContext { wg with p_current_work_item := nextWorkItem wg }
        (if (th.mem (getContextAddr C wg (nextWorkItem wg))).initialized = 0 then
          (initNextContext C h { wg with p_current_work_item := nextWorkItem wg } th
            (getContextAddr C wg (nextWorkItem wg)) (getContextAddr C wg 0)).1
        else th)
        (getContextAddr C wg (nextWorkItem wg)) := by
  by_cases hinit : (th.mem (getContextAddr C wg (nextWorkItem wg))).initialized = 0
  · rw [if_pos hinit]
    have hsw := initNextContext_switches C h { wg with p_current_work_item := nextWorkItem wg } th
      (getContextAddr C wg (nextWorkItem wg)) (getContextAddr C wg 0) hg
    show (if (th.mem (getContextAddr C wg (nextWorkItem wg))).initialized = 0 then _ else _) = _
    rw [if_pos hinit]
    show (if (initNextContext C h { wg with p_current_work_item := nextWorkItem wg } th
      (getContextAddr C wg (nextWorkItem wg)) (getContextAddr C wg 0)).2 = false then _
      else _) = _
    rw [if_neg (by rw [hsw]; decide)]
    rfl
  · rw [if_neg hinit]
    show (if (th.mem (getContextAddr C wg (nextWorkItem wg))).initialized = 0 then _ else _) = _
    rw [if_neg hinit]
    rfl

theorem takeNextContext_current (C : Nat) (h : Host) (wg : CPUKernelWorkGroup) (th : Thread)
    (hg : h.getcontext_next = 0) :
    (takeNextContext C h wg th).1.p_current_context = getContextAddr C wg (nextWorkItem wg) ∧
    (takeNextContext C h wg th).1.p_work_dim = wg.p_work_dim ∧
    (takeNextContext C h wg th).1.p_max_local_id = wg.p_max_local_id := by
  rw [takeNextContext_cases C h wg th hg]
  exact ⟨rfl, rfl, rfl⟩

theorem takeNextContext_other (C : Nat) (h : Host) (wg : CPUKernelWorkGroup) (th : Thread)
    (hg : h.getcontext_next = 0) (x : Nat) (hx : x ≠ getContextAddr C wg (nextWorkItem wg)) :
    ((takeNextContext C h wg th).2.mem x).initialized = (th.mem x).initialized ∧
    ((takeNextContext C h wg th).2.mem x).local_id = (th.mem x).local_id := by
  rw [takeNextContext_cases C h wg th hg]
  unfold switchContext
  simp only [store_saved_initialized, store_saved_local_id]
  by_cases hinit : (th.mem (getContextAddr C wg (nextWorkItem wg))).initialized = 0
  · rw [if_pos hinit, initNextContext_other _ _ _ _ _ _ _ hx]
    exact ⟨rfl, rfl⟩
  · rw [if_neg hinit]
    exact ⟨rfl, rfl⟩

theorem incVec_length : ∀ (dims : Nat) (vec maxs : List Nat),
    (incVec dims vec maxs).length = vec.length := by
  intro dims
  induction dims with
  | zero =>
      intro vec maxs
      cases vec <;> cases maxs <;> rfl
  | succ dims ih =>
      intro vec maxs
      cases vec with
      | nil => cases maxs <;> rfl
      | cons v vec =>
          cases maxs with
          | nil => rfl
          | cons m maxs =>
              show (if (v + 1) % SIZE_T > m then 0 :: incVec dims vec maxs
                else ((v + 1) % SIZE_T) :: vec).length = _
              split_ifs
              · show (incVec dims vec maxs).length + 1 = vec.length + 1
                rw [ih]
              · rfl

theorem nthLocalId_succ (wg : CPUKernelWorkGroup) (k : Nat) :
    nthLocalId wg (k + 1) = incVec wg.p_work_dim (nthLocalId wg k) wg.p_max_local_id := by
  unfold nthLocalId
  rw [Function.iterate_succ_apply']

theorem nthLocalId_length (wg : CPUKernelWorkGroup) (k : Nat) :
    (nthLocalId wg k).length = MAX_WORK_DIMS := by
  induction k with
  | zero => exact List.length_replicate _ _
  | succ k ih => rw [nthLocalId_succ, incVec_length, ih]

theorem slot_injective (C P S i j : Nat) (hsz : 0 < C + S)
    (h : P + i * (C + S) = P + j * (C + S)) : i = j :=
  Nat.eq_of_mul_eq_mul_right hsz (Nat.add_left_cancel h)

theorem slotsInvariant_step (C P : Nat) (wg0 wg : CPUKernelWorkGroup) (th : Thread) (h : Host)
    (k : Nat) (hg : h.getcontext_next = 0) (hsz : 0 < C + wg0.p_stack_size)
    (hN : 0 < wg0.p_num_work_items) (hinv : SlotsInvariant C P wg0 k wg th) :
    SlotsInvariant C P wg0 (k + 1) (takeNextContext C h wg th).1
      (takeNextContext C h wg th).2 := by
  obtain ⟨hP, hnum, hS, hwd, hmax, hcwi, hcur, hslots⟩ := hinv
  obtain ⟨f1, f2, f3, f4⟩ := takeNextContext_fields C h wg th
  obtain ⟨g1, g2, g3⟩ := takeNextContext_current C h wg th hg
  have hnext : nextWorkItem wg = (k + 1) % wg0.p_num_work_items := by
    unfold nextWorkItem
    rw [hcwi, hnum, next_work_item_mod _ _ (Nat.mod_lt k hN), Nat.mod_add_mod]
  have haddr : ∀ j, getContextAddr C wg j = P + j * (C + wg0.p_stack_size) := by
    intro j
    unfold getContextAddr
    rw [hP, hS]
  have haddr2 : ∀ j, getContextAddr C (takeNextContext C h wg th).1 j =
      P + j * (C + wg0.p_stack_size) := by
    intro j
    unfold getContextAddr
    rw [f2, f4, hP, hS]
  refine ⟨by rw [f2, hP], by rw [f3, hnum], by rw [f4, hS], by rw [g2, hwd], by rw [g3, hmax],
    by rw [f1, hnext], by rw [g1, hnext, haddr, haddr2], ?_⟩
  intro j hj
  rw [haddr2]
  by_cases hjn : j = (k + 1) % wg0.p_num_work_items
  · have hslot : P + j * (C + wg0.p_stack_size) = getContextAddr C wg (nextWorkItem wg) := by
      rw [haddr, hnext, hjn]
    rw [hslot]
    by_cases hlt : k + 1 < wg0.p_num_work_items
    · have hjk : j = k + 1 := by rw [hjn, Nat.mod_eq_of_lt hlt]
      have hold := (hslots (k + 1) hlt).2 (Nat.lt_succ_self k)
      have hcurk := (hslots k (by omega)).1 (le_refl k)
      have hkm : k % wg0.p_num_work_items = k := Nat.mod_eq_of_lt (by omega)
      have hnx : getContextAddr C wg (nextWorkItem wg) = getContextAddr C wg (k + 1) := by
        rw [hnext, Nat.mod_eq_of_lt hlt]
      have hun := takeNextContext_next_uninit C h wg th (by rw [hnx]; exact hold.1)
      refine ⟨fun _ => ⟨hun.1, ?_⟩, fun hc => by omega⟩
      rw [hun.2, hnx, hcur, hkm, hcurk.2, hjk, nthLocalId_succ, hwd, hmax]
      congr 1
      unfold memcpy
      rw [List.take_of_length_le (by rw [nthLocalId_length]),
        List.drop_of_length_le (by rw [hold.2]), List.append_nil]
    · have hle : j ≤ k := by
        have := Nat.mod_lt (k + 1) hN
        omega
      have hold := (hslots j hj).1 hle
      have hnx : getContextAddr C wg (nextWorkItem wg) = getContextAddr C wg j := by
        rw [hnext, hjn]
      have hin := takeNextContext_next_init C h wg th (by rw [hnx, hold.1]; decide)
      refine ⟨fun _ => ?_, fun hc => by omega⟩
      rw [hin.1, hin.2, hnx]
      exact hold
  · have hne : P + j * (C + wg0.p_stack_size) ≠ getContextAddr C wg (nextWorkItem wg) := by
      rw [haddr, hnext]
      intro he
      exact hjn (slot_injective C P wg0.p_stack_size _ _ hsz he)
    have hoth := takeNextContext_other C h wg th hg _ hne
    rw [hoth.1, hoth.2, ← haddr]
    refine ⟨fun hjk => (hslots j hj).1 ?_, fun hjk => (hslots j hj).2 (by omega)⟩
    by_contra hc
    have hjk2 : j = k + 1 := by omega
    apply hjn
    rw [hjk2, Nat.mod_eq_of_lt (by omega)]

theorem atTakeNext_fresh (C : Nat) (h : Host) (wg : CPUKernelWorkGroup) (th : Thread)
    (hpool : wg.p_contexts = 0) (hdata : th.work_items_data = 0)
    (hmap : h.mmap_ret ≠ MAP_FAILED) :
    (atTakeNext C h wg th).1.p_contexts = h.mmap_ret ∧
    (atTakeNext C h wg th).1.p_stack_size = wg.p_stack_size ∧
    (atTakeNext C h wg th).1.p_current_context = h.mmap_ret ∧
    ((atTakeNext C h wg th).2.mem h.mmap_ret).initialized = 1 ∧
    ((atTakeNext C h wg th).2.mem h.mmap_ret).local_id =
      memsetZero (mmapZero th.mem h.mmap_ret
        (wg.p_num_work_items * (wg.p_stack_size + C) % SIZE_T) h.mmap_ret).local_id
        wg.p_work_dim ∧
    ∀ x, x ≠ h.mmap_ret → (atTakeNext C h wg th).2.mem x =
      mmapZero th.mem h.mmap_ret (wg.p_num_work_items * (wg.p_stack_size + C) % SIZE_T) x := by
  unfold atTakeNext allocateStacks initMainContext getWorkItemsData setWorkItemsData
    getContextAddr
  simp only [hpool, hdata, if_true, true_or, ne_eq, not_true_eq_false, if_false, hmap,
    Nat.zero_mul, Nat.add_zero]
  refine ⟨trivial, trivial, trivial, ?_, ?_, ?_⟩
  · by_cases hg : h.getcontext_main = 0 <;> simp [hg, store]
  · by_cases hg : h.getcontext_main = 0 <;> simp [hg, store]
  · intro x hx
    simp [store, hx]

theorem memsetZero_zero (n m : Nat) :
    memsetZero (List.replicate m 0) n = List.replicate m 0 := by
  unfold memsetZero
  rw [List.length_replicate, List.drop_replicate, ← List.replicate_add]
  congr 1
  omega

theorem slotsInvariant_base (C : Nat) (h : Host) (wg : CPUKernelWorkGroup) (th : Thread)
    (hpool : wg.p_contexts = 0) (hcur : wg.p_current_work_item = 0)
    (hdata : th.work_items_data = 0) (hmap : h.mmap_ret ≠ MAP_FAILED)
    (hsz : 0 < C + wg.p_stack_size)
    (hfit : wg.p_num_work_items * (wg.p_stack_size + C) < SIZE_T) :
    SlotsInvariant C h.mmap_ret wg 0 (atTakeNext C h wg th).1 (atTakeNext C h wg th).2 := by
  obtain ⟨a1, a2, a3, a4, a5, a6⟩ := atTakeNext_fresh C h wg th hpool hdata hmap
  obtain ⟨b1, b2, b3, b4⟩ := atTakeNext_fields C h wg th
  have haddr : ∀ j, getContextAddr C (atTakeNext C h wg th).1 j =
      h.mmap_ret + j * (C + wg.p_stack_size) := by
    intro j
    unfold getContextAddr
    rw [a1, a2]
  have hzero : ∀ j, j < wg.p_num_work_items →
      mmapZero th.mem h.mmap_ret (wg.p_num_work_items * (wg.p_stack_size + C) % SIZE_T)
        (h.mmap_ret + j * (C + wg.p_stack_size)) = Context.zero := by
    intro j hj
    unfold mmapZero
    rw [Nat.mod_eq_of_lt hfit, if_pos]
    refine ⟨Nat.le_add_right _ _, ?_⟩
    have h1 : j * (C + wg.p_stack_size) < wg.p_num_work_items * (C + wg.p_stack_size) :=
      Nat.mul_lt_mul_of_pos_right hj hsz
    rw [Nat.add_comm wg.p_stack_size C]
    omega
  refine ⟨a1, b4, a2, b1, b2, by rw [b3, hcur, Nat.zero_mod],
    by rw [a3, haddr, Nat.zero_mod, Nat.zero_mul, Nat.add_zero], ?_⟩
  intro j hj
  rw [haddr]
  by_cases hj0 : j = 0
  · subst hj0
    rw [Nat.zero_mul, Nat.add_zero]
    refine ⟨fun _ => ⟨a4, ?_⟩, fun hc => by omega⟩
    have hz := hzero 0 hj
    rw [Nat.zero_mul, Nat.add_zero] at hz
    rw [a5, hz]
    exact memsetZero_zero _ _
  · have hne : h.mmap_ret + j * (C + wg.p_stack_size) ≠ h.mmap_ret := by
      have : 0 < j * (C + wg.p_stack_size) := Nat.mul_pos (by omega) hsz
      omega
    refine ⟨fun hc => by omega, fun _ => ?_⟩
    rw [a6 _ hne, hzero j hj]
    exact ⟨rfl, rfl⟩

theorem slotsInvariant_barriers (C P : Nat) (wg0 : CPUKernelWorkGroup) (hs : List Host) :
    ∀ (wg : CPUKernelWorkGroup) (th : Thread) (k : Nat), P ≠ 0 →
      (∀ x ∈ hs, x.getcontext_next = 0) → 0 < C + wg0.p_stack_size →
      0 < wg0.p_num_work_items → SlotsInvariant C P wg0 k wg th →
      SlotsInvariant C P wg0 (k + hs.length) (barriers C hs wg th).1
        (barriers C hs wg th).2 := by
  induction hs with
  | nil =>
      intro wg th k _ _ _ _ hinv
      exact hinv
  | cons h hs ih =>
      intro wg th k hP hget hsz hN hinv
      have hpool : wg.p_contexts ≠ 0 := by
        rw [hinv.1]
        exact hP
      have hstep : SlotsInvariant C P wg0 (k + 1) (barrier C h 0 wg th).1
          (barrier C h 0 wg th).2 := by
        rw [barrier_attached C h 0 wg th hpool]
        exact slotsInvariant_step C P wg0 { wg with p_had_barrier := true } th h k
          (hget h (List.mem_cons_self h hs)) hsz hN hinv
      have := ih (barrier C h 0 wg th).1 (barrier C h 0 wg th).2 (k + 1) hP
        (fun x hx => hget x (List.mem_cons_of_mem h hx)) hsz hN hstep
      have hk : k + (h :: hs).length = k + 1 + hs.length := by
        rw [List.length_cons]
        omega
      rw [hk]
      exact this

theorem le_prod_of_mem_pos (ns : List Nat) (hpos : ∀ n ∈ ns, 0 < n) (l : Nat) (hl : l ∈ ns) :
    l ≤ ns.prod :=
  Nat.le_of_dvd (List.prod_pos hpos) (List.dvd_prod hl)

/-- C27: a work-group with no pool attached, about to run work-item 0 on a
thread that owns no pool, makes `k = 1 + |hs|` barrier calls, the first of
which maps a zeroed pool, none failing in `getcontext`.  Then the current
context is the slot of the current work-item; the slot `j` is initialized
exactly when `j ≤ k`, and an initialized slot `j` holds `incVec` applied `j`
times to the zero vector; and once all `N` slots are initialized, `N` being
the product of the local sizes, their local ids are in the local range,
pairwise distinct, and every local id of the range is the one of a slot. -/
theorem barrier_slots_local_ids (C : Nat) (wg : CPUKernelWorkGroup) (th : Thread) (h : Host)
    (hs : List Host) (r : CPUKernelWorkGroup × Thread)
    (hr : r = barriers C (h :: hs) wg th)
    (hpool : wg.p_contexts = 0) (hcur : wg.p_current_work_item = 0)
    (hdata : th.work_items_data = 0)
    (hmap : h.mmap_ret ≠ 0 ∧ h.mmap_ret ≠ MAP_FAILED)
    (hget : ∀ x ∈ h :: hs, x.getcontext_next = 0)
    (hsz : 0 < C + wg.p_stack_size)
    (hfit : wg.p_num_work_items * (wg.p_stack_size + C) < SIZE_T)
    (hdim : wg.p_work_dim ≤ MAX_WORK_DIMS)
    (hlocal : wg.p_event.p_local_work_size.length = MAX_WORK_DIMS)
    (hpos : ∀ l ∈ wg.p_event.p_local_work_size.take wg.p_work_dim, 0 < l)
    (hmax : wg.p_max_local_id.take wg.p_work_dim =
      (wg.p_event.p_local_work_size.take wg.p_work_dim).map (fun l => l - 1))
    (hnum : wg.p_num_work_items = (wg.p_event.p_local_work_size.take wg.p_work_dim).prod) :
    r.1.p_current_context = getContextAddr C r.1 r.1.p_current_work_item ∧
    r.1.p_current_work_item = (hs.length + 1) % wg.p_num_work_items ∧
    (∀ j, j < wg.p_num_work_items →
      ((r.2.mem (getContextAddr C r.1 j)).initialized ≠ 0 ↔ j ≤ hs.length + 1)) ∧
    (∀ j, j < wg.p_num_work_items → (r.2.mem (getContextAddr C r.1 j)).initialized ≠ 0 →
      (r.2.mem (getContextAddr C r.1 j)).local_id = nthLocalId wg j) ∧
    (wg.p_num_work_items ≤ hs.length + 2 →
      (∀ j, j < wg.p_num_work_items →
        (r.2.mem (getContextAddr C r.1 j)).initialized ≠ 0 ∧
        InLocalRange wg (r.2.mem (getContextAddr C r.1 j)).local_id) ∧
      (∀ i j, i < wg.p_num_work_items → j < wg.p_num_work_items →
        (r.2.mem (getContextAddr C r.1 i)).local_id =
          (r.2.mem (getContextAddr C r.1 j)).local_id → i = j) ∧
      (∀ v, InLocalRange wg v →
        ∃ j, j < wg.p_num_work_items ∧ (r.2.mem (getContextAddr C r.1 j)).local_id = v)) := by
  have hN : 0 < wg.p_num_work_items := by
    rw [hnum]
    exact List.prod_pos hpos
  have hbase := slotsInvariant_base C h wg th hpool hcur hdata hmap.2 hsz hfit
  have hfirst := slotsInvariant_step C h.mmap_ret wg _ _ h 0
    (hget h (List.mem_cons_self h hs)) hsz hN hbase
  rw [← barrier_eq_takeNext C h 0 wg th (Or.inr hcur)] at hfirst
  have hall := slotsInvariant_barriers C h.mmap_ret wg hs _ _ (0 + 1) hmap.1
    (fun x hx => hget x (List.mem_cons_of_mem h hx)) hsz hN hfirst
  have hrr : barriers C hs (barrier C h 0 wg th).1 (barrier C h 0 wg th).2 = r := by
    rw [hr]
    rfl
  rw [hrr, Nat.zero_add, Nat.add_comm 1 hs.length] at hall
  obtain ⟨_, _, _, _, _, hcwi, hctx, hslots⟩ := hall
  have hlen : (wg.p_event.p_local_work_size.take wg.p_work_dim).length = wg.p_work_dim := by
    rw [List.length_take, hlocal]
    omega
  have hbound : ∀ n ∈ wg.p_event.p_local_work_size.take wg.p_work_dim, 0 < n ∧ n < SIZE_T := by
    intro n hn
    refine ⟨hpos n hn, ?_⟩
    have h1 := le_prod_of_mem_pos _ hpos n hn
    rw [← hnum] at h1
    have h2 : wg.p_num_work_items * 1 ≤ wg.p_num_work_items * (wg.p_stack_size + C) :=
      Nat.mul_le_mul_left _ (by omega)
    omega
  have hdigits := nthLocalId_littleEndian wg _ hlen hdim hmax hbound
  have hinit : ∀ j, j < wg.p_num_work_items →
      ((r.2.mem (getContextAddr C r.1 j)).initialized ≠ 0 ↔ j ≤ hs.length + 1) := by
    intro j hj
    constructor
    · intro hne
      by_contra hc
      exact hne ((hslots j hj).2 (by omega)).1
    · intro hle
      rw [((hslots j hj).1 hle).1]
      decide
  have hid : ∀ j, j < wg.p_num_work_items →
      (r.2.mem (getContextAddr C r.1 j)).initialized ≠ 0 →
      (r.2.mem (getContextAddr C r.1 j)).local_id = nthLocalId wg j := by
    intro j hj hne
    exact ((hslots j hj).1 ((hinit j hj).1 hne)).2
  refine ⟨by rw [hctx, hcwi], hcwi, hinit, hid, fun hfull => ?_⟩
  have hin : ∀ j, j < wg.p_num_work_items →
      (r.2.mem (getContextAddr C r.1 j)).initialized ≠ 0 :=
    fun j hj => (hinit j hj).2 (by omega)
  refine ⟨fun j hj => ⟨hin j hj, ?_⟩, fun i j hi hj he => ?_, fun v hv => ?_⟩
  · rw [hid j hj (hin j hj), hdigits]
    have hl := littleEndian_length (wg.p_event.p_local_work_size.take wg.p_work_dim) j
    rw [hlen] at hl
    refine ⟨?_, ?_⟩
    · rw [List.take_left' hl]
      exact littleEndian_inRange _ j hpos
    · rw [List.drop_left' hl]
  · rw [hid i hi (hin i hi), hid j hj (hin j hj), hdigits, hdigits] at he
    have h1 := littleEndian_injective _ i j (List.append_cancel_right he)
    rw [← hnum, Nat.mod_eq_of_lt hi, Nat.mod_eq_of_lt hj] at h1
    exact h1
  · obtain ⟨j, hj, hle⟩ := littleEndian_surjective _ _ hv.1
    rw [← hnum] at hj
    refine ⟨j, hj, ?_⟩
    rw [hid j hj (hin j hj), hdigits, hle, ← hv.2, List.take_append_drop]

/-- Witness for C27: the eight work-items of `wgExample3` (local sizes
2 x 2 x 2) after eight barrier calls on a fresh thread: work-item 0 runs
again, in slot 0, and every local id of the range is the one of a slot. -/
theorem barrier_slots_local_ids_witness :
    (wgExample3.p_contexts = 0 ∧ wgExample3.p_current_work_item = 0 ∧
      threadFresh.work_items_data = 0 ∧
      (hostA.mmap_ret ≠ 0 ∧ hostA.mmap_ret ≠ MAP_FAILED) ∧
      (∀ x ∈ hostA :: List.replicate 7 hostA, x.getcontext_next = 0) ∧
      0 < sizeofContextExample + wgExample3.p_stack_size ∧
      wgExample3.p_num_work_items * (wgExample3.p_stack_size + sizeofContextExample) < SIZE_T ∧
      wgExample3.p_work_dim ≤ MAX_WORK_DIMS ∧
      wgExample3.p_event.p_local_work_size.length = MAX_WORK_DIMS ∧
      (∀ l ∈ wgExample3.p_event.p_local_work_size.take wgExample3.p_work_dim, 0 < l) ∧
      wgExample3.p_max_local_id.take wgExample3.p_work_dim =
        (wgExample3.p_event.p_local_work_size.take wgExample3.p_work_dim).map (fun l => l - 1) ∧
      wgExample3.p_num_work_items =
        (wgExample3.p_event.p_local_work_size.take wgExample3.p_work_dim).prod) ∧
    (barriers sizeofContextExample (hostA :: List.replicate 7 hostA) wgExample3
      threadFresh).1.p_current_context = 65536 ∧
    (∀ v, InLocalRange wgExample3 v → ∃ j, j < 8 ∧
      ((barriers sizeofContextExample (hostA :: List.replicate 7 hostA) wgExample3
        threadFresh).2.mem
        (getContextAddr sizeofContextExample
          (barriers sizeofContextExample (hostA :: List.replicate 7 hostA) wgExample3
            threadFresh).1 j)).local_id = v) :=
  have hyp : wgExample3.p_contexts = 0 ∧ wgExample3.p_current_work_item = 0 ∧
      threadFresh.work_items_data = 0 ∧
      (hostA.mmap_ret ≠ 0 ∧ hostA.mmap_ret ≠ MAP_FAILED) ∧
      (∀ x ∈ hostA :: List.replicate 7 hostA, x.getcontext_next = 0) ∧
      0 < sizeofContextExample + wgExample3.p_stack_size ∧
      wgExample3.p_num_work_items * (wgExample3.p_stack_size + sizeofContextExample) < SIZE_T ∧
      wgExample3.p_work_dim ≤ MAX_WORK_DIMS ∧
      wgExample3.p_event.p_local_work_size.length = MAX_WORK_DIMS ∧
      (∀ l ∈ wgExample3.p_event.p_local_work_size.take wgExample3.p_work_dim, 0 < l) ∧
      wgExample3.p_max_local_id.take wgExample3.p_work_dim =
        (wgExample3.p_event.p_local_work_size.take wgExample3.p_work_dim).map (fun l => l - 1) ∧
      wgExample3.p_num_work_items =
        (wgExample3.p_event.p_local_work_size.take wgExample3.p_work_dim).prod := by
    decide
  have key := barrier_slots_local_ids sizeofContextExample wgExample3 threadFresh hostA
    (List.replicate 7 hostA) _ rfl hyp.1 hyp.2.1 hyp.2.2.1 hyp.2.2.2.1 hyp.2.2.2.2.1
    hyp.2.2.2.2.2.1 hyp.2.2.2.2.2.2.1 hyp.2.2.2.2.2.2.2.1 hyp.2.2.2.2.2.2.2.2.1
    hyp.2.2.2.2.2.2.2.2.2.1 hyp.2.2.2.2.2.2.2.2.2.2.1 hyp.2.2.2.2.2.2.2.2.2.2.2
  ⟨hyp, by decide, (key.2.2.2.2 (by decide)).2.2⟩

end Clover
